import Mathlib

/-!
# SakuraEngine: the Boids test program and its scheduling contracts

A shallow embedding of `Source/Test/Boids/Source/Boids.cpp`: the access sets the
systems declare when they create passes, the task bodies they hand to the
scheduler, and the rules of the ECS pipeline they rely on.  The pipeline itself
(filter resolution, the dependency tracker, slicing) is not part of the sources
at hand; where a definition stands for it, its doc comment says so.
-/

namespace Sakura

/-! ## Declared data: component types, resources, filters, parameter lists -/

/-- Component types, as registered by `main` with `register_components<...>()`. -/
inductive Comp where
  | Translation | Rotation | RotationEuler | Scale | LocalToWorld | LocalToParent
  | WorldToLocal | Child | Parent | Boid | BoidTarget | MoveToward | RandomMoveTarget
  | Heading
  deriving DecidableEq, Repr

/-- Access tag of a declared parameter: `param<T>` is `Write`, `param<const T>` is
`Read`; for shared resources `write(r)` and `read(r)`. -/
inductive Access where
  | Read | Write
  deriving DecidableEq, Repr

/-- Shared resources that `BoidsSystem` creates with `make_resource`. -/
inductive Res where
  | positions | headings | kdtree | targets | targetTree | newHeadings
  deriving DecidableEq, Repr

/-- The brace initialiser of `filter.archetypeFilter`: `{all, any, none, shared}`;
members that the initialiser leaves out are empty. -/
structure archetype_filter where
  all : List Comp
  any : List Comp
  none : List Comp
  shared : List Comp
  deriving DecidableEq, Repr

/-- The brace initialiser of `filter.chunkFilter`: the component list and the
timestamp the chunks must have changed since. -/
structure chunk_filter where
  changed : List Comp
  prevTimestamp : Nat
  deriving DecidableEq, Repr

/-- The `ecs::filters` value a system fills in before it creates a pass. -/
structure filters where
  archetypeFilter : archetype_filter
  chunkFilter : chunk_filter
  deriving DecidableEq, Repr

/-- A default-constructed `filters` object (`filters filter;`). -/
def filters.default : filters :=
  { archetypeFilter := { all := [], any := [], none := [], shared := [] },
    chunkFilter := { changed := [], prevTimestamp := 0 } }

/-- What a system declares when it creates a unit of work: `create_pass(filter,
paramList, shareList)` or, without a filter, `create_custom_pass(shareList)`. -/
structure PassDecl where
  filter : Option filters
  paramList : List (Comp × Access)
  shareList : List (Res × Access)
  deriving DecidableEq, Repr

/-- A pass names a component type in its parameter list. -/
def PassDecl.declares (p : PassDecl) (x : Comp) : Bool :=
  p.paramList.any (fun e => decide (e.1 = x))

/-- The entry `param<T>` of a parameter list. -/
def param (c : Comp) : Comp × Access := (c, Access.Write)

/-- The entry `param<const T>` of a parameter list. -/
def param_const (c : Comp) : Comp × Access := (c, Access.Read)

/-- The share-list entry `read(r)`. -/
def read (r : Res) : Res × Access := (r, Access.Read)

/-- The share-list entry `write(r)`. -/
def write (r : Res) : Res × Access := (r, Access.Write)

/-! ## The entity store as the pipeline sees it -/

/-- Entity handle: index and generation. -/
structure entity where
  index : Nat
  generation : Nat
  deriving DecidableEq, Repr

/-- Modelled from the spec: a chunk of the entity store (the ECS library is not
among the sources).  It records the component set of the owning archetype, the
component types the archetype carries as shared values, the live rows, and the
last-write timestamp per component type. -/
structure Chunk where
  types : List Comp
  shared : List Comp
  entities : List entity
  lastWritten : List (Comp × Nat)
  deriving DecidableEq, Repr

/-- Modelled from the spec: the world is the list of its chunks. -/
abbrev World := List Chunk

/-- Modelled from the spec: a chunk carries a component type when its archetype
owns it or holds it as a shared value. -/
def Chunk.carries (c : Chunk) (x : Comp) : Bool :=
  decide (x ∈ c.types) || decide (x ∈ c.shared)

/-- Modelled from the spec: last-write timestamp of a component type in a chunk,
0 when it was never written. -/
def Chunk.timestamp (c : Chunk) (x : Comp) : Nat :=
  match c.lastWritten.find? (fun e => decide (e.1 = x)) with
  | some e => e.2
  | none => 0

/-- Modelled from the spec: (section 4.2) an archetype is selected when its component set
is a superset of `all`, meets `any` unless `any` is empty, and has no overlap
with `none`; a shared constraint requires the listed types among the shared
values. -/
def archetype_filter.selects (f : archetype_filter) (c : Chunk) : Bool :=
  f.all.all c.carries && (f.any.isEmpty || f.any.any c.carries)
    && !(f.none.any c.carries) && f.shared.all (fun x => decide (x ∈ c.shared))

/-- Modelled from the spec: (section 4.2) with a changed-since constraint, a chunk with
no write to any listed component since the timestamp is skipped. -/
def chunk_filter.selects (f : chunk_filter) (c : Chunk) : Bool :=
  f.changed.isEmpty || f.changed.any (fun x => decide (f.prevTimestamp < c.timestamp x))

/-- Modelled from the spec: (section 4.2) the chunks that become a pass's matched
slices. -/
def filters.selects (f : filters) (c : Chunk) : Bool :=
  f.archetypeFilter.selects c && f.chunkFilter.selects c

/-- Modelled from the spec: a custom pass has no filter and matches no chunk. -/
def PassDecl.selects (p : PassDecl) (c : Chunk) : Bool :=
  match p.filter with
  | some f => f.selects c
  | none => false

/-- Modelled from the spec: (section 4.2) `entityCount`, the summed live counts of the
matched chunks. -/
def PassDecl.entityCount (p : PassDecl) (w : World) : Nat :=
  ((w.filter p.selects).map (fun c => c.entities.length)).sum

/-! ## The dependency tracker's conflict rule -/

/-- Modelled from the spec: (section 4.3) two access lists meet on an id that both name
with at least one `Write`. -/
def accessConflict {ι : Type} [DecidableEq ι] (a b : List (ι × Access)) : Bool :=
  a.any (fun x => b.any (fun y =>
    decide (x.1 = y.1) && (decide (x.2 = Access.Write) || decide (y.2 = Access.Write))))

/-- Modelled from the spec: (section 4.3) the chunks two passes actually share. -/
def sharesChunk (w : World) (P Q : PassDecl) : Bool :=
  w.any (fun c => P.selects c && Q.selects c)

/-- Modelled from the spec: (section 4.3) `P` and `Q` conflict when (i) they meet on a
component id with a write, restricted to chunks they share, or (ii) they meet
on a shared-resource id with a write.  Read/Read never conflicts. -/
def conflict (w : World) (P Q : PassDecl) : Bool :=
  (sharesChunk w P Q && accessConflict P.paramList Q.paramList)
    || accessConflict P.shareList Q.shareList

/-- Modelled from the spec: (section 4.3) in a schedule (units in creation order) the
unit at position `i` is a required predecessor of the unit at position `j`
when it was created first and the two conflict. -/
def requiredPredecessor (w : World) (sched : List PassDecl) (i j : Nat) : Bool :=
  decide (i < j) &&
    match sched[i]?, sched[j]? with
    | some Q, some P => conflict w P Q
    | _, _ => false

/-! ## What `BoidsSystem` declares -/

namespace BoidsSystem

/-- The filter `boidFilter`. -/
def boidFilter : filters :=
  { filters.default with
    archetypeFilter :=
      { all := [Comp.Boid, Comp.Translation, Comp.Heading], any := [], none := [],
        shared := [Comp.Boid] } }

/-- The filter `targetFilter`. -/
def targetFilter : filters :=
  { filters.default with
    archetypeFilter :=
      { all := [Comp.BoidTarget, Comp.Translation], any := [], none := [], shared := [] } }

end BoidsSystem

/-- The pass `CopyComponent<C>(ppl, filter, vector)` creates: it declares
`param<const C>` and `write(vector)`. -/
def CopyComponent.decl (C : Comp) (filter : filters) (vector : Res) : PassDecl :=
  { filter := some filter, paramList := [param_const C], shareList := [write vector] }

namespace BoidsSystem

/-- `CopyComponent<Translation>(ppl, boidFilter, positions)`. -/
def copyPositions : PassDecl := CopyComponent.decl Comp.Translation boidFilter Res.positions

/-- `CopyComponent<Heading>(ppl, boidFilter, headings)`. -/
def copyHeadings : PassDecl := CopyComponent.decl Comp.Heading boidFilter Res.headings

/-- The custom pass "Build Boid KDTree". -/
def buildBoidKDTree : PassDecl :=
  { filter := none, paramList := [], shareList := [read Res.positions, write Res.kdtree] }

/-- `CopyComponent<Translation>(ppl, targetFilter, targets)`. -/
def copyTargets : PassDecl := CopyComponent.decl Comp.Translation targetFilter Res.targets

/-- The custom pass "Build Target KDTree". -/
def buildTargetKDTree : PassDecl :=
  { filter := none, paramList := [], shareList := [read Res.targets, write Res.targetTree] }

/-- The pass "Boid Main". -/
def boidMain : PassDecl :=
  { filter := some boidFilter,
    paramList := [param_const Comp.Heading, param_const Comp.Translation, param_const Comp.Boid],
    shareList := [read Res.kdtree, read Res.headings, read Res.targetTree,
      write Res.newHeadings] }

/-- The pass "Apply Boid". -/
def applyBoid : PassDecl :=
  { filter := some boidFilter,
    paramList := [param Comp.Heading, param Comp.Translation, param_const Comp.Boid],
    shareList := [read Res.newHeadings] }

/-- The units `BoidsSystem` schedules, in the order it creates them. -/
def units : List PassDecl :=
  [copyPositions, copyHeadings, buildBoidKDTree, copyTargets, buildTargetKDTree,
    boidMain, applyBoid]

end BoidsSystem

/-! ## Buffers, loops and slices -/

/-- A `std::vector` or `chunk_vector` (or one component array of a pass), together
with the log of the positions its elements were assigned at, oldest first.  The
log is bookkeeping only: no operation reads it. -/
structure Buffer (α : Type) where
  cells : List α
  written : List Nat

/-- The empty container `make_resource<...>()` creates. -/
def Buffer.empty {α : Type} : Buffer α := { cells := [], written := [] }

/-- The call `v.resize(n)`: the first `n` elements are kept and the container is
filled up to `n` with value-initialised elements `d`. -/
def Buffer.resize {α : Type} (v : Buffer α) (n : Nat) (d : α) : Buffer α :=
  { v with cells := v.cells.take n ++ List.replicate (n - v.cells.length) d }

/-- The assignment `v[i] = x`; outside the bounds it is undefined (`none`). -/
def Buffer.assign {α : Type} (v : Buffer α) (i : Nat) (x : α) : Option (Buffer α) :=
  if i < v.cells.length then
    some { cells := v.cells.set i x, written := v.written ++ [i] }
  else none

/-- The loop `forloop(i, z, n)` after `k` iterations remain, at counter `i`. -/
def forloopFrom {σ : Type} (body : Nat → σ → Option σ) : Nat → Nat → σ → Option σ
  | 0, _, s => some s
  | k + 1, i, s =>
    match body i s with
    | some s' => forloopFrom body k (i + 1) s'
    | none => none

/-- The macro `forloop(i, z, n)`: `for (auto i = z; i < (n); ++i)`. -/
def forloop {σ : Type} (z n : Nat) (body : Nat → σ → Option σ) (s : σ) : Option σ :=
  forloopFrom body (n - z) z s

/-- Modelled from the spec: the slice a task works on, as `operation` exposes it:
`get_index()` is the pass position of its first entity and `get_count()` its
number of entities. -/
structure task where
  index : Nat
  count : Nat
  deriving DecidableEq, Repr

/-- The pass positions a slice covers. -/
def task.range (tk : task) : List Nat := List.range' tk.index tk.count

/-- Modelled from the spec: `o.get_parameter<C>()` points at the slice's rows of
the component array; `col` lists the component over the pass's matched
entities, so row `i` of the slice is pass position `get_index() + i`. -/
def operation.get_parameter {γ : Type} (col : List γ) (tk : task) (i : Nat) : Option γ :=
  col[tk.index + i]?

/-- Consecutive slices from position `s` up to position `e`. -/
def contiguous : Nat → List task → Nat → Prop
  | s, [], e => s = e
  | s, tk :: rest, e => tk.index = s ∧ contiguous (s + tk.count) rest e

/-- A partition of `[0, n)` into contiguous slices, listed in any order. -/
def IsSlicing (slices : List task) (n : Nat) : Prop :=
  ∃ ordered : List task, ordered.Perm slices ∧ contiguous 0 ordered n

/-- Modelled from the spec: (section 4.4) `schedule` runs the task body once on every
slice; the list gives the order in which they run. -/
def schedule {σ : Type} (body : task → σ → Option σ) (slices : List task) (s : σ) :
    Option σ :=
  slices.foldlM (fun st tk => body tk st) s

/-! ## `CopyComponent` -/

/-- The task body of `CopyComponent<C>`: `(*vector)[index + i] = comps[i]` for
every row of the slice.  `convert` is the conversion from the component's value
to the vector's element type. -/
def CopyComponent.body {γ α : Type} (convert : γ → α) (col : List γ) (tk : task)
    (vector : Buffer α) : Option (Buffer α) :=
  let index := tk.index
  let comps := operation.get_parameter col tk
  forloop 0 tk.count
    (fun i vector =>
      match comps i with
      | some c => vector.assign (index + i) (convert c)
      | none => none)
    vector

/-- The statement `vector->resize(pass->entityCount)` that `CopyComponent` runs
before it schedules the pass. -/
def CopyComponent.atSchedule {α : Type} (entityCount : Nat) (d : α) (vector : Buffer α) :
    Buffer α :=
  vector.resize entityCount d

/-- The call `CopyComponent<C>(ppl, filter, vector, maxSlice)` followed by the
run of its tasks: `col` is the component `C` over the entities the pass
matched, `slices` the slices the scheduler cut. -/
def CopyComponent.run {γ α : Type} (convert : γ → α) (col : List γ) (d : α)
    (slices : List task) (vector : Buffer α) : Option (Buffer α) :=
  schedule (CopyComponent.body convert col) slices
    (CopyComponent.atSchedule col.length d vector)

/-! ## The task bodies of `BoidsSystem` -/

/-- The operations of `sakura::Vector3f` and `sakura::math` that the boid passes
use, on vectors `V` and floats `S`; `ofSize` is the cast `(float)` of a
`size_t`.  Floating-point arithmetic itself is kept abstract. -/
structure VectorOps (V S : Type) where
  vector_zero : V
  add : V → V → V
  sub : V → V → V
  mul : V → S → V
  lmul : S → V → V
  div : V → S → V
  normalize : V → V
  ofSize : Nat → S

/-- The member functions of `core::algo::kdtree<BoidPosition>` that `BoidsSystem`
calls (`kdtree.h` is not among the sources): `search_k_radius` appends the
neighbours it finds, as pairs of distance and point index, to its last
argument; `get` is `operator[]` followed by `.value`; `initialise` stands for
the member the source calls with `std::move(*positions)` and gives the new tree
together with what is left in the moved-from vector. -/
structure KdTreeOps (K V S : Type) where
  search_k_radius : K → V → S → Nat → List (S × Nat) → List (S × Nat)
  get : K → Nat → V
  search_nearest : K → V → Nat
  initialise : K → List V → K × List V

/-- The fields of the shared component `Boid` that the passes read. -/
structure Boid (S : Type) where
  SightRadius : S
  AlignmentWeight : S
  SeparationWeight : S
  TargetWeight : S
  MoveSpeed : S

/-- The effect of `update_maximum(maximum_value, value)` when nothing interferes:
the stored value is replaced when it is smaller than `value`. -/
def update_maximum (maximum_value value : Nat) : Nat :=
  if maximum_value < value then value else maximum_value

namespace BoidsSystem

/-- The local variables of the "Boid Main" task body. -/
structure Locals (V S : Type) where
  neighbers : List (S × Nat)
  alignments : List V
  separations : List V
  targetings : List V

/-- What the "Boid Main" task body changes: the shared `newHeadings` and the two
global counters `averageNeighberCount` and `maxNeighberCount` (both
`std::atomic<size_t>`). -/
structure MainState (V : Type) where
  newHeadings : Buffer V
  averageNeighberCount : Nat
  maxNeighberCount : Nat

/-- What the "Boid Main" task body reads: the captured resources `headings`,
`kdtree`, `targetTree`, the captured `deltaTime`, the shared component `boid`,
and the `Heading` and `Translation` arrays of the pass. -/
structure MainInput (K V S : Type) where
  headings : List V
  kdtree : K
  targetTree : K
  deltaTime : S
  boid : Boid S
  hdsCol : List V
  trsCol : List V

namespace BoidMain

/-- The body of `for (auto ng : neighbers)`, on the pair of arrays `alignments`
and `separations`: `alignments[i] = alignments[i] + (*headings)[ng.second]` and
`separations[i] = separations[i] + (*kdtree)[ng.second].value`.  Reading
`(*headings)[ng.second]` outside the vector is undefined (`none`). -/
def accumulate {K V S : Type} (ops : VectorOps V S) (kd : KdTreeOps K V S)
    (inp : MainInput K V S) (i : Nat) (acc : List V × List V) (ng : S × Nat) :
    Option (List V × List V) :=
  match inp.headings[ng.2]? with
  | some h =>
    some (acc.1.set i (ops.add (acc.1.getD i ops.vector_zero) h),
      acc.2.set i (ops.add (acc.2.getD i ops.vector_zero) (kd.get inp.kdtree ng.2)))
  | none => none

/-- One iteration of "Collect Neighbors", up to the two counter updates: the
search into the cleared `neighbers`, the reset of `alignments[i]` and
`separations[i]`, and the loop over the neighbours found. -/
def collectNeighborsLocals {K V S : Type} (ops : VectorOps V S) (kd : KdTreeOps K V S)
    (inp : MainInput K V S) (trs : Nat → Option V) (i : Nat) (l : Locals V S) :
    Option (Locals V S) :=
  match trs i with
  | none => none
  | some t =>
    let neighbers := kd.search_k_radius inp.kdtree t inp.boid.SightRadius 10 []
    let alignments := l.alignments.set i ops.vector_zero
    let separations := l.separations.set i ops.vector_zero
    match neighbers.foldlM (accumulate ops kd inp i) (alignments, separations) with
    | none => none
    | some acc =>
      some { l with neighbers := neighbers, alignments := acc.1, separations := acc.2 }

/-- One iteration of "Collect Neighbors": the statements above, then
`averageNeighberCount += neighbers.size()` and
`update_maximum(maxNeighberCount, neighbers.size())`. -/
def collectNeighbors {K V S : Type} (ops : VectorOps V S) (kd : KdTreeOps K V S)
    (inp : MainInput K V S) (trs : Nat → Option V) (i : Nat)
    (st : Locals V S × MainState V) : Option (Locals V S × MainState V) :=
  match collectNeighborsLocals ops kd inp trs i st.1 with
  | none => none
  | some l =>
    some (l, { st.2 with
      averageNeighberCount := (st.2.averageNeighberCount + l.neighbers.length) % 2 ^ 64,
      maxNeighberCount := update_maximum st.2.maxNeighberCount l.neighbers.length })

/-- One iteration of "Collect Targets":
`targetings[i] = (*targetTree)[targetTree->search_nearest(trs[i])].value`. -/
def collectTargets {K V S : Type} (kd : KdTreeOps K V S) (inp : MainInput K V S)
    (trs : Nat → Option V) (i : Nat) (l : Locals V S) : Option (Locals V S) :=
  match trs i with
  | none => none
  | some t =>
    some { l with
      targetings := l.targetings.set i
        (kd.get inp.targetTree (kd.search_nearest inp.targetTree t)) }

/-- The value one iteration of "Calculate Boids" stores for row `i`, from the
row's heading `h` and translation `t`.  The neighbour count is
`neighbers.size()` as the first loop left it. -/
def newHeading {K V S : Type} (ops : VectorOps V S) (inp : MainInput K V S)
    (l : Locals V S) (h t : V) (i : Nat) : V :=
  let n := ops.ofSize l.neighbers.length
  let alignment := ops.normalize (ops.sub (ops.div (l.alignments.getD i ops.vector_zero) n) h)
  let separation := ops.normalize (ops.sub (ops.lmul n t) (l.separations.getD i ops.vector_zero))
  let targeting := ops.normalize (ops.sub (l.targetings.getD i ops.vector_zero) t)
  let newHeading := ops.normalize
    (ops.add (ops.add (ops.mul alignment inp.boid.AlignmentWeight)
      (ops.mul separation inp.boid.SeparationWeight))
      (ops.mul targeting inp.boid.TargetWeight))
  ops.normalize (ops.add h (ops.mul (ops.sub newHeading h) inp.deltaTime))

/-- One iteration of "Calculate Boids": `(*newHeadings)[index + i] = ...`. -/
def calculateBoids {K V S : Type} (ops : VectorOps V S) (inp : MainInput K V S)
    (l : Locals V S) (index : Nat) (hds trs : Nat → Option V) (i : Nat)
    (st : MainState V) : Option (MainState V) :=
  match hds i, trs i with
  | some h, some t =>
    match st.newHeadings.assign (index + i) (newHeading ops inp l h t i) with
    | some nh => some { st with newHeadings := nh }
    | none => none
  | _, _ => none

/-- The local arrays after `resize(o.get_count())`, before the first loop (the
loop assigns every element before it is read). -/
def locals0 {V S : Type} (ops : VectorOps V S) (tk : task) : Locals V S :=
  { neighbers := [],
    alignments := List.replicate tk.count ops.vector_zero,
    separations := List.replicate tk.count ops.vector_zero,
    targetings := List.replicate tk.count ops.vector_zero }

/-- The task body of the pass "Boid Main". -/
def body {K V S : Type} (ops : VectorOps V S) (kd : KdTreeOps K V S)
    (inp : MainInput K V S) (tk : task) (st : MainState V) : Option (MainState V) :=
  let index := tk.index
  let hds := operation.get_parameter inp.hdsCol tk
  let trs := operation.get_parameter inp.trsCol tk
  match forloop 0 tk.count (collectNeighbors ops kd inp trs) (locals0 ops tk, st) with
  | none => none
  | some (l, st) =>
    match forloop 0 tk.count (collectTargets kd inp trs) l with
    | none => none
    | some l => forloop 0 tk.count (calculateBoids ops inp l index hds trs) st

/-- The `max_slice` argument the pass "Boid Main" is scheduled with. -/
def maxSlice : Nat := 100

/-- The local variables of the task for slice `tk` after its first two loops. -/
def locals {K V S : Type} (ops : VectorOps V S) (kd : KdTreeOps K V S)
    (inp : MainInput K V S) (tk : task) : Option (Locals V S) :=
  let trs := operation.get_parameter inp.trsCol tk
  match forloop 0 tk.count (collectNeighborsLocals ops kd inp trs) (locals0 ops tk) with
  | none => none
  | some l => forloop 0 tk.count (collectTargets kd inp trs) l

/-- The value the task for slice `tk` computes for its row `i`. -/
def value {K V S : Type} (ops : VectorOps V S) (kd : KdTreeOps K V S)
    (inp : MainInput K V S) (tk : task) (i : Nat) : Option V :=
  match locals ops kd inp tk, operation.get_parameter inp.hdsCol tk i,
      operation.get_parameter inp.trsCol tk i with
  | some l, some h, some t => some (newHeading ops inp l h t i)
  | _, _, _ => none

end BoidMain

/-- The component arrays the "Apply Boid" tasks write: `Heading` and
`Translation` over the pass's matched entities. -/
structure ApplyState (V : Type) where
  hds : Buffer V
  trs : Buffer V

namespace ApplyBoid

/-- The `max_slice` argument the pass "Apply Boid" is scheduled with. -/
def maxSlice : Nat := 500

/-- The task body of the pass "Apply Boid".  The arrays `hds` and `trs` of the
slice start at pass position `index` of the pass's arrays. -/
def body {V S : Type} (ops : VectorOps V S) (boid : Boid S) (deltaTime : S)
    (newHeadings : List V) (tk : task) (st : ApplyState V) : Option (ApplyState V) :=
  let index := tk.index
  forloop 0 tk.count
    (fun i st =>
      match newHeadings[i + index]? with
      | none => none
      | some x =>
        match st.hds.assign (index + i) x with
        | none => none
        | some hds =>
          match st.trs.cells[index + i]?, hds.cells[index + i]? with
          | some t, some h =>
            match st.trs.assign (index + i)
                (ops.add t (ops.mul (ops.mul h deltaTime) boid.MoveSpeed)) with
            | some trs => some { hds := hds, trs := trs }
            | none => none
          | _, _ => none)
    st

end ApplyBoid

/-- The last two blocks of `BoidsSystem` and the run of their tasks:
`newHeadings` is created and resized to the entity count of the "Boid Main"
pass, the "Boid Main" tasks run over `mainSlices`, then the "Apply Boid" tasks
run over `applySlices` on the `Heading` and `Translation` arrays of the same
entities. -/
def computeAndApply {K V S : Type} (ops : VectorOps V S) (kd : KdTreeOps K V S)
    (inp : MainInput K V S) (d : V) (averageNeighberCount maxNeighberCount : Nat)
    (mainSlices applySlices : List task) : Option (MainState V × ApplyState V) :=
  let newHeadings := (Buffer.empty : Buffer V).resize inp.hdsCol.length d
  match schedule (BoidMain.body ops kd inp) mainSlices
      { newHeadings := newHeadings, averageNeighberCount := averageNeighberCount,
        maxNeighberCount := maxNeighberCount } with
  | none => none
  | some st =>
    match schedule (ApplyBoid.body ops inp.boid inp.deltaTime st.newHeadings.cells)
        applySlices
        { hds := { cells := inp.hdsCol, written := [] },
          trs := { cells := inp.trsCol, written := [] } } with
    | none => none
    | some ast => some (st, ast)

end BoidsSystem

/-! ## `BoidsSystem` as a sequence of actions on its shared resources -/

namespace BoidsSystem

/-- The six resources `BoidsSystem` creates with `make_resource`.  `BoidPosition`
wraps one `Vector3f`, so both element types are `V`. -/
structure Shared (K V : Type) where
  positions : Buffer V
  headings : Buffer V
  kdtree : K
  targets : Buffer V
  targetTree : K
  newHeadings : Buffer V

/-- The contents of a resource: the elements of a vector (hence also its size),
or a tree. -/
inductive Contents (K V : Type) where
  | vector (cells : List V)
  | tree (k : K)
  deriving DecidableEq, Repr

/-- The contents of the resource with a given id. -/
def Shared.contents {K V : Type} (s : Shared K V) : Res → Contents K V
  | Res.positions => Contents.vector s.positions.cells
  | Res.headings => Contents.vector s.headings.cells
  | Res.kdtree => Contents.tree s.kdtree
  | Res.targets => Contents.vector s.targets.cells
  | Res.targetTree => Contents.tree s.targetTree
  | Res.newHeadings => Contents.vector s.newHeadings.cells

/-- Everything the code of `BoidsSystem` and its task bodies reads or writes: the
shared resources, the two global counters, the `Heading` and `Translation`
arrays of the entities `boidFilter` matches, and the `Translation` array of the
entities `targetFilter` matches. -/
structure Frame (K V : Type) where
  shared : Shared K V
  averageNeighberCount : Nat
  maxNeighberCount : Nat
  boids : ApplyState V
  targetTrs : List V

/-- The values captured by the task bodies and the operations they call; `d` is
a value-initialised vector element. -/
structure Env (K V S : Type) where
  ops : VectorOps V S
  kd : KdTreeOps K V S
  d : V
  boid : Boid S
  deltaTime : S

/-- The pieces of code of `BoidsSystem` that touch its resources after they are
created: the `resize` statements that run while a pass is being scheduled, and
the task bodies (one action for each slice of a sliced pass). -/
inductive Action where
  | resizePositions
  | copyPositions (tk : task)
  | resizeHeadings
  | copyHeadings (tk : task)
  | buildBoidKDTree
  | resizeTargets
  | copyTargets (tk : task)
  | buildTargetKDTree
  | resizeNewHeadings
  | boidMainTask (tk : task)
  | applyBoidTask (tk : task)
  deriving DecidableEq, Repr

/-- The position in `units` of the unit of work an action belongs to. -/
def Action.unit : Action → Nat
  | Action.resizePositions => 0
  | Action.copyPositions _ => 0
  | Action.resizeHeadings => 1
  | Action.copyHeadings _ => 1
  | Action.buildBoidKDTree => 2
  | Action.resizeTargets => 3
  | Action.copyTargets _ => 3
  | Action.buildTargetKDTree => 4
  | Action.resizeNewHeadings => 5
  | Action.boidMainTask _ => 5
  | Action.applyBoidTask _ => 6

/-- Whether the action is (a run of) a task body, as opposed to a statement that
`BoidsSystem` or `CopyComponent` runs itself while scheduling. -/
def Action.inTaskBody : Action → Bool
  | Action.resizePositions => false
  | Action.resizeHeadings => false
  | Action.resizeTargets => false
  | Action.resizeNewHeadings => false
  | _ => true

/-- The share list of the unit an action belongs to. -/
def Action.shareList (a : Action) : List (Res × Access) :=
  match units[a.unit]? with
  | some u => u.shareList
  | none => []

/-- The vector a kd-tree build hands over with `std::move`, for the two custom
passes. -/
def Action.movesFrom : Action → Option Res
  | Action.buildBoidKDTree => some Res.positions
  | Action.buildTargetKDTree => some Res.targets
  | _ => none

/-- The `entityCount` of the pass an action belongs to: the number of entities
`targetFilter` matches for the copy of the targets, and the number `boidFilter`
matches otherwise. -/
def Action.entityCount {K V : Type} (a : Action) (f : Frame K V) : Nat :=
  if a.unit = 3 then f.targetTrs.length else f.boids.hds.cells.length

/-- The input of a "Boid Main" task in a frame. -/
def Frame.mainInput {K V S : Type} (env : Env K V S) (f : Frame K V) : MainInput K V S :=
  { headings := f.shared.headings.cells, kdtree := f.shared.kdtree,
    targetTree := f.shared.targetTree, deltaTime := env.deltaTime, boid := env.boid,
    hdsCol := f.boids.hds.cells, trsCol := f.boids.trs.cells }

/-- The effect of an action on a frame. -/
def Action.run {K V S : Type} (env : Env K V S) (a : Action) (f : Frame K V) :
    Option (Frame K V) :=
  match a with
  | Action.resizePositions =>
    some { f with shared := { f.shared with
      positions := CopyComponent.atSchedule f.boids.hds.cells.length env.d f.shared.positions } }
  | Action.copyPositions tk =>
    match CopyComponent.body (fun x => x) f.boids.trs.cells tk f.shared.positions with
    | some v => some { f with shared := { f.shared with positions := v } }
    | none => none
  | Action.resizeHeadings =>
    some { f with shared := { f.shared with
      headings := CopyComponent.atSchedule f.boids.hds.cells.length env.d f.shared.headings } }
  | Action.copyHeadings tk =>
    match CopyComponent.body (fun x => x) f.boids.hds.cells tk f.shared.headings with
    | some v => some { f with shared := { f.shared with headings := v } }
    | none => none
  | Action.buildBoidKDTree =>
    let r := env.kd.initialise f.shared.kdtree f.shared.positions.cells
    some { f with shared := { f.shared with
      kdtree := r.1, positions := { f.shared.positions with cells := r.2 } } }
  | Action.resizeTargets =>
    some { f with shared := { f.shared with
      targets := CopyComponent.atSchedule f.targetTrs.length env.d f.shared.targets } }
  | Action.copyTargets tk =>
    match CopyComponent.body (fun x => x) f.targetTrs tk f.shared.targets with
    | some v => some { f with shared := { f.shared with targets := v } }
    | none => none
  | Action.buildTargetKDTree =>
    let r := env.kd.initialise f.shared.targetTree f.shared.targets.cells
    some { f with shared := { f.shared with
      targetTree := r.1, targets := { f.shared.targets with cells := r.2 } } }
  | Action.resizeNewHeadings =>
    some { f with shared := { f.shared with
      newHeadings := f.shared.newHeadings.resize f.boids.hds.cells.length env.d } }
  | Action.boidMainTask tk =>
    match BoidMain.body env.ops env.kd (f.mainInput env) tk
        { newHeadings := f.shared.newHeadings,
          averageNeighberCount := f.averageNeighberCount,
          maxNeighberCount := f.maxNeighberCount } with
    | some st =>
      some { f with
        shared := { f.shared with newHeadings := st.newHeadings },
        averageNeighberCount := st.averageNeighberCount,
        maxNeighberCount := st.maxNeighberCount }
    | none => none
  | Action.applyBoidTask tk =>
    match ApplyBoid.body env.ops env.boid env.deltaTime f.shared.newHeadings.cells tk
        f.boids with
    | some b => some { f with boids := b }
    | none => none

/-- The frame `BoidsSystem` starts from: the six resources freshly made. -/
def Frame.fresh {K V : Type} (emptyTree : K) (averageNeighberCount maxNeighberCount : Nat)
    (hds trs targetTrs : List V) : Frame K V :=
  { shared :=
      { positions := Buffer.empty, headings := Buffer.empty, kdtree := emptyTree,
        targets := Buffer.empty, targetTree := emptyTree, newHeadings := Buffer.empty },
    averageNeighberCount := averageNeighberCount, maxNeighberCount := maxNeighberCount,
    boids := { hds := { cells := hds, written := [] }, trs := { cells := trs, written := [] } },
    targetTrs := targetTrs }

/-- The actions of one call of `BoidsSystem` in program order, every pass run
right after it is scheduled, for given slices of the five sliced passes. -/
def actions (posSlices headSlices targetSlices mainSlices applySlices : List task) :
    List Action :=
  [Action.resizePositions] ++ posSlices.map Action.copyPositions
    ++ [Action.resizeHeadings] ++ headSlices.map Action.copyHeadings
    ++ [Action.buildBoidKDTree]
    ++ [Action.resizeTargets] ++ targetSlices.map Action.copyTargets
    ++ [Action.buildTargetKDTree]
    ++ [Action.resizeNewHeadings] ++ mainSlices.map Action.boidMainTask
    ++ applySlices.map Action.applyBoidTask

/-- Running a list of actions one after the other. -/
def runActions {K V S : Type} (env : Env K V S) (as : List Action) (f : Frame K V) :
    Option (Frame K V) :=
  as.foldlM (fun f a => a.run env f) f

end BoidsSystem

/-! ## `ConvertSystem`: the statements that run when a system is scheduled -/

namespace ConvertSystem

/-- The parameter list of `ConvertSystem<T, Ts...>`:
`hana::tuple{ param<T>, param<const Ts>... }`. -/
def paramList (T : Comp) (Ts : List Comp) : List (Comp × Access) :=
  param T :: Ts.map param_const

/-- The statements of `ConvertSystem` that act on the filter, on the static
`timestamp` and on the pipeline, in the order they run. -/
inductive Stmt where
  | assignChunkFilter (cf : chunk_filter)
  | assignTimestamp (t : Nat)
  | create_pass (filter : filters) (paramList : List (Comp × Access)) (timestampNow : Nat)
  | schedule (maxSlice : Nat)
  deriving DecidableEq, Repr

/-- What one call leaves behind: the function-local `static size_t timestamp`,
the caller's `filter` object (passed by reference), the pass it created, and
the statements it ran.  A `create_pass` entry records the value the static holds
at that moment. -/
structure Outcome where
  timestamp : Nat
  filter : filters
  pass : PassDecl
  trace : List Stmt
  deriving DecidableEq, Repr

/-- One call `ConvertSystem<T, Ts...>(ppl, filter, f)`, where `ppl_timestamp` is
what `ppl.get_timestamp()` returns and `timestamp` is the current value of the
static. -/
def call (T : Comp) (Ts : List Comp) (ppl_timestamp : Nat) (timestamp : Nat)
    (filter : filters) : Outcome :=
  -- filter.chunkFilter = { complist<Ts...>, timestamp };
  let cf : chunk_filter := { changed := Ts, prevTimestamp := timestamp }
  let filter := { filter with chunkFilter := cf }
  -- def paramList = hana::tuple{ param<T>, param<const Ts>... };
  let pl := paramList T Ts
  -- timestamp = ppl.get_timestamp();
  let timestamp := ppl_timestamp
  -- task_system::ecs::schedule(ppl, *ppl.create_pass(filter, paramList), ..., 500)
  let pass : PassDecl := { filter := some filter, paramList := pl, shareList := [] }
  { timestamp := timestamp, filter := filter, pass := pass,
    trace := [Stmt.assignChunkFilter cf, Stmt.assignTimestamp timestamp,
      Stmt.create_pass filter pl timestamp, Stmt.schedule 500] }

/-- A sequence of calls to one instantiation: each call is given the pipeline
timestamp it reads and the filter object the caller passes; the static starts
at `timestamp` (0 when the program starts). -/
def calls (T : Comp) (Ts : List Comp) : Nat → List (Nat × filters) → List Outcome
  | _, [] => []
  | timestamp, (ppl_timestamp, filter) :: rest =>
    let r := call T Ts ppl_timestamp timestamp filter
    r :: calls T Ts r.timestamp rest

/-- The pipeline timestamp read during the call before the `n`-th one, and the
initial value of the static for the first call. -/
def readBefore (timestamp : Nat) (cs : List (Nat × filters)) (n : Nat) : Nat :=
  match n with
  | 0 => timestamp
  | k + 1 => (cs.map Prod.fst).getD k 0

end ConvertSystem

/-! ## The world `main` builds -/

namespace main

/-- Handles of `count` freshly allocated entities, numbered from `first`. -/
def allocated (first count : Nat) : List entity :=
  (List.range count).map (fun i => { index := first + i, generation := 0 })

/-- The 500 boid targets: `complist<BoidTarget, Translation, LocalToWorld,
MoveToward, RandomMoveTarget>`. -/
def targetChunk : Chunk :=
  { types := [Comp.BoidTarget, Comp.Translation, Comp.LocalToWorld, Comp.MoveToward,
      Comp.RandomMoveTarget],
    shared := [], entities := allocated 0 500, lastWritten := [] }

/-- The settings entity `e`: `complist<Boid>`. -/
def settingsChunk : Chunk :=
  { types := [Comp.Boid], shared := [], entities := allocated 500 1, lastWritten := [] }

/-- The 10000 boids: `complist<Translation, Heading, Rotation>` with the settings
entity as shared value, which gives them `Boid` as a shared component. -/
def boidChunk : Chunk :=
  { types := [Comp.Translation, Comp.Heading, Comp.Rotation], shared := [Comp.Boid],
    entities := allocated 501 10000, lastWritten := [] }

/-- The world after the three `ctx.allocate` calls of `main`, one chunk for each
archetype (how the store cuts an archetype into chunks is not modelled). -/
def world : World := [targetChunk, settingsChunk, boidChunk]

/-- The same three archetypes with their entities cut into chunks in any way:
`ts`, `ss` and `bs` list the rows of the chunks of the targets, of the settings
entity and of the boids. -/
def chunkedWorld (ts ss bs : List (List entity)) : World :=
  ts.map (fun es => { targetChunk with entities := es })
    ++ ss.map (fun es => { settingsChunk with entities := es })
    ++ bs.map (fun es => { boidChunk with entities := es })

end main

/-! ## The systems of the frame loop of `main` -/

/-- The filter `RotationEulerSystem` builds. -/
def RotationEulerSystem.filter : filters :=
  { filters.default with
    archetypeFilter :=
      { all := [Comp.RotationEuler, Comp.Rotation], any := [], none := [], shared := [] } }

/-- The filter `HeadingSystem` builds. -/
def HeadingSystem.filter : filters :=
  { filters.default with
    archetypeFilter :=
      { all := [Comp.Heading, Comp.Rotation], any := [], none := [], shared := [] } }

/-- The pass `Child2WorldSystem` creates: roots (no `Parent`, no `LocalToParent`)
that have children. -/
def Child2WorldSystem.decl : PassDecl :=
  { filter := some
      { filters.default with
        archetypeFilter :=
          { all := [Comp.Child, Comp.LocalToWorld], any := [],
            none := [Comp.Parent, Comp.LocalToParent], shared := [] } },
    paramList :=
      [param Comp.LocalToWorld, param_const Comp.LocalToParent, param_const Comp.Child],
    shareList := [] }

/-- The pass `World2LocalSystem` creates. -/
def World2LocalSystem.decl : PassDecl :=
  { filter := some
      { filters.default with
        archetypeFilter :=
          { all := [Comp.LocalToWorld, Comp.WorldToLocal], any := [], none := [],
            shared := [] } },
    paramList := [param Comp.WorldToLocal, param_const Comp.LocalToWorld],
    shareList := [] }

/-- The pass `RandomTargetSystem` creates. -/
def RandomTargetSystem.decl : PassDecl :=
  { filter := some
      { filters.default with
        archetypeFilter :=
          { all := [Comp.Translation, Comp.MoveToward, Comp.RandomMoveTarget], any := [],
            none := [], shared := [] } },
    paramList :=
      [param Comp.MoveToward, param_const Comp.RandomMoveTarget, param_const Comp.Translation],
    shareList := [] }

/-- The pass `MoveTowardSystem` creates. -/
def MoveTowardSystem.decl : PassDecl :=
  { filter := some
      { filters.default with
        archetypeFilter :=
          { all := [Comp.Translation, Comp.MoveToward], any := [], none := [],
            shared := [] } },
    paramList := [param Comp.Translation, param_const Comp.MoveToward],
    shareList := [] }

/-- The pass `Local2XSystem<T>(ppl, filter)` creates, through
`ConvertSystem<T, Translation, Rotation, Scale>`, when the static of that
instantiation holds `timestamp`. -/
def Local2XSystem.decl (T : Comp) (ppl_timestamp timestamp : Nat) (filter : filters) :
    PassDecl :=
  (ConvertSystem.call T [Comp.Translation, Comp.Rotation, Comp.Scale] ppl_timestamp timestamp
    filter).pass

namespace main

/-- The filter `wrd_filter` of the frame loop. -/
def wrd_filter : filters :=
  { filters.default with
    archetypeFilter :=
      { all := [Comp.LocalToWorld], any := [Comp.Translation, Comp.Scale, Comp.Rotation],
        none := [Comp.LocalToParent, Comp.Parent], shared := [] } }

/-- The filter `c2p_filter` of the frame loop. -/
def c2p_filter : filters :=
  { filters.default with
    archetypeFilter :=
      { all := [Comp.LocalToParent, Comp.Parent],
        any := [Comp.Translation, Comp.Scale, Comp.Rotation], none := [], shared := [] } }

/-- The values of the four function-local statics `timestamp` of the
`ConvertSystem` instantiations the frame loop reaches. -/
structure Statics where
  rotationEuler : Nat
  heading : Nat
  localToWorld : Nat
  localToParent : Nat
  deriving DecidableEq, Repr

/-- The units one iteration of the frame loop schedules, in order:
`RotationEulerSystem`, `RandomTargetSystem`, `MoveTowardSystem`, the seven units
of `BoidsSystem`, `HeadingSystem`, `Local2XSystem<LocalToWorld>`,
`Local2XSystem<LocalToParent>`, `Child2WorldSystem`, `World2LocalSystem`. -/
def frameUnits (st : Statics) (ppl_timestamp : Nat) : List PassDecl :=
  [(ConvertSystem.call Comp.Rotation [Comp.RotationEuler] ppl_timestamp st.rotationEuler
      RotationEulerSystem.filter).pass,
    RandomTargetSystem.decl, MoveTowardSystem.decl]
  ++ BoidsSystem.units
  ++ [(ConvertSystem.call Comp.Rotation [Comp.Heading] ppl_timestamp st.heading
        HeadingSystem.filter).pass,
      Local2XSystem.decl Comp.LocalToWorld ppl_timestamp st.localToWorld wrd_filter,
      Local2XSystem.decl Comp.LocalToParent ppl_timestamp st.localToParent c2p_filter,
      Child2WorldSystem.decl, World2LocalSystem.decl]

end main

/-- Modelled from the spec: (section 4.3) whether the unit at position `i` is a direct or
transitive required predecessor of the unit at position `j`: a chain of
required-predecessor steps leads from `i` to `j` (`fuel` bounds its length). -/
def reaches (w : World) (sched : List PassDecl) : Nat → Nat → Nat → Bool
  | 0, _, _ => false
  | fuel + 1, i, j =>
    requiredPredecessor w sched i j
      || (List.range j).any (fun k => requiredPredecessor w sched i k && reaches w sched fuel k j)

/-- Direct or transitive required predecessor in a schedule. -/
def predecessor (w : World) (sched : List PassDecl) (i j : Nat) : Bool :=
  reaches w sched sched.length i j

/-! ## Task bodies at the level of entities -/

/-- One access of a task body to a component of an entity. -/
structure MemAccess where
  e : entity
  comp : Comp
  access : Access
  deriving DecidableEq, Repr

/-- The functions of `sakura::math` and the constants the transform systems use,
on matrices `M`, vectors `V` and quaternions `Q`; `float4x4` is the
value-initialised matrix `float4x4()`. -/
structure TransformOps (M V Q : Type) where
  float4x4 : M
  multiply : M → M → M
  inverse : M → M
  make_transform : V → V → Q → M
  vector_one : V
  vector_zero : V
  identity : Q

/-- The component values of the entities, for the components the transform
systems touch. -/
structure Components (M V Q : Type) where
  Translation : entity → V
  Rotation : entity → Q
  Scale : entity → V
  LocalToWorld : entity → M
  LocalToParent : entity → M
  WorldToLocal : entity → M
  Child : entity → List entity

/-- The component values together with the accesses made so far, oldest first.
The log is bookkeeping only. -/
structure Store (M V Q : Type) where
  comps : Components M V Q
  log : List MemAccess

/-- Appends a read of component `x` of entity `e` to the log. -/
def Store.read {M V Q : Type} (s : Store M V Q) (e : entity) (x : Comp) : Store M V Q :=
  { s with log := s.log ++ [{ e := e, comp := x, access := Access.Read }] }

/-- Stores matrix `m` as component `x` (one of the three matrix components) of
entity `e` and logs the write. -/
def Store.writeMatrix {M V Q : Type} (s : Store M V Q) (e : entity) (x : Comp) (m : M) :
    Store M V Q :=
  let c := s.comps
  { comps :=
      match x with
      | Comp.LocalToWorld => { c with LocalToWorld := Function.update c.LocalToWorld e m }
      | Comp.LocalToParent => { c with LocalToParent := Function.update c.LocalToParent e m }
      | Comp.WorldToLocal => { c with WorldToLocal := Function.update c.WorldToLocal e m }
      | _ => c,
    log := s.log ++ [{ e := e, comp := x, access := Access.Write }] }

/-- Modelled from the spec: the chunk that owns an entity; none for a handle
that is not live. -/
def World.chunkOf (w : World) (e : entity) : Option Chunk :=
  w.find? (fun c => decide (e ∈ c.entities))

/-- Modelled from the spec: (section 4.1) whether `get_owned_rw(e, cid)` or
`get_owned_ro(e, cid)` returns a pointer: the entity is live and its archetype
has the component; otherwise the result is "not present" (null). -/
def World.get_owned (w : World) (e : entity) (x : Comp) : Bool :=
  match w.chunkOf e with
  | some c => decide (x ∈ c.types)
  | none => false

/-- Modelled from the spec: whether `o.get_parameter<X>()` is a non-null pointer
for the chunk of a row: the row is live and its chunk carries the component, as
an array of its own or as a shared value.  The tasks "Boid Main" and "Apply Boid"
read the shared `Boid` through `o.get_parameter<const Boid>()`, while
`o.get_parameter_owned<X>()` is the accessor for the chunk's own arrays. -/
def World.get_parameter (w : World) (row : entity) (x : Comp) : Bool :=
  match w.chunkOf row with
  | some c => c.carries x
  | none => false

/-- Modelled from the spec: whether `has_component(e, set)` holds: the entity is
live and its archetype has every listed component. -/
def World.has_component (w : World) (e : entity) (xs : List Comp) : Bool :=
  match w.chunkOf e with
  | some c => xs.all c.carries
  | none => false

/-- Modelled from the spec: (section 4.2) the entities of a pass in pass order, chunk by
chunk. -/
def PassDecl.rows (p : PassDecl) (w : World) : List entity :=
  (w.filter p.selects).flatMap (fun c => c.entities)

/-- The parameter `const float4x4& parent_l2w` of `children2World::solve`: it
refers either to an element of the pass's `LocalToWorld` array or to the local
`l2w` of the calling `solve`. -/
inductive ParentRef (M : Type) where
  | element (e : entity)
  | local_ (m : M)

namespace Child2WorldSystem

/-- The function `children2World::solve(parent_l2w, e)`; `fuel` bounds the depth
of the recursion through the `Child` buffers. -/
def solve {M V Q : Type} (ops : TransformOps M V Q) (w : World) :
    Nat → ParentRef M → entity → Store M V Q → Option (Store M V Q)
  | 0, _, _, _ => none
  | fuel + 1, parent_l2w, e, s =>
    let child_l2w := w.get_owned e Comp.LocalToWorld
    let child_l2p := w.get_owned e Comp.LocalToParent
    let r : M × Store M V Q :=
      if child_l2w && child_l2p then
        let p : M × Store M V Q :=
          match parent_l2w with
          | ParentRef.element r => (s.comps.LocalToWorld r, s.read r Comp.LocalToWorld)
          | ParentRef.local_ m => (m, s)
        let s := p.2.read e Comp.LocalToParent
        let l2w := ops.multiply p.1 (s.comps.LocalToParent e)
        (l2w, s.writeMatrix e Comp.LocalToWorld l2w)
      else (ops.float4x4, s)
    if w.has_component e [Comp.Child] then
      let s := r.2.read e Comp.Child
      (s.comps.Child e).foldlM (fun s child => solve ops w fuel (ParentRef.local_ r.1) child s) s
    else some r.2

/-- The task body of `Child2WorldSystem`; `rows` are the entities of the pass. -/
def body {M V Q : Type} (ops : TransformOps M V Q) (w : World) (fuel : Nat)
    (rows : List entity) (tk : task) (s : Store M V Q) : Option (Store M V Q) :=
  forloop 0 tk.count
    (fun i s =>
      match operation.get_parameter rows tk i with
      | none => none
      | some row =>
        let s := s.read row Comp.Child
        (s.comps.Child row).foldlM
          (fun s child => solve ops w fuel (ParentRef.element row) child s) s)
    s

end Child2WorldSystem

/-- The task body of `World2LocalSystem`: `w2ls[i] = inverse(l2ws[i])`. -/
def World2LocalSystem.body {M V Q : Type} (ops : TransformOps M V Q) (rows : List entity)
    (tk : task) (s : Store M V Q) : Option (Store M V Q) :=
  forloop 0 tk.count
    (fun i s =>
      match operation.get_parameter rows tk i with
      | none => none
      | some row =>
        let s := s.read row Comp.LocalToWorld
        some (s.writeMatrix row Comp.WorldToLocal (ops.inverse (s.comps.LocalToWorld row))))
    s

/-- The task body of `ConvertSystem<T, Ts...>` at the level of entities.
`present row x` tells whether the pointer `v` that `o.get_parameter<X>()` returns
for the row's chunk is non-null.  For each row `i`, every parameter array `v` is
turned into `v ? v + i : nullptr` and the convert function `f` is called with
these pointers: `some row` stands for the pointer `v + i`, the element of that
row behind `v`, and `none` for the null pointer. -/
def ConvertSystem.body {σ : Type} (f : List (Option entity) → σ → Option σ)
    (present : entity → Comp → Bool) (T : Comp) (Ts : List Comp) (rows : List entity)
    (tk : task) (s : σ) : Option σ :=
  forloop 0 tk.count
    (fun i s =>
      match operation.get_parameter rows tk i with
      | none => none
      | some row =>
        f ((T :: Ts).map (fun x => if present row x then some row else none)) s)
    s

/-- The convert function of `Local2XSystem<T>`: a source whose pointer is null is
replaced by `vector_one`, `vector_zero` or `identity`, a source whose pointer is
non-null is read through it; `*dst` is assigned without a test.  Reading through
the pointer `some e` gives the element of row `e` behind the parameter's pointer,
which is the row's own component or, for a component the chunk carries as a
shared value, what lies at `v + i`. -/
def Local2XSystem.convert {M V Q : Type} (ops : TransformOps M V Q) (T : Comp) :
    List (Option entity) → Store M V Q → Option (Store M V Q)
  | [dst, inTranslation, inQuaternion, inScale], s =>
    let scale : V × Store M V Q :=
      match inScale with
      | some e => (s.comps.Scale e, s.read e Comp.Scale)
      | none => (ops.vector_one, s)
    let translation : V × Store M V Q :=
      match inTranslation with
      | some e => (scale.2.comps.Translation e, scale.2.read e Comp.Translation)
      | none => (ops.vector_zero, scale.2)
    let quaternion : Q × Store M V Q :=
      match inQuaternion with
      | some e => (translation.2.comps.Rotation e, translation.2.read e Comp.Rotation)
      | none => (ops.identity, translation.2)
    match dst with
    | some e =>
      some (quaternion.2.writeMatrix e T
        (ops.make_transform translation.1 scale.1 quaternion.1))
    | none => none
  | _, _ => none

/-- The task body of `Local2XSystem<T>`, with the pointers `o.get_parameter<X>()`
as the world gives them. -/
def Local2XSystem.body {M V Q : Type} (ops : TransformOps M V Q) (w : World) (T : Comp)
    (rows : List entity) (tk : task) (s : Store M V Q) : Option (Store M V Q) :=
  ConvertSystem.body (Local2XSystem.convert ops T) w.get_parameter T
    [Comp.Translation, Comp.Rotation, Comp.Scale] rows tk s

/-! ## `RenderDeviceGroupProxy` -/

/-- An `IRenderDevice*` held by the group, as far as the group's boolean members
use it: the four virtual members, each acting on the state `σ` of the devices
and returning a `bool`.  The arguments (`α`) are handed through unchanged. -/
structure IRenderDevice (σ α : Type) where
  valid : α → σ → Bool × σ
  present : α → σ → Bool × σ
  execute_pass : α → α → σ → Bool × σ
  execute_graph : α → σ → Bool × σ

namespace RenderDeviceGroupProxy

/-- What a loop of the group has done so far: the local `result`, the state of
the devices, and the positions in `devices` it has called, oldest first (the
last is bookkeeping only). -/
structure Progress (σ : Type) where
  result : Bool
  state : σ
  called : List Nat

/-- One iteration of `for (auto i = 0; i < count(); i++)` around
`result = result & devices[i]->member(...)`: the member of device `i` is called
whatever `result` holds, and the `int` counter is incremented, which is
undefined (`none`) at the largest `int`. -/
def step {σ D : Type} (member : D → σ → Bool × σ) (devices : List D) (i : Nat)
    (p : Progress σ) : Option (Progress σ) :=
  match devices[i]? with
  | none => none
  | some device =>
    let r := member device p.state
    if i + 1 < 2 ^ 31 then
      some { result := p.result && r.1, state := r.2, called := p.called ++ [i] }
    else none

/-- The loop shared by `valid`, `present` and the two `execute` members: `result`
starts as `true`. -/
def callAll {σ D : Type} (member : D → σ → Bool × σ) (devices : List D) (s : σ) :
    Option (Progress σ) :=
  forloop 0 devices.length (step member devices) { result := true, state := s, called := [] }

/-- The member `valid(shader)`. -/
def valid {σ α : Type} (devices : List (IRenderDevice σ α)) (shader : α) (s : σ) :
    Option (Progress σ) :=
  callAll (fun d => d.valid shader) devices s

/-- The member `present(handle)`. -/
def present {σ α : Type} (devices : List (IRenderDevice σ α)) (handle : α) (s : σ) :
    Option (Progress σ) :=
  callAll (fun d => d.present handle) devices s

/-- The member `execute(pass, handle)`. -/
def execute {σ α : Type} (devices : List (IRenderDevice σ α)) (pass handle : α) (s : σ) :
    Option (Progress σ) :=
  callAll (fun d => d.execute_pass pass handle) devices s

/-- The member `execute(graph_to_execute)`. -/
def execute_graph {σ α : Type} (devices : List (IRenderDevice σ α)) (graph_to_execute : α)
    (s : σ) : Option (Progress σ) :=
  callAll (fun d => d.execute_graph graph_to_execute) devices s

/-- Calling a member of every device once, in the order of the list: the values
returned and the state the devices are left in. -/
def eachOnce {σ D : Type} (member : D → σ → Bool × σ) : List D → σ → List Bool × σ
  | [], s => ([], s)
  | device :: rest, s =>
    let r := member device s
    let t := eachOnce member rest r.2
    (r.1 :: t.1, t.2)

end RenderDeviceGroupProxy

/-- The outcome `out` of a boolean member of the group agrees with calling that
member of every device exactly once in the order of emplacement: it is `true`
exactly when every device returned `true`, the devices are left in the state
those calls produce, and the positions called are `0, 1, ..., count() - 1`. -/
def RenderDeviceGroupProxy.CallsEachOnce {σ D : Type} (member : D → σ → Bool × σ)
    (devices : List D) (s : σ) (out : Option (RenderDeviceGroupProxy.Progress σ)) : Prop :=
  ∃ p, out = some p
    ∧ (p.result = true ↔ ∀ r ∈ (RenderDeviceGroupProxy.eachOnce member devices s).1, r = true)
    ∧ (RenderDeviceGroupProxy.eachOnce member devices s).1.length = devices.length
    ∧ p.state = (RenderDeviceGroupProxy.eachOnce member devices s).2
    ∧ p.called = List.range devices.length

/-! ## The `on_sync` hook of `main` -/

/-- A `custom_pass`, as far as the hook uses it: its `passIndex`. -/
structure custom_pass where
  passIndex : Nat
  deriving DecidableEq, Repr

/-- The lambda `main` stores in `ppl.on_sync`:
`for (auto dp : dependencies) ppl.pass_events[dp->passIndex].wait();`.
`wait i` stands for `ppl.pass_events[i].wait()` acting on whatever state the
wait observes (the pipeline's events are not among the sources). -/
def main.on_sync {σ : Type} (wait : Nat → σ → σ) (dependencies : List custom_pass)
    (s : σ) : σ :=
  dependencies.foldl (fun s dp => wait dp.passIndex s) s

/-! ## `render_system` -/

namespace render_system

/-- The render commands `RenderPassSimple::execute` enqueues. -/
inductive RenderCommand where
  | BeginRenderPass | UpdateBinding | Draw | EndRenderPass
  deriving DecidableEq, Repr

/-- The calls of `RenderSystem` and `RenderPassSimple::execute` that reach the
pass, its command buffer and the device group. -/
inductive Call where
  | construct
  | enqueue (c : RenderCommand)
  | device_execute
  | reset
  | present
  deriving DecidableEq, Repr

/-- The command buffer of the pass and the calls made so far, oldest first. -/
structure PassState where
  command_buffer : List RenderCommand
  calls : List Call
  deriving DecidableEq, Repr

/-- The call `command_buffer().enqueue<C>(...)`. -/
def enqueue (c : RenderCommand) (st : PassState) : PassState :=
  { command_buffer := st.command_buffer ++ [c], calls := st.calls ++ [Call.enqueue c] }

/-- The member `RenderPassSimple::execute`: the four commands are enqueued, then
`return device.execute(*this, handle()) && this->reset();`.  `device_execute`
gives what the device answers for a command buffer, `reset` what
`RenderPass::reset` answers and leaves in the buffer (both are not among the
sources). -/
def RenderPassSimple.execute (device_execute : List RenderCommand → Bool)
    (reset : List RenderCommand → Bool × List RenderCommand) (st : PassState) :
    Bool × PassState :=
  let st := enqueue RenderCommand.BeginRenderPass st
  let st := enqueue RenderCommand.UpdateBinding st
  let st := enqueue RenderCommand.Draw st
  let st := enqueue RenderCommand.EndRenderPass st
  let executed := device_execute st.command_buffer
  let st := { st with calls := st.calls ++ [Call.device_execute] }
  if executed then
    let r := reset st.command_buffer
    (r.1, { command_buffer := r.2, calls := st.calls ++ [Call.reset] })
  else (false, st)

/-- The first statements of `RenderSystem`: `construct`, then `execute`, then
`deviceGroup.present(swapChain)` when `execute` returned `true`. -/
def RenderSystem (device_execute : List RenderCommand → Bool)
    (reset : List RenderCommand → Bool × List RenderCommand) (st : PassState) : PassState :=
  let st := { st with calls := st.calls ++ [Call.construct] }
  let r := RenderPassSimple.execute device_execute reset st
  if r.1 then { r.2 with calls := r.2.calls ++ [Call.present] } else r.2

end render_system

/-! ## The handle tables of `webgpu::RenderDevice` -/

/-- The id of a handle, as far as the tables use it: `handle.id().index()` and
`handle.id().generation()`, both of type `RenderGraphId::uhalf_t`. -/
structure RenderGraphId where
  index : Nat
  generation : Nat
  deriving DecidableEq, Repr

namespace RenderDevice

/-- The messages of `handle_error<Handle>`. -/
inductive handle_error where
  | not_find | generation_dismatch | create_on_existed
  deriving DecidableEq, Repr

/-- The value of the expression `handle.id().index() + 1`.  The declaration of
`uhalf_t` is not among the sources, so its width in bits is a parameter: a type
narrower than `int` is promoted and the sum is exact, while a 32-bit or 64-bit
unsigned type wraps around at its own width. -/
def indexPlusOne (bits : Nat) (index : Nat) : Nat :=
  (index + 1) % 2 ^ (max bits 32)

/-- The call `created_resources.resize(n)`: new entries are value-initialised, a
null pointer with generation 0. -/
def resizeTable {ρ : Type} (table : List (Option ρ × Nat)) (n : Nat) : List (Option ρ × Nat) :=
  table.take n ++ List.replicate (n - table.length) (none, 0)

/-- The member `_get_resouce_impl<isOptional>(handle)` on the table
`created_resources` of pairs (pointer, generation): the pointer returned (`none`
is `nullptr`) and the errors logged.  Reading the vector past its end is
undefined (outer `none`). -/
def _get_resouce_impl {ρ : Type} (bits : Nat) (isOptional : Bool)
    (created_resources : List (Option ρ × Nat)) (handle : RenderGraphId) :
    Option (Option ρ × List handle_error) :=
  if created_resources.length < indexPlusOne bits handle.index then
    some (none, if isOptional then [] else [handle_error.not_find])
  else
    match created_resources[handle.index]? with
    | none => none
    | some resource =>
      if handle.generation = resource.2 then some (resource.1, [])
      else some (none, if isOptional then [] else [handle_error.generation_dismatch])

/-- The member `_get_object_impl<isOptional>(handle)` on the table
`created_objects`. -/
def _get_object_impl {ρ : Type} (bits : Nat) (isOptional : Bool)
    (created_objects : List (Option ρ × Nat)) (handle : RenderGraphId) :
    Option (Option ρ × List handle_error) :=
  if created_objects.length < indexPlusOne bits handle.index then
    some (none, if isOptional then [] else [handle_error.not_find])
  else
    match created_objects[handle.index]? with
    | none => none
    | some object =>
      if handle.generation = object.2 then some (object.1, [])
      else some (none, if isOptional then [] else [handle_error.generation_dismatch])

/-- What a create member leaves behind: the table, the handle it returns and the
errors logged. -/
structure Created (ρ : Type) where
  table : List (Option ρ × Nat)
  handle : RenderGraphId
  logged : List handle_error

/-- The member `_create_resouce_impl(handle, args...)`: `optional` is the result
of `this->optional(handle)` and `newRes` the object `new ResourceType(...)`
returns.  Assigning past the end of the vector is undefined (`none`). -/
def _create_resouce_impl {ρ : Type} (bits : Nat) (optional : Option ρ) (newRes : ρ)
    (created_resources : List (Option ρ × Nat)) (handle : RenderGraphId) :
    Option (Created ρ) :=
  match optional with
  | some _ =>
    some { table := created_resources, handle := handle,
           logged := [handle_error.create_on_existed] }
  | none =>
    let created_resources :=
      if created_resources.length < indexPlusOne bits handle.index then
        resizeTable created_resources (indexPlusOne bits handle.index)
      else created_resources
    if handle.index < created_resources.length then
      some { table := created_resources.set handle.index (some newRes, handle.generation),
             handle := handle, logged := [] }
    else none

/-- The member `_create_object_impl(handle, args...)`. -/
def _create_object_impl {ρ : Type} (bits : Nat) (optional : Option ρ) (newRes : ρ)
    (created_objects : List (Option ρ × Nat)) (handle : RenderGraphId) :
    Option (Created ρ) :=
  match optional with
  | some _ =>
    some { table := created_objects, handle := handle,
           logged := [handle_error.create_on_existed] }
  | none =>
    let created_objects :=
      if created_objects.length < indexPlusOne bits handle.index then
        resizeTable created_objects (indexPlusOne bits handle.index)
      else created_objects
    if handle.index < created_objects.length then
      some { table := created_objects.set handle.index (some newRes, handle.generation),
             handle := handle, logged := [] }
    else none

/-- The pointer a handle resolves to in a table: the stored pointer of the entry
at the handle's index when the index is below the table's size and the stored
generation equals the handle's, and null otherwise. -/
def resolves {ρ : Type} (table : List (Option ρ × Nat)) (handle : RenderGraphId) : Option ρ :=
  match table[handle.index]? with
  | some entry => if handle.generation = entry.2 then entry.1 else none
  | none => none

/-- The create member with `this->optional(handle)` taken to be the optional
lookup of the same table. -/
def createResource {ρ : Type} (bits : Nat) (newRes : ρ)
    (created_resources : List (Option ρ × Nat)) (handle : RenderGraphId) :
    Option (Created ρ) :=
  match _get_resouce_impl bits true created_resources handle with
  | some found => _create_resouce_impl bits found.1 newRes created_resources handle
  | none => none

/-- The create member for objects with `this->optional(handle)` taken to be the
optional lookup of `created_objects`. -/
def createObject {ρ : Type} (bits : Nat) (newRes : ρ)
    (created_objects : List (Option ρ × Nat)) (handle : RenderGraphId) :
    Option (Created ρ) :=
  match _get_object_impl bits true created_objects handle with
  | some found => _create_object_impl bits found.1 newRes created_objects handle
  | none => none

/-- The table the claim describes after a creation under `handle`: the old table,
extended with empty entries up to the handle's index when it was shorter, with
the new resource and the handle's generation at that index. -/
def grown {ρ : Type} (table : List (Option ρ × Nat)) (handle : RenderGraphId)
    (newRes : ρ) : List (Option ρ × Nat) :=
  (if table.length < handle.index + 1 then resizeTable table (handle.index + 1)
    else table).set handle.index (some newRes, handle.generation)

end RenderDevice

/-! ## What `Local2XSystem` is to compute -/

/-- The function `calc_align(n, align)` on `std::size_t` values of `bits` bits (the
width of `size_t` is the platform's, so it is a parameter):
`((n + align - 1) / align) * align`, every operation modulo `2 ^ bits`.  Division
by zero is undefined (`none`). -/
def calc_align (bits : Nat) (n align : Nat) : Option Nat :=
  if align = 0 then none
  else
    let sum := (n + align) % 2 ^ bits
    let top := (sum + (2 ^ bits - 1)) % 2 ^ bits
    some ((top / align) * align % 2 ^ bits)

/-! ## `update_maximum` among other threads -/

/-- What surrounds one call of `maximum_value.compare_exchange_weak(prev_value,
value)`: the value another thread has stored into the atomic since this thread
last read it (`none` when no other thread modified it), and whether the
exchange fails spuriously. -/
structure Interleaving where
  stored : Option Nat
  spurious : Bool
  deriving DecidableEq, Repr

/-- The call `compare_exchange_weak(expected, desired)` on an atomic that holds
`current`: when the atomic holds `expected` and the exchange does not fail
spuriously, `desired` is stored and the call returns true; otherwise the atomic
is loaded into `expected` and the call returns false.  The result lists the
returned value, the atomic and `expected`. -/
def compare_exchange_weak (current expected desired : Nat) (spurious : Bool) :
    Bool × Nat × Nat :=
  if current = expected ∧ spurious = false then (true, desired, expected)
  else (false, current, current)

/-- A run of `update_maximum`: whether the call has returned (it has not when the
interleaving ends while the loop is still going), the atomic at that point, and
the stores this call made, each as the value replaced and the value stored. -/
structure update_maximum.Run where
  returned : Bool
  maximum_value : Nat
  stores : List (Nat × Nat)
  deriving DecidableEq, Repr

/-- The loop `while (prev_value < value &&
!maximum_value.compare_exchange_weak(prev_value, value)) {}` of `update_maximum`,
with one entry of the interleaving for each exchange it attempts. -/
def update_maximum.loop (value : Nat) :
    List Interleaving → Nat → Nat → update_maximum.Run
  | [], maximum_value, prev_value =>
    { returned := decide (¬ prev_value < value), maximum_value := maximum_value, stores := [] }
  | ev :: rest, maximum_value, prev_value =>
    if prev_value < value then
      let current := ev.stored.getD maximum_value
      let r := compare_exchange_weak current prev_value value ev.spurious
      if r.1 then { returned := true, maximum_value := r.2.1, stores := [(current, value)] }
      else update_maximum.loop value rest r.2.1 r.2.2
    else { returned := true, maximum_value := maximum_value, stores := [] }

/-- The function `update_maximum(maximum_value, value)` under an interleaving:
`T prev_value = maximum_value;` and then the loop. -/
def update_maximum.run (value : Nat) (evs : List Interleaving) (maximum_value : Nat) :
    update_maximum.Run :=
  update_maximum.loop value evs maximum_value maximum_value

/-! ## How the task bodies use their parameter arrays -/

/-- One use a task body makes of the array `o.get_parameter<X>()` of a pass, or of
the pointer a convert function receives for it: `index` is `xs[i]` and `deref`
is `*x` or `x->member`, both without a null test; `guarded` is a use behind a
null test, as in `v ? v + i : nullptr` and `in ? *in : d`. -/
inductive ArrayUse where
  | index (x : Comp)
  | deref (x : Comp)
  | guarded (x : Comp)
  deriving DecidableEq, Repr

/-- The component a use reaches without a null test, if it is such a use. -/
def ArrayUse.unchecked : ArrayUse → Option Comp
  | ArrayUse.index x => some x
  | ArrayUse.deref x => some x
  | ArrayUse.guarded _ => none

/-- A place where a pass is created and scheduled: what it declares and the uses
its task body makes of the parameter arrays, in the order of first appearance. -/
structure PassSite where
  decl : PassDecl
  uses : List ArrayUse
  deriving DecidableEq, Repr

/-- The components whose array the task body indexes or dereferences without a
null test. -/
def PassSite.unchecked (s : PassSite) : List Comp :=
  s.uses.filterMap ArrayUse.unchecked

/-- The task body of `ConvertSystem<T, Ts...>`: every array of the parameter list
is turned into a row pointer behind a null test (`v ? v + i : nullptr`), then `f`
is called on the pointers; `f_uses` lists what `f` does with them. -/
def ConvertSystem.uses (T : Comp) (Ts : List Comp) (f_uses : List ArrayUse) : List ArrayUse :=
  (T :: Ts).map ArrayUse.guarded ++ f_uses

/-- A call `ConvertSystem<T, Ts...>(ppl, filter, f)` as a pass site. -/
def ConvertSystem.site (T : Comp) (Ts : List Comp) (f_uses : List ArrayUse)
    (ppl_timestamp timestamp : Nat) (filter : filters) : PassSite :=
  { decl := (ConvertSystem.call T Ts ppl_timestamp timestamp filter).pass,
    uses := ConvertSystem.uses T Ts f_uses }

/-- The convert function of `RotationEulerSystem`:
`*dst = math::quaternion_from_rotator(*inRotator)`. -/
def RotationEulerSystem.f_uses : List ArrayUse :=
  [ArrayUse.deref Comp.Rotation, ArrayUse.deref Comp.RotationEuler]

/-- The convert function of `HeadingSystem`:
`*dst = math::look_at_quaternion(*inHeading)`. -/
def HeadingSystem.f_uses : List ArrayUse :=
  [ArrayUse.deref Comp.Rotation, ArrayUse.deref Comp.Heading]

/-- The convert function of `Local2XSystem<T>`: the three sources are read behind
a null test (`inScale ? *inScale : ...`), then `*dst = math::make_transform(...)`. -/
def Local2XSystem.f_uses (T : Comp) : List ArrayUse :=
  [ArrayUse.guarded Comp.Scale, ArrayUse.guarded Comp.Translation,
    ArrayUse.guarded Comp.Rotation, ArrayUse.deref T]

/-- The call `RotationEulerSystem(ppl)`. -/
def RotationEulerSystem.site (ppl_timestamp timestamp : Nat) : PassSite :=
  ConvertSystem.site Comp.Rotation [Comp.RotationEuler] RotationEulerSystem.f_uses
    ppl_timestamp timestamp RotationEulerSystem.filter

/-- The call `HeadingSystem(ppl)`. -/
def HeadingSystem.site (ppl_timestamp timestamp : Nat) : PassSite :=
  ConvertSystem.site Comp.Rotation [Comp.Heading] HeadingSystem.f_uses
    ppl_timestamp timestamp HeadingSystem.filter

/-- The call `Local2XSystem<T>(ppl, filter)`. -/
def Local2XSystem.site (T : Comp) (ppl_timestamp timestamp : Nat) (filter : filters) :
    PassSite :=
  ConvertSystem.site T [Comp.Translation, Comp.Rotation, Comp.Scale] (Local2XSystem.f_uses T)
    ppl_timestamp timestamp filter

/-- The call `CopyComponent<C>(ppl, filter, vector)`, whose task body reads
`comps[i]`. -/
def CopyComponent.site (C : Comp) (filter : filters) (vector : Res) : PassSite :=
  { decl := CopyComponent.decl C filter vector, uses := [ArrayUse.index C] }

/-- The task body of `Child2WorldSystem`: `childrens[i]` and `l2ws[i]` (inside
`children2World::solve` the components are reached through `ctx`, behind null
tests, not through the parameter arrays). -/
def Child2WorldSystem.site : PassSite :=
  { decl := Child2WorldSystem.decl,
    uses := [ArrayUse.index Comp.Child, ArrayUse.index Comp.LocalToWorld] }

/-- The task body of `World2LocalSystem`: `w2ls[i] = inverse(l2ws[i])`. -/
def World2LocalSystem.site : PassSite :=
  { decl := World2LocalSystem.decl,
    uses := [ArrayUse.index Comp.WorldToLocal, ArrayUse.index Comp.LocalToWorld] }

/-- The task body of `RandomTargetSystem`: `mts[i]`, `trs[i]` and `rmts[i]`. -/
def RandomTargetSystem.site : PassSite :=
  { decl := RandomTargetSystem.decl,
    uses := [ArrayUse.index Comp.MoveToward, ArrayUse.index Comp.Translation,
      ArrayUse.index Comp.RandomMoveTarget] }

/-- The task body of `MoveTowardSystem`: `trs[i]` and `mts[i]`. -/
def MoveTowardSystem.site : PassSite :=
  { decl := MoveTowardSystem.decl,
    uses := [ArrayUse.index Comp.Translation, ArrayUse.index Comp.MoveToward] }

/-- The task body of "Boid Main": `trs[i]`, `boid->SightRadius` and the three
weights, `hds[i]`. -/
def BoidsSystem.BoidMain.site : PassSite :=
  { decl := BoidsSystem.boidMain,
    uses := [ArrayUse.index Comp.Translation, ArrayUse.deref Comp.Boid,
      ArrayUse.index Comp.Heading] }

/-- The task body of "Apply Boid": `hds[i]`, `trs[i]` and `boid->MoveSpeed`. -/
def BoidsSystem.ApplyBoid.site : PassSite :=
  { decl := BoidsSystem.applyBoid,
    uses := [ArrayUse.index Comp.Heading, ArrayUse.index Comp.Translation,
      ArrayUse.deref Comp.Boid] }

/-- The pass `render_system::RenderSystem` creates after it has run the render
pass. -/
def render_system.RenderSystem.decl : PassDecl :=
  { filter := some
      { filters.default with
        archetypeFilter :=
          { all := [Comp.LocalToWorld, Comp.WorldToLocal], any := [], none := [],
            shared := [] } },
    paramList := [param Comp.WorldToLocal, param_const Comp.LocalToWorld],
    shareList := [] }

/-- The task body of the pass of `render_system::RenderSystem` only builds the
`operation` object. -/
def render_system.RenderSystem.site : PassSite :=
  { decl := render_system.RenderSystem.decl, uses := [] }

/-- The units created in `Boids.cpp` and `RenderSystem.h` as pass sites: the
fifteen units of one iteration of the frame loop in the order `main` creates
them, then the pass of `render_system::RenderSystem`.  The two custom passes of
`BoidsSystem` have no parameter arrays. -/
def passSites (st : main.Statics) (ppl_timestamp : Nat) : List PassSite :=
  [RotationEulerSystem.site ppl_timestamp st.rotationEuler,
    RandomTargetSystem.site, MoveTowardSystem.site,
    CopyComponent.site Comp.Translation BoidsSystem.boidFilter Res.positions,
    CopyComponent.site Comp.Heading BoidsSystem.boidFilter Res.headings,
    { decl := BoidsSystem.buildBoidKDTree, uses := [] },
    CopyComponent.site Comp.Translation BoidsSystem.targetFilter Res.targets,
    { decl := BoidsSystem.buildTargetKDTree, uses := [] },
    BoidsSystem.BoidMain.site, BoidsSystem.ApplyBoid.site,
    HeadingSystem.site ppl_timestamp st.heading,
    Local2XSystem.site Comp.LocalToWorld ppl_timestamp st.localToWorld main.wrd_filter,
    Local2XSystem.site Comp.LocalToParent ppl_timestamp st.localToParent main.c2p_filter,
    Child2WorldSystem.site, World2LocalSystem.site, render_system.RenderSystem.site]

/-- Whether every component a site reaches without a null test is in the `all`
set of the site's filter and in its parameter list. -/
def PassSite.uncheckedInAll (s : PassSite) : Bool :=
  s.unchecked.all (fun x =>
    match s.decl.filter with
    | some f => decide (x ∈ f.archetypeFilter.all) && s.decl.declares x
    | none => false)

/-! ## The neighbour count of "Boid Main" -/

namespace BoidsSystem.BoidMain

/-- The neighbours the first loop finds for row `i` of the slice: what
`kdtree->search_k_radius(trs[i], boid->SightRadius, 10, neighbers)` leaves in the
cleared `neighbers`. -/
def neighboursFound {K V S : Type} (kd : KdTreeOps K V S) (inp : MainInput K V S)
    (tk : task) (i : Nat) : List (S × Nat) :=
  match operation.get_parameter inp.trsCol tk i with
  | some t => kd.search_k_radius inp.kdtree t inp.boid.SightRadius 10 []
  | none => []

/-- What `for (auto ng : neighbers) alignments[i] = alignments[i] +
(*headings)[ng.second];` adds up from `vector_zero`. -/
def headingSum {K V S : Type} (ops : VectorOps V S) (inp : MainInput K V S)
    (ngs : List (S × Nat)) : V :=
  ngs.foldl (fun a ng => ops.add a (inp.headings.getD ng.2 ops.vector_zero)) ops.vector_zero

/-- What `for (auto ng : neighbers) separations[i] = separations[i] +
(*kdtree)[ng.second].value;` adds up from `vector_zero`. -/
def positionSum {K V S : Type} (ops : VectorOps V S) (kd : KdTreeOps K V S)
    (inp : MainInput K V S) (ngs : List (S × Nat)) : V :=
  ngs.foldl (fun a ng => ops.add a (kd.get inp.kdtree ng.2)) ops.vector_zero

/-- The value "Collect Targets" stores in `targetings[i]`. -/
def targetOf {K V S : Type} (kd : KdTreeOps K V S) (inp : MainInput K V S)
    (tk : task) (i : Nat) : V :=
  match operation.get_parameter inp.trsCol tk i with
  | some t => kd.get inp.targetTree (kd.search_nearest inp.targetTree t)
  | none => kd.get inp.targetTree 0

/-- The statements of one iteration of "Calculate Boids" with the quantities they
read as arguments: `size` for `neighbers.size()`, then `alignments[i]`,
`separations[i]`, `targetings[i]`, `hds[i]` and `trs[i]`. -/
def boidRule {K V S : Type} (ops : VectorOps V S) (inp : MainInput K V S) (size : Nat)
    (alignments_i separations_i targetings_i h t : V) : V :=
  let alignment := ops.normalize (ops.sub (ops.div alignments_i (ops.ofSize size)) h)
  let separation := ops.normalize (ops.sub (ops.lmul (ops.ofSize size) t) separations_i)
  let targeting := ops.normalize (ops.sub targetings_i t)
  let newHeading := ops.normalize
    (ops.add (ops.add (ops.mul alignment inp.boid.AlignmentWeight)
      (ops.mul separation inp.boid.SeparationWeight))
      (ops.mul targeting inp.boid.TargetWeight))
  ops.normalize (ops.add h (ops.mul (ops.sub newHeading h) inp.deltaTime))

end BoidsSystem.BoidMain

/-! ## Concrete inputs used to instantiate the theorems -/

namespace Examples

/-- Integer stand-ins for the vector operations. -/
def intOps : VectorOps Int Int :=
  { vector_zero := 0, add := fun a b => a + b, sub := fun a b => a - b,
    mul := fun a s => a * s, lmul := fun s a => s * a, div := fun a s => a / s,
    normalize := fun a => a, ofSize := fun n => (n : Int) }

/-- A kd-tree stand-in that reports point 0 as the only neighbour and as the
nearest target, and stores the points it is given. -/
def listKd : KdTreeOps (List Int) Int Int :=
  { search_k_radius := fun _ _ _ _ out => out ++ [(0, 0)],
    get := fun tree i => tree.getD i 0,
    search_nearest := fun _ _ => 0,
    initialise := fun _ pts => (pts, []) }

/-- Three boids with their headings and translations. -/
def threeBoids : BoidsSystem.MainInput (List Int) Int Int :=
  { headings := [1, 2, 3], kdtree := [4, 5, 6], targetTree := [9], deltaTime := 1,
    boid :=
      { SightRadius := 5, AlignmentWeight := 1, SeparationWeight := 1, TargetWeight := 1,
        MoveSpeed := 15 },
    hdsCol := [1, 2, 3], trsCol := [4, 5, 6] }

/-- The captured values for the integer stand-ins. -/
def intEnv : BoidsSystem.Env (List Int) Int Int :=
  { ops := intOps, kd := listKd, d := 0, boid := threeBoids.boid, deltaTime := 1 }

/-- The frame of three boids and one target before `BoidsSystem` has run. -/
def freshFrame : BoidsSystem.Frame (List Int) Int :=
  BoidsSystem.Frame.fresh [] 0 0 [1, 2, 3] [4, 5, 6] [9]

/-- Integer stand-ins for the transform operations. -/
def intTransform : TransformOps Int Int Int :=
  { float4x4 := 0, multiply := fun a b => a * b, inverse := fun a => -a,
    make_transform := fun t s q => t + s + q, vector_one := 1, vector_zero := 0,
    identity := 1 }

/-- A root entity. -/
def root : entity := { index := 0, generation := 0 }

/-- A child of `root`. -/
def kid : entity := { index := 1, generation := 0 }

/-- The chunk of `root`: archetype `{Child, LocalToWorld, Translation}`. -/
def rootChunk : Chunk :=
  { types := [Comp.Child, Comp.LocalToWorld, Comp.Translation], shared := [],
    entities := [root], lastWritten := [(Comp.Translation, 1)] }

/-- The chunk of `kid`: archetype `{Parent, LocalToParent, LocalToWorld,
WorldToLocal, Translation}`. -/
def kidChunk : Chunk :=
  { types := [Comp.Parent, Comp.LocalToParent, Comp.LocalToWorld, Comp.WorldToLocal,
      Comp.Translation],
    shared := [], entities := [kid], lastWritten := [(Comp.Translation, 1)] }

/-- A world with one parent and one child, whose translations were written at
timestamp 1. -/
def hierarchy : World := [rootChunk, kidChunk]

/-- Component values for `hierarchy`: `kid` is the only child of `root`. -/
def hierarchyStore : Store Int Int Int :=
  { comps :=
      { Translation := fun e => (e.index : Int) + 2, Rotation := fun _ => 1,
        Scale := fun _ => 1, LocalToWorld := fun _ => 3, LocalToParent := fun _ => 7,
        WorldToLocal := fun _ => 0,
        Child := fun e => if e = root then [kid] else [] },
    log := [] }

/-- The statics at program start: all four are 0. -/
def statics0 : main.Statics :=
  { rotationEuler := 0, heading := 0, localToWorld := 0, localToParent := 0 }

/-- The units of the first frame, whose pipeline timestamp is 1. -/
def firstFrame : List PassDecl := main.frameUnits statics0 1

/-- A frame in which `headings`, the two trees and `newHeadings` are ready for
the "Boid Main" tasks. -/
def readyFrame : BoidsSystem.Frame (List Int) Int :=
  { shared :=
      { positions := Buffer.empty, headings := { cells := [1, 2, 3], written := [] },
        kdtree := [4, 5, 6], targets := Buffer.empty, targetTree := [9],
        newHeadings := { cells := [0, 0, 0], written := [] } },
    averageNeighberCount := 0, maxNeighberCount := 0,
    boids :=
      { hds := { cells := [1, 2, 3], written := [] },
        trs := { cells := [4, 5, 6], written := [] } },
    targetTrs := [9] }

/-- A device that appends its number to the state whenever one of its members is
called, and reports the given value. -/
def numbered (k : Nat) (answer : Bool) : IRenderDevice (List Nat) Unit :=
  { valid := fun _ log => (answer, log ++ [k]),
    present := fun _ log => (answer, log ++ [k]),
    execute_pass := fun _ _ log => (answer, log ++ [k]),
    execute_graph := fun _ log => (answer, log ++ [k]) }

/-- A group of three devices of which the first fails. -/
def threeDevices : List (IRenderDevice (List Nat) Unit) :=
  [numbered 7 false, numbered 8 true, numbered 9 true]

/-- A table with two live entries: resource 10 at generation 0 and resource 11 at
generation 3. -/
def twoEntries : List (Option Nat × Nat) := [(some 10, 0), (some 11, 3)]

/-- A kd-tree stand-in that finds the points 0 and 1 around the query point 0 and
only the point 0 around any other. -/
def twoThenOneKd : KdTreeOps (List Int) Int Int :=
  { search_k_radius := fun _ p _ _ out => out ++ (if p = 0 then [(0, 0), (0, 1)] else [(0, 0)]),
    get := fun tree i => tree.getD i 0,
    search_nearest := fun _ _ => 0,
    initialise := fun _ pts => (pts, []) }

/-- Two boids, the first at the point 0. -/
def twoBoids : BoidsSystem.MainInput (List Int) Int Int :=
  { headings := [6, 2], kdtree := [0, 10], targetTree := [9], deltaTime := 1,
    boid :=
      { SightRadius := 5, AlignmentWeight := 1, SeparationWeight := 1, TargetWeight := 1,
        MoveSpeed := 15 },
    hdsCol := [6, 2], trsCol := [0, 10] }

/-- An entity that owns `LocalToWorld` and carries `Translation` as a shared
value. -/
def follower : entity := { index := 2, generation := 0 }

/-- The chunk of `follower`: archetype `{LocalToWorld}` with the shared component
`Translation`. -/
def followerChunk : Chunk :=
  { types := [Comp.LocalToWorld], shared := [Comp.Translation], entities := [follower],
    lastWritten := [(Comp.Translation, 1)] }

/-- A world whose only chunk carries a source of `Local2XSystem` as a shared
value; `wrd_filter` selects it through its `any` set. -/
def sharedSource : World := [followerChunk]

end Examples

end Sakura

/-! # Theorems -/

namespace Sakura

open BoidsSystem

/-! ## Helper lemmas on the conflict rule -/

theorem sharesChunk_iff (w : World) (P Q : PassDecl) :
    sharesChunk w P Q = true ↔ ∃ c ∈ w, P.selects c = true ∧ Q.selects c = true := by
  simp [sharesChunk, List.any_eq_true]

theorem conflict_of_resource (w : World) (P Q : PassDecl)
    (h : accessConflict P.shareList Q.shareList = true) : conflict w P Q = true := by
  simp [conflict, h]

theorem conflict_of_component (w : World) (P Q : PassDecl) (c : Chunk) (hc : c ∈ w)
    (hP : P.selects c = true) (hQ : Q.selects c = true)
    (h : accessConflict P.paramList Q.paramList = true) : conflict w P Q = true := by
  have hs : sharesChunk w P Q = true := (sharesChunk_iff w P Q).2 ⟨c, hc, hP, hQ⟩
  simp [conflict, hs, h]

theorem conflict_false_of_access (w : World) (P Q : PassDecl)
    (hp : accessConflict P.paramList Q.paramList = false)
    (hs : accessConflict P.shareList Q.shareList = false) : conflict w P Q = false := by
  simp [conflict, hp, hs]

/-! ## C1: the kd-tree builders wait for the copies that fill their input -/

/-- C1: in `BoidsSystem`, in every world, the custom pass that builds the boid
kd-tree (it declares `read(positions)`, `write(kdtree)`) has the
`CopyComponent<Translation>` pass that declares `write(positions)` as a required
predecessor, and the custom pass that builds the target kd-tree
(`read(targets)`, `write(targetTree)`) has the `CopyComponent<Translation>` pass
that declares `write(targets)` as a required predecessor. -/
theorem C1_kdtree_builds_after_copies (w : World) :
    units[0]? = some copyPositions ∧ units[2]? = some buildBoidKDTree
      ∧ units[3]? = some copyTargets ∧ units[4]? = some buildTargetKDTree
      ∧ copyPositions.shareList = [write Res.positions]
      ∧ buildBoidKDTree.shareList = [read Res.positions, write Res.kdtree]
      ∧ copyTargets.shareList = [write Res.targets]
      ∧ buildTargetKDTree.shareList = [read Res.targets, write Res.targetTree]
      ∧ requiredPredecessor w units 0 2 = true
      ∧ requiredPredecessor w units 3 4 = true := by
  refine ⟨rfl, rfl, rfl, rfl, rfl, rfl, rfl, rfl, ?_, ?_⟩
  · have h := conflict_of_resource w buildBoidKDTree copyPositions (by decide)
    simpa [requiredPredecessor, units] using h
  · have h := conflict_of_resource w buildTargetKDTree copyTargets (by decide)
    simpa [requiredPredecessor, units] using h

/-! ## C7: the direct predecessors of Boid Main -/

/-- C7: in every world, the units of `BoidsSystem` that are required
predecessors of the Boid Main pass (position 5) are exactly the
`CopyComponent<Heading>` pass (position 1), the boid kd-tree pass (position 2)
and the target kd-tree pass (position 4); the two `CopyComponent<Translation>`
passes (positions 0 and 3) are not, since they meet Boid Main on no resource
and only on components that both sides read. -/
theorem C7_boid_main_predecessors (w : World) (i : Nat) :
    (requiredPredecessor w units i 5 = true ↔ (i = 1 ∨ i = 2 ∨ i = 4))
      ∧ accessConflict boidMain.shareList copyPositions.shareList = false
      ∧ accessConflict boidMain.shareList copyTargets.shareList = false
      ∧ accessConflict boidMain.paramList copyPositions.paramList = false
      ∧ accessConflict boidMain.paramList copyTargets.paramList = false := by
  refine ⟨⟨?_, ?_⟩, by decide, by decide, by decide, by decide⟩
  · intro h
    simp only [requiredPredecessor, Bool.and_eq_true, decide_eq_true_eq] at h
    obtain ⟨hi, h⟩ := h
    have h0 := conflict_false_of_access w boidMain copyPositions (by decide) (by decide)
    have h3 := conflict_false_of_access w boidMain copyTargets (by decide) (by decide)
    interval_cases i <;> simp_all [units]
  · rintro (rfl | rfl | rfl)
    · have h := conflict_of_resource w boidMain copyHeadings (by decide)
      simpa [requiredPredecessor, units] using h
    · have h := conflict_of_resource w boidMain buildBoidKDTree (by decide)
      simpa [requiredPredecessor, units] using h
    · have h := conflict_of_resource w boidMain buildTargetKDTree (by decide)
      simpa [requiredPredecessor, units] using h

/-! ## C8: the three copies are independent of each other -/

/-- C8: in every world, the three `CopyComponent` passes of `BoidsSystem`
(positions 0, 1 and 3) pairwise do not conflict: each declares one component
read and a write on a resource of its own, so for no two positions among them
is one a required predecessor of the other. -/
theorem C8_copies_pairwise_independent (w : World) :
    conflict w copyPositions copyHeadings = false
      ∧ conflict w copyHeadings copyPositions = false
      ∧ conflict w copyPositions copyTargets = false
      ∧ conflict w copyTargets copyPositions = false
      ∧ conflict w copyHeadings copyTargets = false
      ∧ conflict w copyTargets copyHeadings = false
      ∧ (∀ i ∈ [0, 1, 3], ∀ j ∈ [0, 1, 3], requiredPredecessor w units i j = false)
      ∧ (∀ p ∈ [copyPositions, copyHeadings, copyTargets],
          ∀ e ∈ p.paramList, e.2 = Access.Read)
      ∧ (copyPositions.shareList.map Prod.fst ++ copyHeadings.shareList.map Prod.fst
          ++ copyTargets.shareList.map Prod.fst).Nodup := by
  have h01 := conflict_false_of_access w copyPositions copyHeadings (by decide) (by decide)
  have h10 := conflict_false_of_access w copyHeadings copyPositions (by decide) (by decide)
  have h03 := conflict_false_of_access w copyPositions copyTargets (by decide) (by decide)
  have h30 := conflict_false_of_access w copyTargets copyPositions (by decide) (by decide)
  have h13 := conflict_false_of_access w copyHeadings copyTargets (by decide) (by decide)
  have h31 := conflict_false_of_access w copyTargets copyHeadings (by decide) (by decide)
  refine ⟨h01, h10, h03, h30, h13, h31, ?_, by decide, by decide⟩
  intro i hi j hj
  simp only [List.mem_cons, List.mem_singleton, List.not_mem_nil, or_false] at hi hj
  rcases hi with rfl | rfl | rfl <;> rcases hj with rfl | rfl | rfl <;>
    simp [requiredPredecessor, units, h01, h10, h03, h30, h13, h31]

/-! ## C9: Apply Boid waits for every earlier reader -/

/-- C9: in every world, the Apply Boid pass (position 6; it declares `Heading`
and `Translation` mutable and `read(newHeadings)`) has the Boid Main pass
(position 5) as a required predecessor; the two boid `CopyComponent` passes
(positions 0 and 1) match exactly the chunks Apply Boid matches and are required
predecessors as soon as `boidFilter` matches a chunk; and for every chunk Apply
Boid matches, every earlier unit of `BoidsSystem` that matches the chunk and
declares `Translation` or `Heading` is a required predecessor, so none of the two
is overwritten before its earlier readers are done. -/
theorem C9_apply_boid_predecessors (w : World) :
    applyBoid.paramList = [param Comp.Heading, param Comp.Translation, param_const Comp.Boid]
      ∧ applyBoid.shareList = [read Res.newHeadings]
      ∧ requiredPredecessor w units 5 6 = true
      ∧ (∀ c, copyPositions.selects c = applyBoid.selects c
          ∧ copyHeadings.selects c = applyBoid.selects c
          ∧ boidMain.selects c = applyBoid.selects c)
      ∧ ((∃ c ∈ w, boidFilter.selects c = true) →
          requiredPredecessor w units 0 6 = true ∧ requiredPredecessor w units 1 6 = true)
      ∧ (∀ i Q, i < 6 → units[i]? = some Q → ∀ c ∈ w, Q.selects c = true →
          applyBoid.selects c = true →
          Q.declares Comp.Translation = true ∨ Q.declares Comp.Heading = true →
          requiredPredecessor w units i 6 = true) := by
  have key : ∀ i Q, i < 6 → units[i]? = some Q → ∀ c ∈ w, Q.selects c = true →
      applyBoid.selects c = true →
      Q.declares Comp.Translation = true ∨ Q.declares Comp.Heading = true →
      requiredPredecessor w units i 6 = true := by
    intro i Q hi hQ c hc hsel hap hdecl
    have hconf : accessConflict applyBoid.paramList Q.paramList = true →
        requiredPredecessor w units i 6 = true := by
      intro hacc
      have h := conflict_of_component w applyBoid Q c hc hap hsel hacc
      have h6 : units[6]? = some applyBoid := rfl
      simp [requiredPredecessor, hi, hQ, h6, h]
    interval_cases i <;> simp [units] at hQ <;> subst hQ
    · exact hconf (by decide)
    · exact hconf (by decide)
    · simp [PassDecl.selects, buildBoidKDTree] at hsel
    · exact hconf (by decide)
    · simp [PassDecl.selects, buildTargetKDTree] at hsel
    · exact hconf (by decide)
  refine ⟨rfl, rfl, ?_, fun c => ⟨rfl, rfl, rfl⟩, ?_, key⟩
  · have h := conflict_of_resource w applyBoid boidMain (by decide)
    simpa [requiredPredecessor, units] using h
  · rintro ⟨c, hc, hsel⟩
    exact ⟨key 0 copyPositions (by decide) rfl c hc hsel hsel (Or.inl (by decide)),
      key 1 copyHeadings (by decide) rfl c hc hsel hsel (Or.inr (by decide))⟩

/-- C9, at the world `main` builds: `boidFilter` matches the chunk of the 10000
boids, so both boid copies are required predecessors of Apply Boid there. -/
theorem C9_apply_boid_predecessors_witness :
    (∃ c ∈ main.world, boidFilter.selects c = true)
      ∧ requiredPredecessor main.world units 0 6 = true
      ∧ requiredPredecessor main.world units 1 6 = true :=
  have h : ∃ c ∈ main.world, boidFilter.selects c = true :=
    ⟨main.boidChunk, by simp [main.world], by decide⟩
  ⟨h, (C9_apply_boid_predecessors main.world).2.2.2.2.1 h⟩

/-! ## C10: the change filter of `ConvertSystem` -/

theorem ConvertSystem.calls_getElem? (T : Comp) (Ts : List Comp) (cs : List (Nat × filters)) :
    ∀ (timestamp n : Nat) (c : Nat × filters), cs[n]? = some c →
      (ConvertSystem.calls T Ts timestamp cs)[n]?
        = some (ConvertSystem.call T Ts c.1 (ConvertSystem.readBefore timestamp cs n) c.2) := by
  induction cs with
  | nil => intro timestamp n c h; simp at h
  | cons hd tl ih =>
    intro timestamp n c h
    obtain ⟨t0, f0⟩ := hd
    cases n with
    | zero =>
      simp at h
      subst h
      simp [ConvertSystem.calls, ConvertSystem.readBefore]
    | succ k =>
      simp at h
      have := ih t0 k c h
      simp only [ConvertSystem.calls, List.getElem?_cons_succ]
      rw [show (ConvertSystem.call T Ts t0 timestamp f0).timestamp = t0 from rfl, this]
      cases k with
      | zero => simp [ConvertSystem.readBefore]
      | succ j => simp [ConvertSystem.readBefore]

/-- C10: for every sequence of calls to one instantiation of
`ConvertSystem<T, Ts...>` (the static starting at 0), the `n`-th call produces an
outcome; the chunk filter it installs lists exactly `Ts` and carries the
pipeline timestamp read during the call before it (0 on the first call); the
archetype filter of the caller's filter object is unchanged; and the trace of
the call stores the current pipeline timestamp in the static before it creates
the pass, which is created from the filter with the earlier timestamp. -/
theorem C10_convert_system_change_filter (T : Comp) (Ts : List Comp)
    (cs : List (Nat × filters)) (n : Nat) (ppl_timestamp : Nat) (filter : filters)
    (h : cs[n]? = some (ppl_timestamp, filter)) :
    ∃ r, (ConvertSystem.calls T Ts 0 cs)[n]? = some r
      ∧ r.filter.chunkFilter.changed = Ts
      ∧ r.filter.chunkFilter.prevTimestamp
          = (if n = 0 then 0 else (cs.map Prod.fst).getD (n - 1) 0)
      ∧ r.filter.archetypeFilter = filter.archetypeFilter
      ∧ r.timestamp = ppl_timestamp
      ∧ r.pass.filter = some r.filter
      ∧ r.pass.paramList = param T :: Ts.map param_const
      ∧ r.trace = [ConvertSystem.Stmt.assignChunkFilter r.filter.chunkFilter,
          ConvertSystem.Stmt.assignTimestamp ppl_timestamp,
          ConvertSystem.Stmt.create_pass r.filter r.pass.paramList ppl_timestamp,
          ConvertSystem.Stmt.schedule 500] := by
  refine ⟨_, ConvertSystem.calls_getElem? T Ts cs 0 n _ h, rfl, ?_, rfl, rfl, rfl, rfl, rfl⟩
  cases n with
  | zero => simp [ConvertSystem.call, ConvertSystem.readBefore]
  | succ k => simp [ConvertSystem.call, ConvertSystem.readBefore]

/-- C10, on three calls of `ConvertSystem<Rotation, Heading>` in frames with
pipeline timestamps 4, 5 and 9: the third call filters on changes since 5. -/
theorem C10_convert_system_change_filter_witness :
    ∃ r, (ConvertSystem.calls Comp.Rotation [Comp.Heading] 0
          [(4, filters.default), (5, filters.default), (9, filters.default)])[2]? = some r
      ∧ r.filter.chunkFilter.changed = [Comp.Heading]
      ∧ r.filter.chunkFilter.prevTimestamp = 5
      ∧ r.filter.archetypeFilter = filters.default.archetypeFilter
      ∧ r.timestamp = 9 := by
  obtain ⟨r, h1, h2, h3, h4, h5, -⟩ := C10_convert_system_change_filter Comp.Rotation
    [Comp.Heading] [(4, filters.default), (5, filters.default), (9, filters.default)] 2 9
    filters.default rfl
  exact ⟨r, h1, h2, by simpa using h3, h4, h5⟩

/-! ## Slice-wise assignment -/

theorem Buffer.assign_spec {α : Type} (v : Buffer α) (i : Nat) (x : α)
    (h : i < v.cells.length) :
    ∃ v', v.assign i x = some v' ∧ v'.cells.length = v.cells.length
      ∧ v'.written = v.written ++ [i]
      ∧ ∀ j, v'.cells[j]? = if j = i then some x else v.cells[j]? := by
  refine ⟨{ cells := v.cells.set i x, written := v.written ++ [i] },
    by simp [Buffer.assign, h], by simp, rfl, ?_⟩
  intro j
  simp only [List.getElem?_set]
  by_cases hji : j = i
  · subst hji; simp [h]
  · have : ¬ i = j := fun e => hji e.symm
    simp [hji, this]

/-- A loop whose body assigns `f i` at position `base + i` of the buffer `π s` of
its state and keeps the invariant `P`. -/
theorem forloopFrom_assign {σ α : Type} (π : σ → Buffer α) (P : σ → Prop)
    (body : Nat → σ → Option σ) (f : Nat → α) (base : Nat) :
    ∀ (k z : Nat) (s : σ), P s →
      (∀ i u, z ≤ i → i < z + k → P u → base + i < (π u).cells.length →
        ∃ u', body i u = some u' ∧ P u' ∧ (π u).assign (base + i) (f i) = some (π u')) →
      base + z + k ≤ (π s).cells.length →
      ∃ s', forloopFrom body k z s = some s' ∧ P s'
        ∧ (π s').cells.length = (π s).cells.length
        ∧ (π s').written = (π s).written ++ List.range' (base + z) k
        ∧ ∀ j, (π s').cells[j]? =
            if base + z ≤ j ∧ j < base + z + k then some (f (j - base))
            else (π s).cells[j]? := by
  intro k
  induction k with
  | zero =>
    intro z s hP _ _
    refine ⟨s, rfl, hP, rfl, by simp, ?_⟩
    intro j
    have : ¬ (base + z ≤ j ∧ j < base + z) := by omega
    simp [this]
  | succ k ih =>
    intro z s hP hbody hlen
    obtain ⟨s1, hb, hP1, ha⟩ := hbody z s (le_refl z) (by omega) hP (by omega)
    obtain ⟨v1, h1, hl1, hw1, hc1⟩ := Buffer.assign_spec (π s) (base + z) (f z) (by omega)
    rw [ha] at h1
    cases h1
    obtain ⟨s2, h2, hP2, hl2, hw2, hc2⟩ := ih (z + 1) s1 hP1
      (fun i u hi hi' => hbody i u (by omega) (by omega)) (by omega)
    refine ⟨s2, ?_, hP2, by omega, ?_, ?_⟩
    · simp [forloopFrom, hb, h2]
    · rw [hw2, hw1, List.append_assoc]
      simp [List.range'_succ, Nat.add_assoc]
    · intro j
      rw [hc2 j, hc1 j]
      by_cases hj : j = base + z
      · subst hj
        have : ¬ (base + (z + 1) ≤ base + z ∧ base + z < base + (z + 1) + k) := by omega
        simp [this]
      · by_cases hr : base + (z + 1) ≤ j ∧ j < base + (z + 1) + k
        · have : base + z ≤ j ∧ j < base + z + (k + 1) := by omega
          simp [hr, this]
        · have : ¬ (base + z ≤ j ∧ j < base + z + (k + 1)) := by omega
          simp [hr, this, hj]

/-- A loop whose body keeps an invariant runs to its end. -/
theorem forloopFrom_inv {σ : Type} (P : σ → Prop) (body : Nat → σ → Option σ) :
    ∀ (k z : Nat) (s : σ), P s →
      (∀ i u, z ≤ i → i < z + k → P u → ∃ u', body i u = some u' ∧ P u') →
      ∃ s', forloopFrom body k z s = some s' ∧ P s' := by
  intro k
  induction k with
  | zero => intro z s hP _; exact ⟨s, rfl, hP⟩
  | succ k ih =>
    intro z s hP hbody
    obtain ⟨s1, hb, hP1⟩ := hbody z s (le_refl z) (by omega) hP
    obtain ⟨s2, h2, hP2⟩ := ih (z + 1) s1 hP1
      (fun i u hi hi' => hbody i u (by omega) (by omega))
    exact ⟨s2, by simp [forloopFrom, hb, h2], hP2⟩

theorem schedule_cons {σ : Type} (body : task → σ → Option σ) (tk : task)
    (rest : List task) (s : σ) :
    schedule body (tk :: rest) s = (body tk s).bind (schedule body rest) := by
  simp only [schedule, List.foldlM_cons]
  cases body tk s <;> rfl

/-- Running, over any slices within the bounds, a body that assigns exactly the
positions of its slice: the run completes and the log grows by the positions
of the slices, in the order they ran. -/
theorem schedule_written {σ α : Type} (π : σ → Buffer α) (P : σ → Prop)
    (body : task → σ → Option σ) (n : Nat)
    (hbody : ∀ tk s, P s → (π s).cells.length = n → tk.index + tk.count ≤ n →
      ∃ s', body tk s = some s' ∧ P s' ∧ (π s').cells.length = n
        ∧ (π s').written = (π s).written ++ tk.range) :
    ∀ (slices : List task) (s : σ), P s → (π s).cells.length = n →
      (∀ tk ∈ slices, tk.index + tk.count ≤ n) →
      ∃ s', schedule body slices s = some s' ∧ P s' ∧ (π s').cells.length = n
        ∧ (π s').written = (π s).written ++ slices.flatMap task.range := by
  intro slices
  induction slices with
  | nil =>
    intro s hP hs _
    exact ⟨s, rfl, hP, hs, by simp⟩
  | cons tk rest ih =>
    intro s hP hs hbound
    obtain ⟨s1, h1, hP1, hl1, hw1⟩ := hbody tk s hP hs (hbound tk (List.mem_cons_self _ _))
    obtain ⟨s2, h2, hP2, hl2, hw2⟩ := ih s1 hP1 hl1
      (fun t ht => hbound t (List.mem_cons_of_mem _ ht))
    refine ⟨s2, ?_, hP2, hl2, ?_⟩
    · rw [schedule_cons, h1]; exact h2
    · rw [hw2, hw1, List.flatMap_cons, List.append_assoc]

/-- Running a body that assigns slice-wise over slices that do not overlap. -/
theorem schedule_assign {σ α : Type} (π : σ → Buffer α) (P : σ → Prop)
    (body : task → σ → Option σ) (F : task → Nat → α) (n : Nat)
    (hbody : ∀ tk s, P s → (π s).cells.length = n → tk.index + tk.count ≤ n →
      ∃ s', body tk s = some s' ∧ P s' ∧ (π s').cells.length = n
        ∧ (π s').written = (π s).written ++ tk.range
        ∧ ∀ j, (π s').cells[j]? =
            if tk.index ≤ j ∧ j < tk.index + tk.count then some (F tk (j - tk.index))
            else (π s).cells[j]?) :
    ∀ (slices : List task) (s : σ), P s → (π s).cells.length = n →
      (∀ tk ∈ slices, tk.index + tk.count ≤ n) →
      (slices.flatMap task.range).Nodup →
      ∃ s', schedule body slices s = some s' ∧ P s' ∧ (π s').cells.length = n
        ∧ (π s').written = (π s).written ++ slices.flatMap task.range
        ∧ (∀ tk ∈ slices, ∀ i, i < tk.count → (π s').cells[tk.index + i]? = some (F tk i))
        ∧ (∀ j, j ∉ slices.flatMap task.range → (π s').cells[j]? = (π s).cells[j]?) := by
  intro slices
  induction slices with
  | nil =>
    intro s hP hs _ _
    exact ⟨s, rfl, hP, hs, by simp, by simp, by simp⟩
  | cons tk rest ih =>
    intro s hP hs hbound hnd
    obtain ⟨s1, h1, hP1, hl1, hw1, hc1⟩ :=
      hbody tk s hP hs (hbound tk (List.mem_cons_self _ _))
    rw [List.flatMap_cons, List.nodup_append] at hnd
    obtain ⟨_, hndr, hdisj⟩ := hnd
    obtain ⟨s2, h2, hP2, hl2, hw2, hc2, hf2⟩ := ih s1 hP1 hl1
      (fun t ht => hbound t (List.mem_cons_of_mem _ ht)) hndr
    have hhead : ∀ i, i < tk.count → (π s2).cells[tk.index + i]? = some (F tk i) := by
      intro i hi
      have hmem : tk.index + i ∈ tk.range := by
        simp only [task.range, List.mem_range']
        exact ⟨i, hi, by simp⟩
      have hnot : tk.index + i ∉ rest.flatMap task.range := fun hin => hdisj hmem hin
      rw [hf2 _ hnot, hc1]
      have : tk.index ≤ tk.index + i ∧ tk.index + i < tk.index + tk.count := by omega
      simp [this]
    refine ⟨s2, ?_, hP2, hl2, ?_, ?_, ?_⟩
    · rw [schedule_cons, h1]; exact h2
    · rw [hw2, hw1, List.flatMap_cons, List.append_assoc]
    · intro t ht i hi
      rcases List.mem_cons.1 ht with rfl | ht'
      · exact hhead i hi
      · exact hc2 t ht' i hi
    · intro j hj
      rw [List.flatMap_cons, List.mem_append, not_or] at hj
      rw [hf2 j hj.2, hc1 j]
      have : ¬ (tk.index ≤ j ∧ j < tk.index + tk.count) := by
        intro hr
        apply hj.1
        simp only [task.range, List.mem_range']
        exact ⟨j - tk.index, by omega, by omega⟩
      simp [this]

theorem contiguous_range : ∀ (ordered : List task) (s e : Nat), contiguous s ordered e →
    s ≤ e ∧ ordered.flatMap task.range = List.range' s (e - s)
      ∧ ∀ tk ∈ ordered, tk.index + tk.count ≤ e := by
  intro ordered
  induction ordered with
  | nil =>
    intro s e h
    simp only [contiguous] at h
    subst h
    simp
  | cons tk rest ih =>
    intro s e h
    simp only [contiguous] at h
    obtain ⟨hidx, hrest⟩ := h
    obtain ⟨hle, hflat, hb⟩ := ih _ _ hrest
    refine ⟨by omega, ?_, ?_⟩
    · rw [List.flatMap_cons, hflat, task.range, hidx]
      have := List.range'_append s tk.count (e - (s + tk.count)) 1
      rw [Nat.one_mul] at this
      rw [this]
      congr 1
      omega
    · intro t ht
      rcases List.mem_cons.1 ht with rfl | ht'
      · omega
      · exact hb t ht'

theorem IsSlicing.facts {slices : List task} {n : Nat} (h : IsSlicing slices n) :
    (slices.flatMap task.range).Perm (List.range n)
      ∧ (slices.flatMap task.range).Nodup
      ∧ ∀ tk ∈ slices, tk.index + tk.count ≤ n := by
  obtain ⟨ordered, hperm, hcont⟩ := h
  obtain ⟨_, hflat, hb⟩ := contiguous_range ordered 0 n hcont
  have hp : (slices.flatMap task.range).Perm (List.range n) := by
    have := (List.Perm.flatMap_right task.range hperm).symm
    rw [hflat, Nat.sub_zero, ← List.range_eq_range'] at this
    exact this
  exact ⟨hp, (List.Perm.nodup_iff hp).2 (List.nodup_range n),
    fun tk htk => hb tk ((List.Perm.mem_iff hperm).2 htk)⟩

/-! ## C5: `CopyComponent` fills the shared vector whatever the slicing -/

theorem CopyComponent.copy_body_spec {γ α : Type} (convert : γ → α) (col : List γ) (d : α)
    (tk : task) (v : Buffer α) (hv : v.cells.length = col.length)
    (hb : tk.index + tk.count ≤ col.length) :
    ∃ v', CopyComponent.body convert col tk v = some v' ∧ v'.cells.length = col.length
      ∧ v'.written = v.written ++ tk.range
      ∧ ∀ j, v'.cells[j]? =
          if tk.index ≤ j ∧ j < tk.index + tk.count then
            some ((col.map convert).getD (tk.index + (j - tk.index)) d)
          else v.cells[j]? := by
  obtain ⟨v', h1, -, h2, h3, h4⟩ := forloopFrom_assign id (fun _ => True)
    (fun i (vector : Buffer α) =>
      match operation.get_parameter col tk i with
      | some c => vector.assign (tk.index + i) (convert c)
      | none => none)
    (fun i => (col.map convert).getD (tk.index + i) d) tk.index tk.count 0 v trivial
    (by
      intro i u _ hi _ hu
      have hlt : tk.index + i < col.length := by omega
      obtain ⟨u', hu', -⟩ := Buffer.assign_spec u (tk.index + i)
        ((col.map convert).getD (tk.index + i) d) hu
      refine ⟨u', ?_, trivial, hu'⟩
      rw [← hu']
      simp [operation.get_parameter, List.getD, List.getElem?_eq_getElem hlt])
    (by simp only [id]; omega)
  simp only [id] at h2 h3 h4
  refine ⟨v', ?_, by omega, by simpa [task.range] using h3, ?_⟩
  · simpa [CopyComponent.body, forloop] using h1
  · intro j
    simpa using h4 j

theorem CopyComponent.run_spec {γ α : Type} (convert : γ → α) (col : List γ) (d : α)
    (vector : Buffer α) (slices : List task) (h : IsSlicing slices col.length) :
    ∃ v, CopyComponent.run convert col d slices vector = some v
      ∧ v.cells = col.map convert
      ∧ v.written = vector.written ++ slices.flatMap task.range := by
  obtain ⟨hperm, hnd, hbound⟩ := h.facts
  have hlen : (CopyComponent.atSchedule col.length d vector).cells.length = col.length := by
    simp only [CopyComponent.atSchedule, Buffer.resize, List.length_append, List.length_take,
      List.length_replicate]
    omega
  obtain ⟨v, hrun, -, hl, hw, hc, _⟩ := schedule_assign id (fun _ => True)
    (CopyComponent.body convert col)
    (fun tk i => (col.map convert).getD (tk.index + i) d) col.length
    (fun tk u _ hu hb => by
      obtain ⟨v', a, b, c, e⟩ := CopyComponent.copy_body_spec convert col d tk u hu hb
      exact ⟨v', a, trivial, b, c, e⟩)
    slices _ trivial hlen hbound hnd
  simp only [id] at hl hw hc
  refine ⟨v, hrun, ?_, hw⟩
  apply List.ext_getElem?
  intro j
  by_cases hj : j < col.length
  · have hmem : j ∈ slices.flatMap task.range :=
      (List.Perm.mem_iff hperm).2 (List.mem_range.2 hj)
    obtain ⟨tk, htk, hjr⟩ := List.mem_flatMap.1 hmem
    simp only [task.range, List.mem_range'] at hjr
    obtain ⟨i, hi, rfl⟩ := hjr
    rw [Nat.one_mul] at hj ⊢
    rw [hc tk htk i hi]
    simp [List.getD, List.getElem?_eq_getElem hj]
  · rw [List.getElem?_eq_none (by omega), List.getElem?_eq_none (by simp; omega)]

/-- C5: for every pass (given by the component values `col` of its matched
entities, so `entityCount = col.length`) and every partition of
`[0, entityCount)` into contiguous slices, run in any order: `CopyComponent`
completes, the shared vector has length `entityCount`, the positions assigned by
the tasks are each position below `entityCount` exactly once, and position `j`
holds the component value of the entity at pass position `j`; any other such
partition yields the same vector. -/
theorem C5_copy_component_any_slicing {γ α : Type} (convert : γ → α) (col : List γ)
    (d : α) (vector : Buffer α) (slices : List task) (h : IsSlicing slices col.length) :
    ∃ v ws, CopyComponent.run convert col d slices vector = some v
      ∧ v.cells.length = col.length
      ∧ v.written = vector.written ++ ws
      ∧ (∀ j, ws.count j = if j < col.length then 1 else 0)
      ∧ (∀ j (hj : j < col.length), v.cells[j]? = some (convert col[j]))
      ∧ ∀ slices', IsSlicing slices' col.length →
          ∃ v', CopyComponent.run convert col d slices' vector = some v'
            ∧ v'.cells = v.cells := by
  obtain ⟨v, hrun, hcells, hw⟩ := CopyComponent.run_spec convert col d vector slices h
  refine ⟨v, slices.flatMap task.range, hrun, by simp [hcells], hw, ?_, ?_, ?_⟩
  · intro j
    rw [List.Perm.count_eq h.facts.1 j]
    by_cases hj : j < col.length
    · simp [hj, List.count_eq_one_of_mem (List.nodup_range _) (List.mem_range.2 hj)]
    · simp [hj, List.count_eq_zero_of_not_mem (fun hm => hj (List.mem_range.1 hm))]
  · intro j hj
    simp [hcells, List.getElem?_eq_getElem hj]
  · intro slices' h'
    obtain ⟨v', hrun', hcells', _⟩ := CopyComponent.run_spec convert col d vector slices' h'
    exact ⟨v', hrun', by rw [hcells', hcells]⟩

/-- C5, on five entities cut into the slices `(3, 2)` and `(0, 3)`, the later
slice running first: the vector ends up as the five component values. -/
theorem C5_copy_component_any_slicing_witness :
    IsSlicing [{ index := 3, count := 2 }, { index := 0, count := 3 }] 5
      ∧ ∃ v, CopyComponent.run (fun x : Nat => x) [10, 20, 30, 40, 50] 0
            [{ index := 3, count := 2 }, { index := 0, count := 3 }] Buffer.empty = some v
          ∧ v.cells.length = 5 ∧ v.cells[2]? = some 30 :=
  have hs : IsSlicing [{ index := 3, count := 2 }, { index := 0, count := 3 }] 5 :=
    ⟨[{ index := 0, count := 3 }, { index := 3, count := 2 }], List.Perm.swap _ _ _,
      by simp [contiguous]⟩
  ⟨hs, by
    obtain ⟨v, _, h1, h2, _, _, h5, _⟩ := C5_copy_component_any_slicing (fun x : Nat => x)
      [10, 20, 30, 40, 50] 0 Buffer.empty _ hs
    exact ⟨v, h1, h2, h5 2 (by decide)⟩⟩

/-! ## C6: Boid Main and Apply Boid agree on pass positions -/

theorem BoidsSystem.BoidMain.accumulate_ok {K V S : Type} (ops : VectorOps V S)
    (kd : KdTreeOps K V S) (inp : MainInput K V S) (i : Nat) :
    ∀ (ngs : List (S × Nat)), (∀ ng ∈ ngs, ng.2 < inp.headings.length) →
      ∀ acc, ∃ acc', ngs.foldlM (BoidMain.accumulate ops kd inp i) acc = some acc' := by
  intro ngs
  induction ngs with
  | nil => intro _ acc; exact ⟨acc, rfl⟩
  | cons ng rest ih =>
    intro h acc
    have hlt := h ng (List.mem_cons_self _ _)
    obtain ⟨acc', h'⟩ := ih (fun x hx => h x (List.mem_cons_of_mem _ hx))
      (acc.1.set i (ops.add (acc.1.getD i ops.vector_zero) inp.headings[ng.2]),
        acc.2.set i (ops.add (acc.2.getD i ops.vector_zero) (kd.get inp.kdtree ng.2)))
    refine ⟨acc', ?_⟩
    simp only [List.foldlM_cons, BoidMain.accumulate, List.getElem?_eq_getElem hlt]
    exact h'

theorem BoidsSystem.BoidMain.collectNeighborsLocals_ok {K V S : Type}
    (ops : VectorOps V S) (kd : KdTreeOps K V S) (inp : MainInput K V S)
    (hkd : ∀ p r k, ∀ ng ∈ kd.search_k_radius inp.kdtree p r k [],
      ng.2 < inp.headings.length)
    (trs : Nat → Option V) (i : Nat) (t : V) (ht : trs i = some t) (l : Locals V S) :
    ∃ l', BoidMain.collectNeighborsLocals ops kd inp trs i l = some l' := by
  obtain ⟨acc', h'⟩ := BoidMain.accumulate_ok ops kd inp i
    (kd.search_k_radius inp.kdtree t inp.boid.SightRadius 10 []) (hkd _ _ _)
    (l.alignments.set i ops.vector_zero, l.separations.set i ops.vector_zero)
  simp only [BoidMain.collectNeighborsLocals, ht, h']
  exact ⟨_, rfl⟩

/-- The first loop of "Boid Main" computes its local variables without regard to
the state it is given, and leaves `newHeadings` alone. -/
theorem BoidsSystem.BoidMain.collectNeighbors_loop {K V S : Type} (ops : VectorOps V S)
    (kd : KdTreeOps K V S) (inp : MainInput K V S) (trs : Nat → Option V) :
    ∀ (k z : Nat) (l l' : Locals V S) (st : MainState V),
      forloopFrom (BoidMain.collectNeighborsLocals ops kd inp trs) k z l = some l' →
      ∃ st', forloopFrom (BoidMain.collectNeighbors ops kd inp trs) k z (l, st)
          = some (l', st') ∧ st'.newHeadings = st.newHeadings := by
  intro k
  induction k with
  | zero =>
    intro z l l' st h
    simp only [forloopFrom, Option.some.injEq] at h
    subst h
    exact ⟨st, rfl, rfl⟩
  | succ k ih =>
    intro z l l' st h
    simp only [forloopFrom] at h
    cases h1 : BoidMain.collectNeighborsLocals ops kd inp trs z l with
    | none => simp [h1] at h
    | some l1 =>
      simp only [h1] at h
      obtain ⟨st', hst', hnh⟩ := ih (z + 1) l1 l'
        { st with
          averageNeighberCount := (st.averageNeighberCount + l1.neighbers.length) % 2 ^ 64,
          maxNeighberCount := update_maximum st.maxNeighberCount l1.neighbers.length } h
      refine ⟨st', ?_, hnh⟩
      simp only [forloopFrom, BoidMain.collectNeighbors, h1]
      exact hst'

theorem operation.get_parameter_some {γ : Type} (col : List γ) (d : γ) (tk : task) (i : Nat)
    (h : tk.index + i < col.length) :
    operation.get_parameter col tk i = some (col.getD (tk.index + i) d) := by
  simp [operation.get_parameter, List.getD, List.getElem?_eq_getElem h]

/-- What one "Boid Main" task does to `newHeadings`: it completes and assigns,
at every position of its slice and nowhere else, the value it computes for
that row. -/
theorem BoidsSystem.BoidMain.main_body_spec {K V S : Type} (ops : VectorOps V S)
    (kd : KdTreeOps K V S) (inp : MainInput K V S) (d : V)
    (hkd : ∀ p r k, ∀ ng ∈ kd.search_k_radius inp.kdtree p r k [],
      ng.2 < inp.headings.length)
    (n : Nat) (hh : inp.hdsCol.length = n) (ht : inp.trsCol.length = n)
    (tk : task) (st : MainState V) (hs : st.newHeadings.cells.length = n)
    (hb : tk.index + tk.count ≤ n) :
    ∃ st', BoidMain.body ops kd inp tk st = some st'
      ∧ st'.newHeadings.cells.length = n
      ∧ st'.newHeadings.written = st.newHeadings.written ++ tk.range
      ∧ (∀ j, st'.newHeadings.cells[j]? =
          if tk.index ≤ j ∧ j < tk.index + tk.count then
            some ((BoidMain.value ops kd inp tk (j - tk.index)).getD d)
          else st.newHeadings.cells[j]?)
      ∧ (∀ i, i < tk.count → ∃ x, BoidMain.value ops kd inp tk i = some x) := by
  have htrs : ∀ i, i < tk.count → operation.get_parameter inp.trsCol tk i
      = some (inp.trsCol.getD (tk.index + i) d) :=
    fun i hi => operation.get_parameter_some inp.trsCol d tk i (by omega)
  have hhds : ∀ i, i < tk.count → operation.get_parameter inp.hdsCol tk i
      = some (inp.hdsCol.getD (tk.index + i) d) :=
    fun i hi => operation.get_parameter_some inp.hdsCol d tk i (by omega)
  obtain ⟨l1, hl1, -⟩ := forloopFrom_inv (fun _ => True)
    (BoidMain.collectNeighborsLocals ops kd inp (operation.get_parameter inp.trsCol tk))
    tk.count 0 (BoidMain.locals0 ops tk) trivial
    (fun i u _ hi _ => by
      obtain ⟨l', h'⟩ := BoidMain.collectNeighborsLocals_ok ops kd inp hkd _ i _
        (htrs i (by omega)) u
      exact ⟨l', h', trivial⟩)
  obtain ⟨l2, hl2, -⟩ := forloopFrom_inv (fun _ => True)
    (BoidMain.collectTargets kd inp (operation.get_parameter inp.trsCol tk))
    tk.count 0 l1 trivial
    (fun i u _ hi _ => by
      simp only [BoidMain.collectTargets, htrs i (by omega)]
      exact ⟨_, rfl, trivial⟩)
  obtain ⟨st1, hst1, hnh1⟩ := BoidMain.collectNeighbors_loop ops kd inp
    (operation.get_parameter inp.trsCol tk) tk.count 0 _ l1 st hl1
  have hloc : BoidMain.locals ops kd inp tk = some l2 := by
    simp only [BoidMain.locals, forloop, Nat.sub_zero, hl1, hl2]
  have hval : ∀ i, i < tk.count → BoidMain.value ops kd inp tk i
      = some (BoidMain.newHeading ops inp l2 (inp.hdsCol.getD (tk.index + i) d)
          (inp.trsCol.getD (tk.index + i) d) i) := by
    intro i hi
    simp only [BoidMain.value, hloc, hhds i hi, htrs i hi]
  obtain ⟨st3, hst3, -, hlen3, hw3, hc3⟩ := forloopFrom_assign
    (fun u : MainState V => u.newHeadings) (fun _ => True)
    (BoidMain.calculateBoids ops inp l2 tk.index (operation.get_parameter inp.hdsCol tk)
      (operation.get_parameter inp.trsCol tk))
    (fun i => BoidMain.newHeading ops inp l2 (inp.hdsCol.getD (tk.index + i) d)
      (inp.trsCol.getD (tk.index + i) d) i)
    tk.index tk.count 0 st1 trivial
    (fun i u _ hi _ hu => by
      obtain ⟨nh, hnh, -⟩ := Buffer.assign_spec u.newHeadings (tk.index + i)
        (BoidMain.newHeading ops inp l2 (inp.hdsCol.getD (tk.index + i) d)
          (inp.trsCol.getD (tk.index + i) d) i) hu
      refine ⟨{ u with newHeadings := nh }, ?_, trivial, hnh⟩
      simp only [BoidMain.calculateBoids, hhds i (by omega), htrs i (by omega), hnh])
    (by simp only [hnh1]; omega)
  simp only [hnh1] at hlen3 hw3 hc3
  refine ⟨st3, ?_, by omega, by simpa [task.range] using hw3, ?_, fun i hi => ⟨_, hval i hi⟩⟩
  · simp only [BoidMain.body, forloop, Nat.sub_zero, hst1, hl2, hst3]
  · intro j
    rw [hc3 j]
    by_cases hr : tk.index ≤ j ∧ j < tk.index + tk.count
    · have h0 : tk.index + 0 ≤ j ∧ j < tk.index + 0 + tk.count := by omega
      rw [if_pos h0, if_pos hr, hval (j - tk.index) (by omega)]
      rfl
    · have h0 : ¬ (tk.index + 0 ≤ j ∧ j < tk.index + 0 + tk.count) := by omega
      rw [if_neg h0, if_neg hr]

/-- What one "Apply Boid" task does to the `Heading` array: it completes and
assigns, at every position of its slice and nowhere else, the element of
`newHeadings` at the same position. -/
theorem BoidsSystem.ApplyBoid.apply_body_spec {V S : Type} (ops : VectorOps V S) (boid : Boid S)
    (deltaTime : S) (newHeadings : List V) (d : V) (n : Nat)
    (hnh : newHeadings.length = n) (tk : task) (st : ApplyState V)
    (ht : st.trs.cells.length = n) (hh : st.hds.cells.length = n)
    (hb : tk.index + tk.count ≤ n) :
    ∃ st', ApplyBoid.body ops boid deltaTime newHeadings tk st = some st'
      ∧ st'.trs.cells.length = n ∧ st'.hds.cells.length = n
      ∧ st'.hds.written = st.hds.written ++ tk.range
      ∧ (∀ j, st'.hds.cells[j]? =
          if tk.index ≤ j ∧ j < tk.index + tk.count then
            some (newHeadings.getD (tk.index + (j - tk.index)) d)
          else st.hds.cells[j]?) := by
  obtain ⟨st', h1, hP, hl, hw, hc⟩ := forloopFrom_assign
    (fun u : ApplyState V => u.hds) (fun u => u.trs.cells.length = n)
    (fun i (st : ApplyState V) =>
      match newHeadings[i + tk.index]? with
      | none => none
      | some x =>
        match st.hds.assign (tk.index + i) x with
        | none => none
        | some hds =>
          match st.trs.cells[tk.index + i]?, hds.cells[tk.index + i]? with
          | some t, some h =>
            match st.trs.assign (tk.index + i)
                (ops.add t (ops.mul (ops.mul h deltaTime) boid.MoveSpeed)) with
            | some trs => some { hds := hds, trs := trs }
            | none => none
          | _, _ => none)
    (fun i => newHeadings.getD (tk.index + i) d) tk.index tk.count 0 st ht
    (by
      intro i u _ hi hu hlen
      have hlt : i + tk.index < newHeadings.length := by omega
      have hlt' : tk.index + i < u.trs.cells.length := by omega
      have hx : newHeadings.getD (tk.index + i) d = newHeadings[i + tk.index] := by
        simp [List.getD, Nat.add_comm tk.index i, List.getElem?_eq_getElem hlt]
      obtain ⟨hds, hhds, -, -, hcell⟩ := Buffer.assign_spec u.hds (tk.index + i)
        newHeadings[i + tk.index] hlen
      obtain ⟨trs, htrs, htl, -, -⟩ := Buffer.assign_spec u.trs (tk.index + i)
        (ops.add u.trs.cells[tk.index + i]
          (ops.mul (ops.mul newHeadings[i + tk.index] deltaTime) boid.MoveSpeed)) hlt'
      refine ⟨{ hds := hds, trs := trs }, ?_, by simp only; omega,
        by simp only [hx]; exact hhds⟩
      have hc := hcell (tk.index + i)
      simp only [if_true] at hc
      simp only [List.getElem?_eq_getElem hlt, hhds, List.getElem?_eq_getElem hlt', hc, htrs])
    (by simp only; omega)
  refine ⟨st', ?_, hP, by omega, by simpa [task.range] using hw, ?_⟩
  · simpa [ApplyBoid.body, forloop] using h1
  · intro j
    rw [hc j]
    by_cases hr : tk.index ≤ j ∧ j < tk.index + tk.count
    · have h0 : tk.index + 0 ≤ j ∧ j < tk.index + 0 + tk.count := by omega
      rw [if_pos h0, if_pos hr]
    · have h0 : ¬ (tk.index + 0 ≤ j ∧ j < tk.index + 0 + tk.count) := by omega
      rw [if_neg h0, if_neg hr]

theorem count_flatMap_range {slices : List task} {n : Nat} (h : IsSlicing slices n) (j : Nat) :
    (slices.flatMap task.range).count j = if j < n then 1 else 0 := by
  rw [List.Perm.count_eq h.facts.1 j]
  by_cases hj : j < n
  · simp [hj, List.count_eq_one_of_mem (List.nodup_range _) (List.mem_range.2 hj)]
  · simp [hj, List.count_eq_zero_of_not_mem (fun hm => hj (List.mem_range.1 hm))]

theorem IsSlicing.covers {slices : List task} {n : Nat} (h : IsSlicing slices n) (j : Nat)
    (hj : j < n) : ∃ tk ∈ slices, ∃ i, i < tk.count ∧ j = tk.index + i := by
  have hmem : j ∈ slices.flatMap task.range :=
    (List.Perm.mem_iff h.facts.1).2 (List.mem_range.2 hj)
  obtain ⟨tk, htk, hjr⟩ := List.mem_flatMap.1 hmem
  simp only [task.range, List.mem_range'] at hjr
  obtain ⟨i, hi, rfl⟩ := hjr
  exact ⟨tk, htk, i, hi, by omega⟩

/-- C6: "Boid Main" is scheduled with max slice 100 and "Apply Boid" with max
slice 500 over the same filter.  For every entity count, every partition of
the pass positions into contiguous slices of at most 100 entities for "Boid
Main" and every such partition into slices of at most 500 entities for "Apply
Boid", provided the kd-tree returns only neighbour indices inside `headings`:
both passes complete; "Boid Main" assigns every position of `newHeadings`
exactly once, with the value its task computes for that row; and "Apply Boid"
assigns every position of the `Heading` array exactly once, with the element
of `newHeadings` at the same position. -/
theorem C6_boid_main_then_apply_boid {K V S : Type} (ops : VectorOps V S)
    (kd : KdTreeOps K V S) (inp : MainInput K V S) (d : V)
    (averageNeighberCount maxNeighberCount : Nat) (mainSlices applySlices : List task)
    (hcols : inp.trsCol.length = inp.hdsCol.length)
    (hkd : ∀ p r k, ∀ ng ∈ kd.search_k_radius inp.kdtree p r k [],
      ng.2 < inp.headings.length)
    (hmain : IsSlicing mainSlices inp.hdsCol.length)
    (_hmain100 : ∀ tk ∈ mainSlices, tk.count ≤ BoidMain.maxSlice)
    (happly : IsSlicing applySlices inp.hdsCol.length)
    (_happly500 : ∀ tk ∈ applySlices, tk.count ≤ ApplyBoid.maxSlice) :
    BoidMain.maxSlice = 100 ∧ ApplyBoid.maxSlice = 500
      ∧ boidMain.filter = some boidFilter ∧ applyBoid.filter = some boidFilter
      ∧ ∃ st ast, computeAndApply ops kd inp d averageNeighberCount maxNeighberCount
            mainSlices applySlices = some (st, ast)
          ∧ st.newHeadings.cells.length = inp.hdsCol.length
          ∧ (∀ j, st.newHeadings.written.count j = if j < inp.hdsCol.length then 1 else 0)
          ∧ (∀ tk ∈ mainSlices, ∀ i, i < tk.count →
              ∃ x, BoidMain.value ops kd inp tk i = some x
                ∧ st.newHeadings.cells[tk.index + i]? = some x)
          ∧ ast.hds.cells = st.newHeadings.cells
          ∧ (∀ j, ast.hds.written.count j = if j < inp.hdsCol.length then 1 else 0) := by
  refine ⟨rfl, rfl, rfl, rfl, ?_⟩
  have hinit : ((Buffer.empty : Buffer V).resize inp.hdsCol.length d).cells.length
      = inp.hdsCol.length := by
    simp [Buffer.resize, Buffer.empty]
  obtain ⟨st, hst, -, hlen, hw, hc, -⟩ := schedule_assign
    (fun u : MainState V => u.newHeadings) (fun _ => True) (BoidMain.body ops kd inp)
    (fun tk i => (BoidMain.value ops kd inp tk i).getD d) inp.hdsCol.length
    (fun tk u _ hu hb => by
      obtain ⟨u', a, b, c, e, -⟩ := BoidMain.main_body_spec ops kd inp d hkd inp.hdsCol.length rfl
        hcols tk u hu hb
      exact ⟨u', a, trivial, b, c, e⟩)
    mainSlices
    { newHeadings := (Buffer.empty : Buffer V).resize inp.hdsCol.length d,
      averageNeighberCount := averageNeighberCount, maxNeighberCount := maxNeighberCount }
    trivial hinit hmain.facts.2.2 hmain.facts.2.1
  simp only at hlen hw hc
  obtain ⟨ast, hast, -, hlen', hw', hc', -⟩ := schedule_assign
    (fun u : ApplyState V => u.hds) (fun u => u.trs.cells.length = inp.hdsCol.length)
    (ApplyBoid.body ops inp.boid inp.deltaTime st.newHeadings.cells)
    (fun tk i => st.newHeadings.cells.getD (tk.index + i) d) inp.hdsCol.length
    (fun tk u hP hu hb => by
      obtain ⟨u', a, b, c, e, f⟩ := ApplyBoid.apply_body_spec ops inp.boid inp.deltaTime
        st.newHeadings.cells d inp.hdsCol.length hlen tk u hP hu hb
      exact ⟨u', a, b, c, e, f⟩)
    applySlices
    { hds := { cells := inp.hdsCol, written := [] },
      trs := { cells := inp.trsCol, written := [] } }
    hcols rfl happly.facts.2.2 happly.facts.2.1
  simp only at hlen' hw' hc'
  refine ⟨st, ast, ?_, hlen, ?_, ?_, ?_, ?_⟩
  · simp only [computeAndApply, hst, hast]
  · intro j
    rw [hw]
    simpa [Buffer.resize, Buffer.empty] using count_flatMap_range hmain j
  · intro tk htk i hi
    have hb := hmain.facts.2.2 tk htk
    obtain ⟨-, -, -, -, -, hv⟩ := BoidMain.main_body_spec ops kd inp d hkd inp.hdsCol.length rfl
      hcols tk
      { newHeadings := (Buffer.empty : Buffer V).resize inp.hdsCol.length d,
        averageNeighberCount := averageNeighberCount, maxNeighberCount := maxNeighberCount }
      hinit hb
    obtain ⟨x, hx⟩ := hv i hi
    refine ⟨x, hx, ?_⟩
    rw [hc tk htk i hi, hx]
    rfl
  · apply List.ext_getElem?
    intro j
    by_cases hj : j < inp.hdsCol.length
    · obtain ⟨tk, htk, i, hi, rfl⟩ := happly.covers j hj
      rw [hc' tk htk i hi]
      simp [List.getD, List.getElem?_eq_getElem (hlen.symm ▸ hj)]
    · rw [List.getElem?_eq_none (by omega), List.getElem?_eq_none (by omega)]
  · intro j
    rw [hw']
    simpa using count_flatMap_range happly j

/-- C6, on three boids, "Boid Main" cut into slices `(2, 1)` and `(0, 2)` and
"Apply Boid" run as one slice: the `Heading` array ends up equal to
`newHeadings`. -/
theorem C6_boid_main_then_apply_boid_witness :
    IsSlicing [{ index := 2, count := 1 }, { index := 0, count := 2 }] 3
      ∧ IsSlicing [{ index := 0, count := 3 }] 3
      ∧ ∃ st ast, computeAndApply Examples.intOps Examples.listKd Examples.threeBoids 0 0 0
            [{ index := 2, count := 1 }, { index := 0, count := 2 }]
            [{ index := 0, count := 3 }] = some (st, ast)
          ∧ st.newHeadings.cells.length = 3
          ∧ ast.hds.cells = st.newHeadings.cells :=
  have h1 : IsSlicing [{ index := 2, count := 1 }, { index := 0, count := 2 }] 3 :=
    ⟨[{ index := 0, count := 2 }, { index := 2, count := 1 }], List.Perm.swap _ _ _,
      by simp [contiguous]⟩
  have h2 : IsSlicing [{ index := 0, count := 3 }] 3 :=
    ⟨[{ index := 0, count := 3 }], List.Perm.refl _, by simp [contiguous]⟩
  ⟨h1, h2, by
    obtain ⟨-, -, -, -, st, ast, ha, hb, -, -, hc, -⟩ := C6_boid_main_then_apply_boid
      Examples.intOps Examples.listKd Examples.threeBoids 0 0 0
      [{ index := 2, count := 1 }, { index := 0, count := 2 }] [{ index := 0, count := 3 }]
      rfl (by intro p r k ng hng; simp [Examples.listKd] at hng; subst hng; decide)
      h1 (by decide) h2 (by decide)
    exact ⟨st, ast, ha, hb, hc⟩⟩

/-! ## C2: who changes the shared resources -/

/-- C2 as stated fails on a frame with three boids: the statement
`vector->resize(pass->entityCount)` of `CopyComponent`, which is not part of any
task body, changes the size of `positions` from 0 to 3. -/
theorem C2_resize_outside_task_body :
    ¬ (∀ (r : Res) (f' : Frame (List Int) Int),
        Action.resizePositions.run Examples.intEnv Examples.freshFrame = some f' →
        f'.shared.contents r ≠ Examples.freshFrame.shared.contents r →
        Action.resizePositions.inTaskBody = true
          ∧ write r ∈ Action.resizePositions.shareList) := by
  intro h
  have h' := h Res.positions _ rfl (by decide)
  exact absurd h'.1 (by decide)

/-- C2, amended: every resource has exactly one unit of `BoidsSystem` that
declares `write` on it, and an action leaves unchanged the contents and size of
every resource its unit does not declare `write` on (what a kd-tree build
leaves in the vector it moves from is not covered); the actions outside task
bodies are the resizes, each of which sets the size of the one vector its pass
writes to the pass's entity count, keeping the elements below it. -/
theorem C2_resources_changed_by_their_writer {K V S : Type} (env : Env K V S)
    (a : Action) (f f' : Frame K V) (h : a.run env f = some f') :
    (∀ r, (units.filter (fun u => decide (write r ∈ u.shareList))).length = 1)
      ∧ (∀ r, write r ∉ a.shareList → a.movesFrom ≠ some r →
          f'.shared.contents r = f.shared.contents r)
      ∧ (a.inTaskBody = false →
          ∃ r cells, write r ∈ a.shareList
            ∧ f.shared.contents r = Contents.vector cells
            ∧ f'.shared.contents r = Contents.vector
                (cells.take (a.entityCount f)
                  ++ List.replicate (a.entityCount f - cells.length) env.d)) := by
  refine ⟨fun r => by cases r <;> decide, ?_, ?_⟩
  · intro r hw hm
    cases a <;> simp only [Action.run] at h
    case resizePositions =>
      cases h; cases r <;> first | rfl | exact absurd (by decide) hw
    case resizeHeadings =>
      cases h; cases r <;> first | rfl | exact absurd (by decide) hw
    case resizeTargets =>
      cases h; cases r <;> first | rfl | exact absurd (by decide) hw
    case resizeNewHeadings =>
      cases h; cases r <;> first | rfl | exact absurd (by decide) hw
    case buildBoidKDTree =>
      cases h
      cases r <;> first | rfl | exact absurd (by decide) hw | exact absurd rfl hm
    case buildTargetKDTree =>
      cases h
      cases r <;> first | rfl | exact absurd (by decide) hw | exact absurd rfl hm
    case copyPositions tk =>
      have hmem : write Res.positions ∈ (Action.copyPositions tk).shareList := by
        simp [Action.shareList, Action.unit, units, copyPositions, CopyComponent.decl]
      split at h
      · cases h; cases r <;> first | rfl | exact absurd hmem hw
      · cases h
    case copyHeadings tk =>
      have hmem : write Res.headings ∈ (Action.copyHeadings tk).shareList := by
        simp [Action.shareList, Action.unit, units, copyHeadings, CopyComponent.decl]
      split at h
      · cases h; cases r <;> first | rfl | exact absurd hmem hw
      · cases h
    case copyTargets tk =>
      have hmem : write Res.targets ∈ (Action.copyTargets tk).shareList := by
        simp [Action.shareList, Action.unit, units, copyTargets, CopyComponent.decl]
      split at h
      · cases h; cases r <;> first | rfl | exact absurd hmem hw
      · cases h
    case boidMainTask tk =>
      have hmem : write Res.newHeadings ∈ (Action.boidMainTask tk).shareList := by
        simp [Action.shareList, Action.unit, units, boidMain]
      split at h
      · cases h; cases r <;> first | rfl | exact absurd hmem hw
      · cases h
    case applyBoidTask tk =>
      split at h
      · cases h; rfl
      · cases h
  · intro hin
    cases a with
    | resizePositions =>
      simp only [Action.run, Option.some.injEq] at h
      subst h
      exact ⟨Res.positions, f.shared.positions.cells, by decide, rfl, rfl⟩
    | resizeHeadings =>
      simp only [Action.run, Option.some.injEq] at h
      subst h
      exact ⟨Res.headings, f.shared.headings.cells, by decide, rfl, rfl⟩
    | resizeTargets =>
      simp only [Action.run, Option.some.injEq] at h
      subst h
      exact ⟨Res.targets, f.shared.targets.cells, by decide, rfl, rfl⟩
    | resizeNewHeadings =>
      simp only [Action.run, Option.some.injEq] at h
      subst h
      exact ⟨Res.newHeadings, f.shared.newHeadings.cells, by decide, rfl, rfl⟩
    | copyPositions tk => exact absurd hin (by simp [Action.inTaskBody])
    | copyHeadings tk => exact absurd hin (by simp [Action.inTaskBody])
    | copyTargets tk => exact absurd hin (by simp [Action.inTaskBody])
    | buildBoidKDTree => exact absurd hin (by simp [Action.inTaskBody])
    | buildTargetKDTree => exact absurd hin (by simp [Action.inTaskBody])
    | boidMainTask tk => exact absurd hin (by simp [Action.inTaskBody])
    | applyBoidTask tk => exact absurd hin (by simp [Action.inTaskBody])

/-- C2 amended, on a "Boid Main" task over three boids: the task completes and
leaves `headings`, `kdtree` and `targetTree`, which it only reads, as they
were. -/
theorem C2_resources_changed_by_their_writer_witness :
    ∃ f', (Action.boidMainTask { index := 0, count := 3 }).run Examples.intEnv
          Examples.readyFrame = some f'
      ∧ f'.shared.contents Res.headings = Examples.readyFrame.shared.contents Res.headings
      ∧ f'.shared.contents Res.kdtree = Examples.readyFrame.shared.contents Res.kdtree
      ∧ f'.shared.contents Res.targetTree
          = Examples.readyFrame.shared.contents Res.targetTree :=
  have h : ((Action.boidMainTask { index := 0, count := 3 }).run Examples.intEnv
      Examples.readyFrame).isSome = true := by decide
  ⟨_, (Option.some_get h).symm,
    (C2_resources_changed_by_their_writer Examples.intEnv _ _ _
      (Option.some_get h).symm).2.1 Res.headings (by decide) (by decide),
    (C2_resources_changed_by_their_writer Examples.intEnv _ _ _
      (Option.some_get h).symm).2.1 Res.kdtree (by decide) (by decide),
    (C2_resources_changed_by_their_writer Examples.intEnv _ _ _
      (Option.some_get h).symm).2.1 Res.targetTree (by decide) (by decide)⟩

/-! ## C3 and C4: `Child2WorldSystem` reaches outside its pass -/

/-- C4 fails for `Child2WorldSystem`: in a world with one root and one child, the
pass matches the root only and its one task is given the slice holding the
root, yet the task body completes having written `LocalToWorld` of the child
(through `ctx.get_owned_rw`), an entity outside the slice; the value written is
the product of the root's `LocalToWorld` and the child's `LocalToParent`. -/
theorem C4_child2world_writes_outside_its_slice :
    Child2WorldSystem.decl.rows Examples.hierarchy = [Examples.root]
      ∧ Examples.kid ∉ Child2WorldSystem.decl.rows Examples.hierarchy
      ∧ (Child2WorldSystem.body Examples.intTransform Examples.hierarchy 4
            (Child2WorldSystem.decl.rows Examples.hierarchy) { index := 0, count := 1 }
            Examples.hierarchyStore).map (fun s => s.log)
          = some
            [{ e := Examples.root, comp := Comp.Child, access := Access.Read },
              { e := Examples.root, comp := Comp.LocalToWorld, access := Access.Read },
              { e := Examples.kid, comp := Comp.LocalToParent, access := Access.Read },
              { e := Examples.kid, comp := Comp.LocalToWorld, access := Access.Write }]
      ∧ (Child2WorldSystem.body Examples.intTransform Examples.hierarchy 4
            (Child2WorldSystem.decl.rows Examples.hierarchy) { index := 0, count := 1 }
            Examples.hierarchyStore).map (fun s => s.comps.LocalToWorld Examples.kid)
          = some 21
      ∧ Examples.hierarchyStore.comps.LocalToWorld Examples.kid = 3 := by
  refine ⟨by decide, by decide, by decide, by decide, by decide⟩

/-- No chunk is matched both by `Child2WorldSystem` (which excludes archetypes with
`Parent` or `LocalToParent`) and by `Local2XSystem<LocalToParent>` with
`c2p_filter` (which requires both). -/
theorem Child2WorldSystem.no_common_chunk (c : Chunk) (t st : Nat) :
    (Child2WorldSystem.decl.selects c
      && (Local2XSystem.decl Comp.LocalToParent t st main.c2p_filter).selects c) = false := by
  simp only [PassDecl.selects, Child2WorldSystem.decl, Local2XSystem.decl, ConvertSystem.call,
    filters.selects, archetype_filter.selects, main.c2p_filter, filters.default]
  cases h1 : c.carries Comp.LocalToParent <;> cases h2 : c.carries Comp.Parent <;>
    simp [h1, h2]

theorem requiredPredecessor_of_not_lt (w : World) (sched : List PassDecl) (i j : Nat)
    (h : ¬ i < j) : requiredPredecessor w sched i j = false := by
  simp [requiredPredecessor, h]

/-- Between two adjacent units there is no chain other than the direct step. -/
theorem predecessor_adjacent (w : World) (sched : List PassDecl) (i : Nat)
    (h : requiredPredecessor w sched i (i + 1) = false) (hl : 0 < sched.length) :
    predecessor w sched i (i + 1) = false := by
  unfold predecessor
  obtain ⟨n, hn⟩ : ∃ n, sched.length = n + 1 := ⟨sched.length - 1, by omega⟩
  rw [hn, reaches, h, Bool.false_or, List.any_eq_false]
  intro k hk
  rw [List.mem_range] at hk
  simp [requiredPredecessor_of_not_lt w sched i k (by omega)]

/-- In every world and every frame, `Local2XSystem<LocalToParent>` is no direct or
transitive required predecessor of `Child2WorldSystem`. -/
theorem Child2WorldSystem.never_after_local2parent (w : World) (st : main.Statics)
    (t : Nat) : predecessor w (main.frameUnits st t) 12 13 = false := by
  apply predecessor_adjacent
  · have hs : sharesChunk w Child2WorldSystem.decl
        (Local2XSystem.decl Comp.LocalToParent t st.localToParent main.c2p_filter) = false := by
      simp only [sharesChunk, List.any_eq_false]
      intro c _
      simp [Child2WorldSystem.no_common_chunk c t st.localToParent]
    simp [requiredPredecessor, main.frameUnits, BoidsSystem.units, conflict, hs]
    rfl
  · simp [main.frameUnits, BoidsSystem.units]

/-- C3 fails for `Child2WorldSystem`: in the first frame over a world with one
root and one child, `Local2XSystem<LocalToParent>` (position 12) writes the
child's `LocalToParent` and `Child2WorldSystem` (position 13) reads it, and
`Child2WorldSystem` writes the child's `LocalToWorld` which `World2LocalSystem`
(position 14) reads; but the passes at 12 and 13, and those at 13 and 14, match
no common chunk, so neither earlier unit is a direct or transitive required
predecessor of the later one.  The child's `LocalToWorld` indeed depends on
which of the units at 12 and 13 runs first.  Between positions 12 and 13 the
edge is missing in every world and every frame. -/
theorem C3_child2world_not_ordered_by_dependencies :
    Examples.firstFrame[12]?
        = some (Local2XSystem.decl Comp.LocalToParent 1 0 main.c2p_filter)
      ∧ Examples.firstFrame[13]? = some Child2WorldSystem.decl
      ∧ Examples.firstFrame[14]? = some World2LocalSystem.decl
      ∧ (Local2XSystem.decl Comp.LocalToParent 1 0 main.c2p_filter).rows Examples.hierarchy
          = [Examples.kid]
      ∧ Child2WorldSystem.decl.rows Examples.hierarchy = [Examples.root]
      ∧ World2LocalSystem.decl.rows Examples.hierarchy = [Examples.kid]
      ∧ (Local2XSystem.body Examples.intTransform Examples.hierarchy Comp.LocalToParent
            [Examples.kid] { index := 0, count := 1 } Examples.hierarchyStore).map
            (fun s => s.log)
          = some
            [{ e := Examples.kid, comp := Comp.Translation, access := Access.Read },
              { e := Examples.kid, comp := Comp.LocalToParent, access := Access.Write }]
      ∧ (Child2WorldSystem.body Examples.intTransform Examples.hierarchy 4 [Examples.root]
            { index := 0, count := 1 } Examples.hierarchyStore).map (fun s => s.log)
          = some
            [{ e := Examples.root, comp := Comp.Child, access := Access.Read },
              { e := Examples.root, comp := Comp.LocalToWorld, access := Access.Read },
              { e := Examples.kid, comp := Comp.LocalToParent, access := Access.Read },
              { e := Examples.kid, comp := Comp.LocalToWorld, access := Access.Write }]
      ∧ (World2LocalSystem.body Examples.intTransform [Examples.kid]
            { index := 0, count := 1 } Examples.hierarchyStore).map (fun s => s.log)
          = some
            [{ e := Examples.kid, comp := Comp.LocalToWorld, access := Access.Read },
              { e := Examples.kid, comp := Comp.WorldToLocal, access := Access.Write }]
      ∧ predecessor Examples.hierarchy Examples.firstFrame 12 13 = false
      ∧ predecessor Examples.hierarchy Examples.firstFrame 13 14 = false
      ∧ ((Local2XSystem.body Examples.intTransform Examples.hierarchy Comp.LocalToParent
            [Examples.kid] { index := 0, count := 1 } Examples.hierarchyStore).bind
            (Child2WorldSystem.body Examples.intTransform Examples.hierarchy 4
              [Examples.root] { index := 0, count := 1 })).map
            (fun s => s.comps.LocalToWorld Examples.kid)
          = some 15
      ∧ ((Child2WorldSystem.body Examples.intTransform Examples.hierarchy 4 [Examples.root]
            { index := 0, count := 1 } Examples.hierarchyStore).bind
            (Local2XSystem.body Examples.intTransform Examples.hierarchy Comp.LocalToParent
              [Examples.kid] { index := 0, count := 1 })).map
            (fun s => s.comps.LocalToWorld Examples.kid)
          = some 21
      ∧ (∀ (w : World) (st : main.Statics) (t : Nat),
          predecessor w (main.frameUnits st t) 12 13 = false) := by
  refine ⟨by decide, by decide, by decide, by decide, by decide, by decide, by decide,
    by decide, by decide, by decide, by decide, by decide, by decide,
    Child2WorldSystem.never_after_local2parent⟩

/-! ## C11: the boolean members of `RenderDeviceGroupProxy` -/

theorem RenderDeviceGroupProxy.loop_spec {σ D : Type} (member : D → σ → Bool × σ)
    (devices : List D) (hlen : devices.length < 2 ^ 31) :
    ∀ (k z : Nat) (p : RenderDeviceGroupProxy.Progress σ), z + k ≤ devices.length →
      forloopFrom (RenderDeviceGroupProxy.step member devices) k z p
        = some
          { result := p.result
              && (RenderDeviceGroupProxy.eachOnce member ((devices.drop z).take k) p.state).1.all
                (fun b => b),
            state :=
              (RenderDeviceGroupProxy.eachOnce member ((devices.drop z).take k) p.state).2,
            called := p.called ++ List.range' z k } := by
  intro k
  induction k with
  | zero =>
    intro z p _
    simp [forloopFrom, RenderDeviceGroupProxy.eachOnce]
  | succ k ih =>
    intro z p hz
    have hlt : z < devices.length := by omega
    have hdrop : devices.drop z = devices[z] :: devices.drop (z + 1) :=
      List.drop_eq_getElem_cons hlt
    have hi : z + 1 < 2 ^ 31 := by omega
    simp only [forloopFrom, RenderDeviceGroupProxy.step, List.getElem?_eq_getElem hlt, hi,
      if_true]
    rw [ih (z + 1) _ (by omega), hdrop]
    simp [RenderDeviceGroupProxy.eachOnce, List.range'_succ, Bool.and_assoc]

theorem RenderDeviceGroupProxy.callAll_spec {σ D : Type} (member : D → σ → Bool × σ)
    (devices : List D) (s : σ) (hlen : devices.length < 2 ^ 31) :
    RenderDeviceGroupProxy.callAll member devices s
      = some
        { result := (RenderDeviceGroupProxy.eachOnce member devices s).1.all (fun b => b),
          state := (RenderDeviceGroupProxy.eachOnce member devices s).2,
          called := List.range devices.length } := by
  have h := RenderDeviceGroupProxy.loop_spec member devices hlen devices.length 0
    { result := true, state := s, called := [] } (by omega)
  simpa [RenderDeviceGroupProxy.callAll, forloop, List.range_eq_range'] using h

theorem RenderDeviceGroupProxy.eachOnce_length {σ D : Type} (member : D → σ → Bool × σ) :
    ∀ (devices : List D) (s : σ),
      (RenderDeviceGroupProxy.eachOnce member devices s).1.length = devices.length := by
  intro devices
  induction devices with
  | nil => intro s; rfl
  | cons d rest ih => intro s; simp [RenderDeviceGroupProxy.eachOnce, ih]

theorem RenderDeviceGroupProxy.callAll_callsEachOnce {σ D : Type}
    (member : D → σ → Bool × σ) (devices : List D) (s : σ)
    (hlen : devices.length < 2 ^ 31) :
    RenderDeviceGroupProxy.CallsEachOnce member devices s
      (RenderDeviceGroupProxy.callAll member devices s) := by
  refine ⟨_, RenderDeviceGroupProxy.callAll_spec member devices s hlen, ?_,
    RenderDeviceGroupProxy.eachOnce_length member devices s, rfl, rfl⟩
  simp [List.all_eq_true]

/-- C11: for every list of devices emplaced into a `RenderDeviceGroupProxy` (fewer
than `2 ^ 31`, the range of the `int` loop counter), each of `execute(pass,
handle)`, `execute(graph)`, `present` and `valid` returns, and returns `true` if
and only if every device returns `true` for that call; it calls the member of
every device exactly once, in emplacement order, also after an earlier device
has returned `false`; for an empty group it returns `true` and calls nothing. -/
theorem C11_device_group_calls_every_device {σ α : Type}
    (devices : List (IRenderDevice σ α)) (x y : α) (s : σ)
    (hlen : devices.length < 2 ^ 31) :
    RenderDeviceGroupProxy.CallsEachOnce (fun d => d.execute_pass x y) devices s
        (RenderDeviceGroupProxy.execute devices x y s)
      ∧ RenderDeviceGroupProxy.CallsEachOnce (fun d => d.execute_graph x) devices s
        (RenderDeviceGroupProxy.execute_graph devices x s)
      ∧ RenderDeviceGroupProxy.CallsEachOnce (fun d => d.present x) devices s
        (RenderDeviceGroupProxy.present devices x s)
      ∧ RenderDeviceGroupProxy.CallsEachOnce (fun d => d.valid x) devices s
        (RenderDeviceGroupProxy.valid devices x s)
      ∧ RenderDeviceGroupProxy.execute ([] : List (IRenderDevice σ α)) x y s
          = some { result := true, state := s, called := [] }
      ∧ RenderDeviceGroupProxy.execute_graph ([] : List (IRenderDevice σ α)) x s
          = some { result := true, state := s, called := [] }
      ∧ RenderDeviceGroupProxy.present ([] : List (IRenderDevice σ α)) x s
          = some { result := true, state := s, called := [] }
      ∧ RenderDeviceGroupProxy.valid ([] : List (IRenderDevice σ α)) x s
          = some { result := true, state := s, called := [] } :=
  ⟨RenderDeviceGroupProxy.callAll_callsEachOnce _ devices s hlen,
    RenderDeviceGroupProxy.callAll_callsEachOnce _ devices s hlen,
    RenderDeviceGroupProxy.callAll_callsEachOnce _ devices s hlen,
    RenderDeviceGroupProxy.callAll_callsEachOnce _ devices s hlen, rfl, rfl, rfl, rfl⟩

/-- C11, on a group of three devices of which the first reports failure:
`execute(pass, handle)` returns `false` and has nevertheless called all three
devices, in order. -/
theorem C11_device_group_calls_every_device_witness :
    ∃ p, RenderDeviceGroupProxy.execute Examples.threeDevices () () [] = some p
      ∧ p.result = false ∧ p.state = [7, 8, 9] ∧ p.called = [0, 1, 2] := by
  obtain ⟨p, h1, h2, -, h4, h5⟩ :=
    (C11_device_group_calls_every_device Examples.threeDevices () () []
      (by decide)).1
  refine ⟨p, h1, ?_, ?_, ?_⟩
  · cases hp : p.result
    · rfl
    · exact absurd (h2.1 hp false (by decide)) (by decide)
  · rw [h4]; rfl
  · rw [h5]; rfl

/-! ## C17: the `on_sync` hook -/

/-- C17: the `on_sync` hook, given any span of custom-pass dependencies, waits on
`pass_events[dp->passIndex]` for every dependency `dp` of the span, once each
and in span order, and on no other event: whatever a wait does, the hook is the
sequence of the waits on the pass indices of the span, and with waits that
record their index the record grows by exactly those indices; for an empty
span nothing happens. -/
theorem C17_on_sync_waits_in_span_order {σ : Type} (wait : Nat → σ → σ)
    (dependencies : List custom_pass) (s : σ) (waited : List Nat) :
    main.on_sync wait dependencies s
        = (dependencies.map (fun dp => dp.passIndex)).foldl (fun s i => wait i s) s
      ∧ main.on_sync (fun i log => log ++ [i]) dependencies waited
        = waited ++ dependencies.map (fun dp => dp.passIndex)
      ∧ main.on_sync wait [] s = s := by
  refine ⟨?_, ?_, rfl⟩
  · simp [main.on_sync, List.foldl_map]
  · induction dependencies generalizing waited with
    | nil => simp [main.on_sync]
    | cons dp rest ih =>
      have h := ih (waited ++ [dp.passIndex])
      simp only [main.on_sync, List.foldl_cons] at h ⊢
      simp [h]

/-! ## C18: `RenderPassSimple::execute` and `RenderSystem` -/

/-- C18: whatever the device and `reset` answer, `RenderPassSimple::execute`
enqueues `BeginRenderPass`, `UpdateBinding`, `Draw`, `EndRenderPass` in that
order, then calls `device.execute` on the buffer holding them, calls `reset`
only when `device.execute` returned `true`, and returns `true` if and only if
both returned `true`; `RenderSystem` calls `present` (once, last) if and only if
`execute` returned `true`. -/
theorem C18_render_pass_execute_and_present
    (device_execute : List render_system.RenderCommand → Bool)
    (reset : List render_system.RenderCommand → Bool × List render_system.RenderCommand)
    (st : render_system.PassState) :
    let buffer := st.command_buffer ++
      [render_system.RenderCommand.BeginRenderPass, render_system.RenderCommand.UpdateBinding,
        render_system.RenderCommand.Draw, render_system.RenderCommand.EndRenderPass]
    let enqueued := st.calls ++
      [render_system.Call.enqueue render_system.RenderCommand.BeginRenderPass,
        render_system.Call.enqueue render_system.RenderCommand.UpdateBinding,
        render_system.Call.enqueue render_system.RenderCommand.Draw,
        render_system.Call.enqueue render_system.RenderCommand.EndRenderPass,
        render_system.Call.device_execute]
    let r := render_system.RenderPassSimple.execute device_execute reset st
    (r.1 = true ↔ device_execute buffer = true ∧ (reset buffer).1 = true)
      ∧ r.2.calls = enqueued ++ (if device_execute buffer then [render_system.Call.reset] else [])
      ∧ (render_system.Call.reset ∈ r.2.calls.drop st.calls.length
          ↔ device_execute buffer = true)
      ∧ (render_system.RenderSystem device_execute reset st).calls
          = (render_system.RenderPassSimple.execute device_execute reset
              { st with calls := st.calls ++ [render_system.Call.construct] }).2.calls
            ++ (if (render_system.RenderPassSimple.execute device_execute reset
                { st with calls := st.calls ++ [render_system.Call.construct] }).1
              then [render_system.Call.present] else [])
      ∧ (render_system.Call.present
            ∈ (render_system.RenderSystem device_execute reset st).calls.drop st.calls.length
          ↔ (render_system.RenderPassSimple.execute device_execute reset
              { st with calls := st.calls ++ [render_system.Call.construct] }).1 = true) := by
  intro buffer enqueued r
  have hbuf : buffer = st.command_buffer ++
      [render_system.RenderCommand.BeginRenderPass, render_system.RenderCommand.UpdateBinding,
        render_system.RenderCommand.Draw, render_system.RenderCommand.EndRenderPass] := rfl
  cases hd : device_execute buffer <;> cases hr : (reset buffer).1 <;>
    simp [r, enqueued, render_system.RenderPassSimple.execute, render_system.RenderSystem,
      render_system.enqueue, ← hbuf, hd, hr]

/-! ## Looking a handle up -/

theorem RenderDevice.indexPlusOne_eq (bits index : Nat) (h : index + 1 < 2 ^ (max bits 32)) :
    RenderDevice.indexPlusOne bits index = index + 1 := by
  simp [RenderDevice.indexPlusOne, Nat.mod_eq_of_lt h]

theorem RenderDevice.get_resource_spec {ρ : Type} (bits : Nat) (isOptional : Bool)
    (table : List (Option ρ × Nat)) (handle : RenderGraphId)
    (hidx : handle.index + 1 < 2 ^ (max bits 32)) :
    RenderDevice._get_resouce_impl bits isOptional table handle
      = some (RenderDevice.resolves table handle,
          if isOptional then []
          else if table.length ≤ handle.index then [RenderDevice.handle_error.not_find]
          else if handle.generation = (table.getD handle.index (none, 0)).2 then []
          else [RenderDevice.handle_error.generation_dismatch]) := by
  simp only [RenderDevice._get_resouce_impl, RenderDevice.indexPlusOne_eq bits _ hidx,
    RenderDevice.resolves]
  by_cases hlt : table.length < handle.index + 1
  · have hle : table.length ≤ handle.index := by omega
    simp [hlt, hle, List.getElem?_eq_none hle]
  · have hin : handle.index < table.length := by omega
    have hle : ¬ table.length ≤ handle.index := by omega
    have hget : (table.getD handle.index (none, 0)) = table[handle.index] := by
      simp [List.getD, List.getElem?_eq_getElem hin]
    simp only [hlt, if_false, List.getElem?_eq_getElem hin, hle, hget]
    by_cases hg : handle.generation = table[handle.index].2
    · simp [hg]
    · simp [hg]

theorem RenderDevice.get_object_eq {ρ : Type} (bits : Nat) (isOptional : Bool)
    (table : List (Option ρ × Nat)) (handle : RenderGraphId) :
    RenderDevice._get_object_impl bits isOptional table handle
      = RenderDevice._get_resouce_impl bits isOptional table handle := rfl

/-- For every table, every width of the index type and every handle whose
index is not the largest value of a type that wraps (so that `index() + 1` is
exact), `_get_resouce_impl` returns the stored pointer of the entry at the
handle's index when the index is below the table's size and the stored
generation equals the handle's, and null otherwise; the optional variant
returns the same pointer as the other and logs nothing, while the other logs
`not_find` or `generation_dismatch` exactly in the two failing cases.  The same
holds for `_get_object_impl`. -/
theorem RenderDevice.lookup_in_range {ρ : Type} (bits : Nat)
    (table : List (Option ρ × Nat)) (handle : RenderGraphId)
    (hidx : handle.index + 1 < 2 ^ (max bits 32)) :
    RenderDevice._get_resouce_impl bits true table handle
        = some (RenderDevice.resolves table handle, [])
      ∧ RenderDevice._get_resouce_impl bits false table handle
        = some (RenderDevice.resolves table handle,
            if table.length ≤ handle.index then [RenderDevice.handle_error.not_find]
            else if handle.generation = (table.getD handle.index (none, 0)).2 then []
            else [RenderDevice.handle_error.generation_dismatch])
      ∧ RenderDevice._get_object_impl bits true table handle
        = some (RenderDevice.resolves table handle, [])
      ∧ RenderDevice._get_object_impl bits false table handle
        = some (RenderDevice.resolves table handle,
            if table.length ≤ handle.index then [RenderDevice.handle_error.not_find]
            else if handle.generation = (table.getD handle.index (none, 0)).2 then []
            else [RenderDevice.handle_error.generation_dismatch])
      ∧ (∀ (entry : Option ρ × Nat), table[handle.index]? = some entry →
          handle.generation = entry.2 → RenderDevice.resolves table handle = entry.1)
      ∧ (table.length ≤ handle.index → RenderDevice.resolves table handle = none)
      ∧ (∀ (entry : Option ρ × Nat), table[handle.index]? = some entry →
          handle.generation ≠ entry.2 → RenderDevice.resolves table handle = none) := by
  refine ⟨?_, ?_, ?_, ?_, ?_, ?_, ?_⟩
  · simpa using RenderDevice.get_resource_spec bits true table handle hidx
  · simpa using RenderDevice.get_resource_spec bits false table handle hidx
  · rw [RenderDevice.get_object_eq]
    simpa using RenderDevice.get_resource_spec bits true table handle hidx
  · rw [RenderDevice.get_object_eq]
    simpa using RenderDevice.get_resource_spec bits false table handle hidx
  · intro entry he hg
    simp [RenderDevice.resolves, he, hg]
  · intro hle
    simp [RenderDevice.resolves, List.getElem?_eq_none hle]
  · intro entry he hg
    simp [RenderDevice.resolves, he, hg]

/-- At the largest index of a 32-bit `uhalf_t`, `index() + 1` wraps to 0, the size
test passes and the lookup reads an empty vector past its end. -/
theorem RenderDevice.lookup_at_largest_index :
    RenderDevice._get_resouce_impl 32 true ([] : List (Option Nat × Nat))
      { index := 4294967295, generation := 0 } = none := by
  decide

/-- On a table of two entries with a 32-bit index type: the handle with
index 1 and generation 3 resolves to the second entry, without an error; the
handle with index 1 and generation 2 resolves to null, and only the
non-optional lookup logs the mismatch. -/
theorem RenderDevice.lookup_in_range_example :
    RenderDevice._get_resouce_impl 32 false Examples.twoEntries { index := 1, generation := 3 }
        = some (some 11, [])
      ∧ RenderDevice._get_resouce_impl 32 true Examples.twoEntries
          { index := 1, generation := 2 } = some (none, [])
      ∧ RenderDevice._get_resouce_impl 32 false Examples.twoEntries
          { index := 1, generation := 2 }
        = some (none, [RenderDevice.handle_error.generation_dismatch]) :=
  ⟨(RenderDevice.lookup_in_range 32 Examples.twoEntries { index := 1, generation := 3 }
      (by decide)).2.1,
    (RenderDevice.lookup_in_range 32 Examples.twoEntries { index := 1, generation := 2 }
      (by decide)).1,
    (RenderDevice.lookup_in_range 32 Examples.twoEntries { index := 1, generation := 2 }
      (by decide)).2.1⟩

/-! ## Creating under a handle that does not resolve -/

theorem RenderDevice.resizeTable_length {ρ : Type} (table : List (Option ρ × Nat)) (n : Nat)
    (h : table.length ≤ n) : (RenderDevice.resizeTable table n).length = n := by
  simp only [RenderDevice.resizeTable, List.length_append, List.length_take,
    List.length_replicate]
  omega

theorem RenderDevice.resizeTable_getElem? {ρ : Type} (table : List (Option ρ × Nat))
    (n j : Nat) (h : table.length ≤ n) (hj : j < table.length) :
    (RenderDevice.resizeTable table n)[j]? = table[j]? := by
  simp only [RenderDevice.resizeTable, List.take_of_length_le h]
  exact List.getElem?_append_left hj

theorem RenderDevice.createResource_spec {ρ : Type} (bits : Nat) (newRes : ρ)
    (table : List (Option ρ × Nat)) (handle : RenderGraphId)
    (hidx : handle.index + 1 < 2 ^ (max bits 32))
    (hnot : RenderDevice.resolves table handle = none) :
    RenderDevice.createResource bits newRes table handle
      = some { table := RenderDevice.grown table handle newRes, handle := handle,
               logged := [] } := by
  have hget := RenderDevice.get_resource_spec bits true table handle hidx
  simp only [if_true] at hget
  simp only [RenderDevice.createResource, hget, hnot, RenderDevice._create_resouce_impl,
    RenderDevice.indexPlusOne_eq bits _ hidx, RenderDevice.grown]
  by_cases hlt : table.length < handle.index + 1
  · have hl := RenderDevice.resizeTable_length table (handle.index + 1) (by omega)
    simp [hlt, hl]
  · have hin : handle.index < table.length := by omega
    simp [hlt, hin]

theorem RenderDevice.createObject_eq {ρ : Type} (bits : Nat) (newRes : ρ)
    (table : List (Option ρ × Nat)) (handle : RenderGraphId) :
    RenderDevice.createObject bits newRes table handle
      = RenderDevice.createResource bits newRes table handle := rfl

theorem RenderDevice.grown_length {ρ : Type} (table : List (Option ρ × Nat))
    (handle : RenderGraphId) (newRes : ρ) :
    (RenderDevice.grown table handle newRes).length = max table.length (handle.index + 1) := by
  simp only [RenderDevice.grown, List.length_set]
  by_cases hlt : table.length < handle.index + 1
  · rw [if_pos hlt, RenderDevice.resizeTable_length table _ (by omega)]
    omega
  · rw [if_neg hlt]
    omega

theorem RenderDevice.grown_at {ρ : Type} (table : List (Option ρ × Nat))
    (handle : RenderGraphId) (newRes : ρ) :
    (RenderDevice.grown table handle newRes)[handle.index]?
      = some (some newRes, handle.generation) := by
  have hl := RenderDevice.grown_length table handle newRes
  simp only [RenderDevice.grown, List.length_set] at hl
  simp only [RenderDevice.grown, List.getElem?_set]
  simp only [if_true]
  rw [if_pos (by omega)]

theorem RenderDevice.grown_other {ρ : Type} (table : List (Option ρ × Nat))
    (handle : RenderGraphId) (newRes : ρ) (j : Nat) (hne : j ≠ handle.index)
    (hj : j < table.length) :
    (RenderDevice.grown table handle newRes)[j]? = table[j]? := by
  have hne' : ¬ handle.index = j := fun e => hne e.symm
  simp only [RenderDevice.grown, List.getElem?_set, hne', if_false]
  by_cases hlt : table.length < handle.index + 1
  · rw [if_pos hlt, RenderDevice.resizeTable_getElem? table _ j (by omega) hj]
  · rw [if_neg hlt]

/-- With `optional(handle)` the optional lookup of the same table, for every
table, every width of the index type and every handle that does not resolve
to a resource (and whose `index() + 1` is exact), `_create_resouce_impl` returns
the handle it was given and logs nothing; afterwards the handle resolves to the
new resource, the table's size is `max(old size, index + 1)`, every entry that
existed at another index is unchanged, and every handle with the same index
and another generation resolves to null.  The same holds for
`_create_object_impl`. -/
theorem RenderDevice.create_in_range {ρ : Type} (bits : Nat) (newRes : ρ)
    (table : List (Option ρ × Nat)) (handle : RenderGraphId)
    (hidx : handle.index + 1 < 2 ^ (max bits 32))
    (hnot : RenderDevice.resolves table handle = none) :
    ∃ c, RenderDevice.createResource bits newRes table handle = some c
      ∧ RenderDevice.createObject bits newRes table handle = some c
      ∧ c.handle = handle ∧ c.logged = []
      ∧ RenderDevice._get_resouce_impl bits true c.table handle = some (some newRes, [])
      ∧ RenderDevice._get_resouce_impl bits false c.table handle = some (some newRes, [])
      ∧ RenderDevice._get_object_impl bits true c.table handle = some (some newRes, [])
      ∧ c.table.length = max table.length (handle.index + 1)
      ∧ (∀ j, j ≠ handle.index → j < table.length → c.table[j]? = table[j]?)
      ∧ (∀ g, g ≠ handle.generation →
          RenderDevice._get_resouce_impl bits true c.table
            { index := handle.index, generation := g } = some (none, [])) := by
  have hres : RenderDevice.resolves (RenderDevice.grown table handle newRes) handle
      = some newRes := by
    simp [RenderDevice.resolves, RenderDevice.grown_at]
  have hget := RenderDevice.get_resource_spec bits true
    (RenderDevice.grown table handle newRes) handle hidx
  have hget' := RenderDevice.get_resource_spec bits false
    (RenderDevice.grown table handle newRes) handle hidx
  have hlen := RenderDevice.grown_length table handle newRes
  have hat := RenderDevice.grown_at table handle newRes
  refine ⟨_, RenderDevice.createResource_spec bits newRes table handle hidx hnot, ?_, rfl, rfl,
    ?_, ?_, ?_, hlen, ?_, ?_⟩
  · rw [RenderDevice.createObject_eq]
    exact RenderDevice.createResource_spec bits newRes table handle hidx hnot
  · simpa [hres] using hget
  · have hle : ¬ (RenderDevice.grown table handle newRes).length ≤ handle.index := by
      rw [hlen]; omega
    have hgen : handle.generation
        = ((RenderDevice.grown table handle newRes).getD handle.index (none, 0)).2 := by
      simp [List.getD, hat]
    rw [hget', hres]
    simp only [Bool.false_eq_true, if_false, if_neg hle, if_pos hgen]
  · rw [RenderDevice.get_object_eq]
    simpa [hres] using hget
  · intro j hne hj
    exact RenderDevice.grown_other table handle newRes j hne hj
  · intro g hg
    have h := RenderDevice.get_resource_spec bits true
      (RenderDevice.grown table handle newRes) { index := handle.index, generation := g } hidx
    simp only [if_true] at h
    rw [h]
    simp [RenderDevice.resolves, hat, hg]

/-- Creating resource 12 under index 3 and generation 1 in a table of two
entries: the table grows to four entries and the handle resolves to 12. -/
theorem RenderDevice.create_in_range_example :
    ∃ c, RenderDevice.createResource 32 12 Examples.twoEntries { index := 3, generation := 1 }
          = some c
      ∧ c.table.length = 4
      ∧ RenderDevice._get_resouce_impl 32 true c.table { index := 3, generation := 1 }
          = some (some 12, [])
      ∧ c.table[1]? = some (some 11, 3) := by
  obtain ⟨c, h1, -, -, -, h5, -, -, h8, h9, -⟩ := RenderDevice.create_in_range 32 12
    Examples.twoEntries { index := 3, generation := 1 } (by decide) (by decide)
  exact ⟨c, h1, by simpa [Examples.twoEntries] using h8, h5,
    by simpa [Examples.twoEntries] using h9 1 (by decide) (by decide)⟩

/-! ## C15: the entity counts in the world `main` builds -/

theorem main.allocated_length (first count : Nat) : (main.allocated first count).length = count := by
  simp [main.allocated]

theorem PassDecl.entityCount_append (p : PassDecl) (w1 w2 : World) :
    p.entityCount (w1 ++ w2) = p.entityCount w1 + p.entityCount w2 := by
  simp [PassDecl.entityCount, List.filter_append]

theorem PassDecl.entityCount_chunks (p : PassDecl) (c : Chunk) (rows : List (List entity)) :
    p.entityCount (rows.map (fun es => { c with entities := es }))
      = if p.selects c then (rows.map List.length).sum else 0 := by
  have hsel : ∀ es, p.selects { c with entities := es } = p.selects c := fun _ => rfl
  induction rows with
  | nil => simp [PassDecl.entityCount]
  | cons es rest ih =>
    simp only [PassDecl.entityCount, List.map_cons, List.filter_cons, hsel] at ih ⊢
    cases hp : p.selects c
    · simp only [hp, Bool.false_eq_true, if_false] at ih ⊢
      exact ih
    · simp only [hp, if_true, List.map_cons, List.sum_cons] at ih ⊢
      rw [ih]

/-- C15: in the world `main` builds (500 targets, one settings entity, 10000
boids that hold `Boid` as a shared value), the pass over `targetFilter` has
`entityCount` 500 and every pass over `boidFilter` has `entityCount` 10000; the
chunk of the settings entity is matched by neither filter, the target chunk
only by `targetFilter` and the boid chunk only by `boidFilter`; so the resize
in `CopyComponent` gives `targets` 500 elements and `positions` and `headings`
10000, and `newHeadings` is resized to 10000.  However the store cuts the three
archetypes into chunks, the two counts are the numbers of target rows and of
boid rows. -/
theorem C15_entity_counts_of_main_world (d : Nat) :
    (∀ ts ss bs : List (List entity),
        copyTargets.entityCount (main.chunkedWorld ts ss bs) = (ts.map List.length).sum
          ∧ boidMain.entityCount (main.chunkedWorld ts ss bs) = (bs.map List.length).sum)
      ∧ main.world = main.chunkedWorld [main.allocated 0 500] [main.allocated 500 1]
          [main.allocated 501 10000]
      ∧ copyTargets.entityCount main.world = 500
      ∧ copyPositions.entityCount main.world = 10000
      ∧ copyHeadings.entityCount main.world = 10000
      ∧ boidMain.entityCount main.world = 10000
      ∧ applyBoid.entityCount main.world = 10000
      ∧ boidFilter.archetypeFilter.all = [Comp.Boid, Comp.Translation, Comp.Heading]
      ∧ boidFilter.archetypeFilter.shared = [Comp.Boid]
      ∧ boidFilter.selects main.settingsChunk = false
      ∧ targetFilter.selects main.settingsChunk = false
      ∧ boidFilter.selects main.targetChunk = false
      ∧ targetFilter.selects main.boidChunk = false
      ∧ boidFilter.selects main.boidChunk = true
      ∧ targetFilter.selects main.targetChunk = true
      ∧ main.settingsChunk.entities.length = 1
      ∧ (CopyComponent.atSchedule (copyTargets.entityCount main.world) d Buffer.empty).cells.length
          = 500
      ∧ (CopyComponent.atSchedule (copyPositions.entityCount main.world) d
          Buffer.empty).cells.length = 10000
      ∧ (CopyComponent.atSchedule (copyHeadings.entityCount main.world) d
          Buffer.empty).cells.length = 10000
      ∧ ((Buffer.empty : Buffer Nat).resize (boidMain.entityCount main.world) d).cells.length
          = 10000 := by
  have hsel_t : main.world.filter copyTargets.selects = [main.targetChunk] := by
    have h1 : copyTargets.selects main.targetChunk = true := by decide
    have h2 : copyTargets.selects main.settingsChunk = false := by decide
    have h3 : copyTargets.selects main.boidChunk = false := by decide
    simp [main.world, List.filter, h1, h2, h3]
  have hsel_b : main.world.filter copyPositions.selects = [main.boidChunk] := by
    have h1 : copyPositions.selects main.targetChunk = false := by decide
    have h2 : copyPositions.selects main.settingsChunk = false := by decide
    have h3 : copyPositions.selects main.boidChunk = true := by decide
    simp [main.world, List.filter, h1, h2, h3]
  have ht : copyTargets.entityCount main.world = 500 := by
    simp [PassDecl.entityCount, hsel_t, main.targetChunk, main.allocated_length]
  have hb : copyPositions.entityCount main.world = 10000 := by
    simp [PassDecl.entityCount, hsel_b, main.boidChunk, main.allocated_length]
  have hb1 : copyHeadings.entityCount main.world = 10000 := hb
  have hb2 : boidMain.entityCount main.world = 10000 := hb
  have hb3 : applyBoid.entityCount main.world = 10000 := hb
  have hresize : ∀ n : Nat, ((Buffer.empty : Buffer Nat).resize n d).cells.length = n := by
    intro n
    simp [Buffer.resize, Buffer.empty]
  refine ⟨?_, rfl, ht, hb, hb1, hb2, hb3, rfl, rfl, by decide, by decide, by decide,
    by decide, by decide, by decide, ?_, ?_, ?_, ?_, ?_⟩
  · intro ts ss bs
    have t1 : copyTargets.selects main.targetChunk = true := by decide
    have t2 : copyTargets.selects main.settingsChunk = false := by decide
    have t3 : copyTargets.selects main.boidChunk = false := by decide
    have b1 : boidMain.selects main.targetChunk = false := by decide
    have b2 : boidMain.selects main.settingsChunk = false := by decide
    have b3 : boidMain.selects main.boidChunk = true := by decide
    simp [main.chunkedWorld, PassDecl.entityCount_append, PassDecl.entityCount_chunks,
      t1, t2, t3, b1, b2, b3]
  · simp [main.settingsChunk, main.allocated_length]
  · rw [ht]; exact hresize 500
  · rw [hb]; exact hresize 10000
  · rw [hb1]; exact hresize 10000
  · rw [hb2]; exact hresize 10000

/-! ## C16: the data flow of the targets -/

theorem sharesChunk_chunkedWorld (P Q : PassDecl) (ts ss bs : List (List entity)) :
    sharesChunk (main.chunkedWorld ts ss bs) P Q
      = ((!ts.isEmpty && (P.selects main.targetChunk && Q.selects main.targetChunk))
        || (!ss.isEmpty && (P.selects main.settingsChunk && Q.selects main.settingsChunk))
        || (!bs.isEmpty && (P.selects main.boidChunk && Q.selects main.boidChunk))) := by
  have h : ∀ (c : Chunk) (l : List (List entity)),
      (l.map (fun es => { c with entities := es })).any
          (fun c' => P.selects c' && Q.selects c')
        = (!l.isEmpty && (P.selects c && Q.selects c)) := by
    intro c l
    have hsel : ∀ es, (P.selects { c with entities := es }
        && Q.selects { c with entities := es }) = (P.selects c && Q.selects c) :=
      fun _ => rfl
    induction l with
    | nil => rfl
    | cons es rest ih =>
      simp only [List.map_cons, List.any_cons, hsel, ih]
      cases (P.selects c && Q.selects c) <;> simp
  simp only [sharesChunk, main.chunkedWorld, List.any_append, h]

/-- C16: in the world `main` builds and in every frame, `RandomTargetSystem`
(position 1) is a required predecessor of `MoveTowardSystem` (position 2), which
is one of the `CopyComponent<Translation>` pass over `targetFilter` (position
6), which is one of the target kd-tree pass (position 7), which is one of "Boid
Main" (position 8); `MoveTowardSystem` is no direct or transitive required
predecessor of the `CopyComponent<Translation>` pass over `boidFilter` (position
3), the two matching no common chunk.  The same holds however the store cuts
the archetypes into chunks, as long as there is a chunk of targets. -/
theorem C16_target_data_flow (st : main.Statics) (t : Nat) :
    (main.frameUnits st t)[1]? = some RandomTargetSystem.decl
      ∧ (main.frameUnits st t)[2]? = some MoveTowardSystem.decl
      ∧ (main.frameUnits st t)[3]? = some copyPositions
      ∧ (main.frameUnits st t)[6]? = some copyTargets
      ∧ (main.frameUnits st t)[7]? = some buildTargetKDTree
      ∧ (main.frameUnits st t)[8]? = some boidMain
      ∧ requiredPredecessor main.world (main.frameUnits st t) 1 2 = true
      ∧ requiredPredecessor main.world (main.frameUnits st t) 2 6 = true
      ∧ requiredPredecessor main.world (main.frameUnits st t) 6 7 = true
      ∧ requiredPredecessor main.world (main.frameUnits st t) 7 8 = true
      ∧ requiredPredecessor main.world (main.frameUnits st t) 2 3 = false
      ∧ predecessor main.world (main.frameUnits st t) 2 3 = false
      ∧ sharesChunk main.world copyPositions MoveTowardSystem.decl = false
      ∧ (∀ ts ss bs : List (List entity),
          sharesChunk (main.chunkedWorld ts ss bs) copyPositions MoveTowardSystem.decl = false
            ∧ (ts ≠ [] →
                requiredPredecessor (main.chunkedWorld ts ss bs) (main.frameUnits st t) 1 2
                    = true
                  ∧ requiredPredecessor (main.chunkedWorld ts ss bs) (main.frameUnits st t) 2 6
                    = true)
            ∧ requiredPredecessor (main.chunkedWorld ts ss bs) (main.frameUnits st t) 6 7
                = true
            ∧ requiredPredecessor (main.chunkedWorld ts ss bs) (main.frameUnits st t) 7 8
                = true) := by
  have u1 : (main.frameUnits st t)[1]? = some RandomTargetSystem.decl := rfl
  have u2 : (main.frameUnits st t)[2]? = some MoveTowardSystem.decl := rfl
  have u3 : (main.frameUnits st t)[3]? = some copyPositions := rfl
  have u6 : (main.frameUnits st t)[6]? = some copyTargets := rfl
  have u7 : (main.frameUnits st t)[7]? = some buildTargetKDTree := rfl
  have u8 : (main.frameUnits st t)[8]? = some boidMain := rfl
  have hno : sharesChunk main.world copyPositions MoveTowardSystem.decl = false := by decide
  have h23 : requiredPredecessor main.world (main.frameUnits st t) 2 3 = false := by
    simp only [requiredPredecessor, u2, u3, conflict, hno]
    decide
  refine ⟨u1, u2, u3, u6, u7, u8, ?_, ?_, ?_, ?_, h23, ?_, hno, ?_⟩
  · simp only [requiredPredecessor, u1, u2]; decide
  · simp only [requiredPredecessor, u2, u6]; decide
  · simp only [requiredPredecessor, u6, u7]; decide
  · simp only [requiredPredecessor, u7, u8]; decide
  · exact predecessor_adjacent main.world (main.frameUnits st t) 2 h23
      (by simp [main.frameUnits, BoidsSystem.units])
  · intro ts ss bs
    have hno' : sharesChunk (main.chunkedWorld ts ss bs) copyPositions MoveTowardSystem.decl
        = false := by
      rw [sharesChunk_chunkedWorld]
      have a1 : copyPositions.selects main.targetChunk = false := by decide
      have a2 : MoveTowardSystem.decl.selects main.settingsChunk = false := by decide
      have a3 : MoveTowardSystem.decl.selects main.boidChunk = false := by decide
      simp [a1, a2, a3]
    refine ⟨hno', ?_, ?_, ?_⟩
    · intro hts
      have hne : ts.isEmpty = false := by
        cases ts with
        | nil => exact absurd rfl hts
        | cons a rest => rfl
      have s12 : sharesChunk (main.chunkedWorld ts ss bs) MoveTowardSystem.decl
          RandomTargetSystem.decl = true := by
        rw [sharesChunk_chunkedWorld]
        have a1 : MoveTowardSystem.decl.selects main.targetChunk = true := by decide
        have a2 : RandomTargetSystem.decl.selects main.targetChunk = true := by decide
        simp [a1, a2, hne]
      have s26 : sharesChunk (main.chunkedWorld ts ss bs) copyTargets MoveTowardSystem.decl
          = true := by
        rw [sharesChunk_chunkedWorld]
        have a1 : MoveTowardSystem.decl.selects main.targetChunk = true := by decide
        have a2 : copyTargets.selects main.targetChunk = true := by decide
        simp [a1, a2, hne]
      constructor
      · simp only [requiredPredecessor, u1, u2, conflict, s12]; decide
      · simp only [requiredPredecessor, u2, u6, conflict, s26]; decide
    · have h := conflict_of_resource (main.chunkedWorld ts ss bs) buildTargetKDTree
        copyTargets (by decide)
      simp only [requiredPredecessor, u6, u7, h]; decide
    · have h := conflict_of_resource (main.chunkedWorld ts ss bs) boidMain
        buildTargetKDTree (by decide)
      simp only [requiredPredecessor, u7, u8, h]; decide

/-! ## C12: the indexed accesses stay inside the buffers -/

theorem BoidsSystem.BoidMain.calculateBoids_loop {K V S : Type} (ops : VectorOps V S)
    (inp : MainInput K V S) (l : Locals V S) (d : V) (n : Nat)
    (hh : inp.hdsCol.length = n) (ht : inp.trsCol.length = n) (tk : task)
    (st : MainState V) (hs : st.newHeadings.cells.length = n)
    (hb : tk.index + tk.count ≤ n) :
    ∃ st', forloop 0 tk.count
          (BoidMain.calculateBoids ops inp l tk.index (operation.get_parameter inp.hdsCol tk)
            (operation.get_parameter inp.trsCol tk)) st = some st'
      ∧ st'.newHeadings.cells.length = n
      ∧ st'.newHeadings.written = st.newHeadings.written ++ tk.range := by
  have htrs : ∀ i, i < tk.count → operation.get_parameter inp.trsCol tk i
      = some (inp.trsCol.getD (tk.index + i) d) :=
    fun i hi => operation.get_parameter_some inp.trsCol d tk i (by omega)
  have hhds : ∀ i, i < tk.count → operation.get_parameter inp.hdsCol tk i
      = some (inp.hdsCol.getD (tk.index + i) d) :=
    fun i hi => operation.get_parameter_some inp.hdsCol d tk i (by omega)
  obtain ⟨st3, hst3, -, hlen3, hw3, -⟩ := forloopFrom_assign
    (fun u : MainState V => u.newHeadings) (fun _ => True)
    (BoidMain.calculateBoids ops inp l tk.index (operation.get_parameter inp.hdsCol tk)
      (operation.get_parameter inp.trsCol tk))
    (fun i => BoidMain.newHeading ops inp l (inp.hdsCol.getD (tk.index + i) d)
      (inp.trsCol.getD (tk.index + i) d) i)
    tk.index tk.count 0 st trivial
    (fun i u _ hi _ hu => by
      obtain ⟨nh, hnh, -⟩ := Buffer.assign_spec u.newHeadings (tk.index + i)
        (BoidMain.newHeading ops inp l (inp.hdsCol.getD (tk.index + i) d)
          (inp.trsCol.getD (tk.index + i) d) i) hu
      refine ⟨{ u with newHeadings := nh }, ?_, trivial, hnh⟩
      simp only [BoidMain.calculateBoids, hhds i (by omega), htrs i (by omega), hnh])
    (by simp only; omega)
  exact ⟨st3, by simpa [forloop] using hst3, by omega, by simpa [task.range] using hw3⟩

/-- C12: for every slice with `index + count <= entityCount` of its pass, every
access `(*vector)[index + i]` of `CopyComponent`, `(*newHeadings)[index + i]` of
"Boid Main" and `(*newHeadings)[i + index]` of "Apply Boid", `i < count`, is
inside the buffer: the buffer has `entityCount` elements after the resize that
precedes scheduling, the task bodies keep that size, and under it the task
bodies run through without an access out of bounds (which would make them
undefined); the two boid passes have the same `entityCount` in every world. -/
theorem C12_indexed_accesses_within_bounds {K V S γ α : Type} (ops : VectorOps V S)
    (inp : MainInput K V S) (convert : γ → α) (col : List γ) (d : α) (dv : V)
    (tk tk' : task)
    (hb : tk.index + tk.count ≤ col.length)
    (hb' : tk'.index + tk'.count ≤ inp.hdsCol.length)
    (hcols : inp.trsCol.length = inp.hdsCol.length) :
    (∀ vector : Buffer α,
        (CopyComponent.atSchedule col.length d vector).cells.length = col.length)
      ∧ (∀ v : Buffer α, v.cells.length = col.length →
          (∀ i, i < tk.count → tk.index + i < v.cells.length)
            ∧ ∃ v', CopyComponent.body convert col tk v = some v'
                ∧ v'.cells.length = col.length)
      ∧ ((Buffer.empty : Buffer V).resize inp.hdsCol.length dv).cells.length
          = inp.hdsCol.length
      ∧ (∀ (l : Locals V S) (st : MainState V),
          st.newHeadings.cells.length = inp.hdsCol.length →
          (∀ i, i < tk'.count → tk'.index + i < st.newHeadings.cells.length)
            ∧ ∃ st', forloop 0 tk'.count
                  (BoidMain.calculateBoids ops inp l tk'.index
                    (operation.get_parameter inp.hdsCol tk')
                    (operation.get_parameter inp.trsCol tk')) st = some st'
                ∧ st'.newHeadings.cells.length = inp.hdsCol.length)
      ∧ (∀ (newHeadings : Buffer V) (ast : ApplyState V),
          newHeadings.cells.length = inp.hdsCol.length →
          ast.hds.cells.length = inp.hdsCol.length →
          ast.trs.cells.length = inp.hdsCol.length →
          (∀ i, i < tk'.count → i + tk'.index < newHeadings.cells.length)
            ∧ ∃ ast', ApplyBoid.body ops inp.boid inp.deltaTime newHeadings.cells tk' ast
                = some ast')
      ∧ (∀ w : World, applyBoid.entityCount w = boidMain.entityCount w) := by
  refine ⟨?_, ?_, ?_, ?_, ?_, fun _ => rfl⟩
  · intro vector
    simp only [CopyComponent.atSchedule, Buffer.resize, List.length_append, List.length_take,
      List.length_replicate]
    omega
  · intro v hv
    refine ⟨fun i hi => by omega, ?_⟩
    obtain ⟨v', h1, h2, -⟩ := CopyComponent.copy_body_spec convert col d tk v hv hb
    exact ⟨v', h1, h2⟩
  · simp [Buffer.resize, Buffer.empty]
  · intro l st hs
    refine ⟨fun i hi => by omega, ?_⟩
    obtain ⟨st', h1, h2, -⟩ := BoidMain.calculateBoids_loop ops inp l dv inp.hdsCol.length rfl
      hcols tk' st hs hb'
    exact ⟨st', h1, h2⟩
  · intro newHeadings ast hn hh ht
    refine ⟨fun i hi => by omega, ?_⟩
    obtain ⟨ast', h1, -⟩ := ApplyBoid.apply_body_spec ops inp.boid inp.deltaTime
      newHeadings.cells dv inp.hdsCol.length hn tk' ast ht hh hb'
    exact ⟨ast', h1⟩

/-- C12, on three boids and the slice `(1, 2)`: the copy of the translations
into a vector resized to 3 runs through. -/
theorem C12_indexed_accesses_within_bounds_witness :
    ∃ v', CopyComponent.body (fun x : Int => x) Examples.threeBoids.trsCol
          { index := 1, count := 2 } (CopyComponent.atSchedule 3 0 Buffer.empty) = some v'
      ∧ v'.cells.length = 3 :=
  ((C12_indexed_accesses_within_bounds Examples.intOps Examples.threeBoids
      (fun x : Int => x) Examples.threeBoids.trsCol 0 0 { index := 1, count := 2 }
      { index := 1, count := 2 } (by decide) (by decide) rfl).2.1
    (CopyComponent.atSchedule 3 0 Buffer.empty) rfl).2

/-! ## C13: the task body of `ConvertSystem` -/

theorem ConvertSystem.body_loop {σ : Type} (f : List (Option entity) → σ → Option σ)
    (present : entity → Comp → Bool) (T : Comp) (Ts : List Comp) (rows : List entity)
    (tk : task) :
    ∀ (k z : Nat) (s : σ), tk.index + z + k ≤ rows.length →
      forloopFrom
          (fun i s =>
            match operation.get_parameter rows tk i with
            | none => none
            | some row =>
              f ((T :: Ts).map (fun x => if present row x then some row else none)) s)
          k z s
        = ((rows.drop (tk.index + z)).take k).foldlM
            (fun s row =>
              f ((T :: Ts).map (fun x => if present row x then some row else none)) s)
            s := by
  intro k
  induction k with
  | zero => intro z s _; simp [forloopFrom]
  | succ k ih =>
    intro z s hz
    have hlt : tk.index + z < rows.length := by omega
    have hdrop : rows.drop (tk.index + z) = rows[tk.index + z] :: rows.drop (tk.index + z + 1) :=
      List.drop_eq_getElem_cons hlt
    rw [hdrop, List.take_succ_cons, List.foldlM_cons]
    simp only [forloopFrom, operation.get_parameter, List.getElem?_eq_getElem hlt]
    cases hf : f ((T :: Ts).map
        (fun x => if present rows[tk.index + z] x then some rows[tk.index + z] else none)) s
      with
    | none => rfl
    | some s' =>
      have h := ih (z + 1) s' (by omega)
      simp only [operation.get_parameter] at h
      show forloopFrom _ k (z + 1) s' = _
      rw [h, Nat.add_assoc]
      rfl

theorem foldlM_record {β γ : Type} (g : β → γ) :
    ∀ (l : List β) (acc : List γ),
      l.foldlM (fun (calls : List γ) b => some (calls ++ [g b])) acc = some (acc ++ l.map g) := by
  intro l
  induction l with
  | nil => intro acc; simp
  | cons b rest ih =>
    intro acc
    rw [List.foldlM_cons]
    show (rest.foldlM _ (acc ++ [g b])) = _
    rw [ih]
    simp

theorem foldlM_same {β σ : Type} :
    ∀ (l : List β) (s : σ), l.foldlM (fun (s : σ) (_ : β) => some s) s = some s := by
  intro l
  induction l with
  | nil => intro s; rfl
  | cons b rest ih =>
    intro s
    rw [List.foldlM_cons]
    exact ih s

theorem ConvertSystem.paramList_mutable (T : Comp) (Ts : List Comp) :
    (ConvertSystem.paramList T Ts).filter (fun e => decide (e.2 = Access.Write))
      = [(T, Access.Write)] := by
  have h : ∀ l : List Comp,
      (l.map param_const).filter (fun e => decide (e.2 = Access.Write)) = [] := by
    intro l
    induction l with
    | nil => rfl
    | cons a rest ih => simp [param_const, List.filter_cons, ih]
  simp [ConvertSystem.paramList, param, List.filter_cons, h]

/-- C13: for every slice inside the pass, and whichever of the pointers
`o.get_parameter<X>()` are null, the task body of `ConvertSystem<T, Ts...>` is
the sequence of calls of the convert function `f` on the rows of the slice, one
call for each row, in increasing row order; the arguments of a call are, for
`T` and then each of `Ts`, the pointer `v + i` to the row's element when the
array pointer `v` is non-null and null when it is null.  A convert function
that records its arguments records exactly these; with a convert function that
changes nothing the body changes nothing; and the parameter list declares `T`
mutable and every one of `Ts` const.  In a world, the array pointer is non-null
exactly when the row's chunk carries the component, as its own array or as a
shared value. -/
theorem C13_convert_body_calls_f_once_a_row {σ : Type}
    (f : List (Option entity) → σ → Option σ) (present : entity → Comp → Bool) (T : Comp)
    (Ts : List Comp) (rows : List entity) (tk : task) (s : σ)
    (hb : tk.index + tk.count ≤ rows.length) :
    ((rows.drop tk.index).take tk.count).length = tk.count
      ∧ (∀ i, i < tk.count → ((rows.drop tk.index).take tk.count)[i]? = rows[tk.index + i]?)
      ∧ ConvertSystem.body f present T Ts rows tk s
        = ((rows.drop tk.index).take tk.count).foldlM
            (fun s row =>
              f ((T :: Ts).map (fun x => if present row x then some row else none)) s)
            s
      ∧ ConvertSystem.body (fun args calls => some (calls ++ [args])) present T Ts rows tk []
        = some (((rows.drop tk.index).take tk.count).map
            (fun row => (T :: Ts).map (fun x => if present row x then some row else none)))
      ∧ ConvertSystem.body (fun _ s => some s) present T Ts rows tk s = some s
      ∧ ConvertSystem.paramList T Ts = param T :: Ts.map param_const
      ∧ (ConvertSystem.paramList T Ts).filter (fun e => decide (e.2 = Access.Write))
        = [(T, Access.Write)]
      ∧ (∀ e ∈ Ts.map param_const, e.2 = Access.Read)
      ∧ (∀ (w : World) (row : entity) (c : Chunk) (x : Comp), w.chunkOf row = some c →
          (w.get_parameter row x = true ↔ x ∈ c.types ∨ x ∈ c.shared)) := by
  have hbody : ∀ {τ : Type} (g : List (Option entity) → τ → Option τ) (t : τ),
      ConvertSystem.body g present T Ts rows tk t
        = ((rows.drop tk.index).take tk.count).foldlM
            (fun s row =>
              g ((T :: Ts).map (fun x => if present row x then some row else none)) s)
            t := by
    intro τ g t
    have h := ConvertSystem.body_loop g present T Ts rows tk tk.count 0 t (by omega)
    simpa [ConvertSystem.body, forloop] using h
  refine ⟨?_, ?_, hbody f s, ?_, ?_, rfl, ConvertSystem.paramList_mutable T Ts, ?_, ?_⟩
  · simp only [List.length_take, List.length_drop]
    omega
  · intro i hi
    rw [List.getElem?_take_of_lt hi, List.getElem?_drop]
  · rw [hbody]
    simpa using foldlM_record
      (fun row => (T :: Ts).map (fun x => if present row x then some row else none))
      ((rows.drop tk.index).take tk.count) []
  · rw [hbody]
    exact foldlM_same _ s
  · intro e he
    obtain ⟨x, -, rfl⟩ := List.mem_map.1 he
    rfl
  · intro w row c x hc
    simp [World.get_parameter, hc, Chunk.carries]

/-- C13, on two slices of one row.  For `kid`, whose archetype owns
`LocalToParent` and `Translation`, `ConvertSystem<LocalToParent, Translation,
Rotation, Scale>` calls its convert function once, with the pointers to `kid`'s
`LocalToParent` and `Translation` and null for `Rotation` and `Scale`.  For
`follower`, whose archetype owns `LocalToWorld` and carries `Translation` as a
shared value, the `Translation` pointer handed over is non-null as well. -/
theorem C13_convert_body_calls_f_once_a_row_witness :
    ConvertSystem.body (fun args calls => some (calls ++ [args]))
        Examples.hierarchy.get_parameter
        Comp.LocalToParent [Comp.Translation, Comp.Rotation, Comp.Scale] [Examples.kid]
        { index := 0, count := 1 } []
      = some [[some Examples.kid, some Examples.kid, none, none]]
    ∧ ConvertSystem.body (fun args calls => some (calls ++ [args]))
        Examples.sharedSource.get_parameter
        Comp.LocalToWorld [Comp.Translation, Comp.Rotation, Comp.Scale] [Examples.follower]
        { index := 0, count := 1 } []
      = some [[some Examples.follower, some Examples.follower, none, none]] :=
  ⟨((C13_convert_body_calls_f_once_a_row
      (fun (_ : List (Option entity)) (s : Unit) => some s) Examples.hierarchy.get_parameter
      Comp.LocalToParent [Comp.Translation, Comp.Rotation, Comp.Scale] [Examples.kid]
      { index := 0, count := 1 } () (by decide)).2.2.2.1).trans (by decide),
    ((C13_convert_body_calls_f_once_a_row
      (fun (_ : List (Option entity)) (s : Unit) => some s) Examples.sharedSource.get_parameter
      Comp.LocalToWorld [Comp.Translation, Comp.Rotation, Comp.Scale] [Examples.follower]
      { index := 0, count := 1 } () (by decide)).2.2.2.1).trans (by decide)⟩

/-! ## C14: `Local2XSystem` recovers missing sources -/

/-- A loop whose body carries an invariant from one counter value to the next
runs to its end. -/
theorem forloopFrom_indexed {σ : Type} (P : Nat → σ → Prop) (body : Nat → σ → Option σ) :
    ∀ (k z : Nat) (s : σ), P z s →
      (∀ i u, z ≤ i → i < z + k → P i u → ∃ u', body i u = some u' ∧ P (i + 1) u') →
      ∃ s', forloopFrom body k z s = some s' ∧ P (z + k) s' := by
  intro k
  induction k with
  | zero => intro z s hP _; exact ⟨s, rfl, hP⟩
  | succ k ih =>
    intro z s hP hbody
    obtain ⟨s1, hb, hP1⟩ := hbody z s (le_refl z) (by omega) hP
    obtain ⟨s2, h2, hP2⟩ := ih (z + 1) s1 hP1
      (fun i u hi hi' => hbody i u (by omega) (by omega))
    refine ⟨s2, by simp [forloopFrom, hb, h2], ?_⟩
    have : z + (k + 1) = z + 1 + k := by omega
    rw [this]
    exact hP2

theorem calc_align_exact (bits n align : Nat) (ha : 0 < align)
    (hfit : n + align - 1 < 2 ^ bits) :
    calc_align bits n align = some ((n + align - 1) / align * align) := by
  have hpos : 0 < 2 ^ bits := Nat.pow_pos (by decide)
  have htop : ((n + align) % 2 ^ bits + (2 ^ bits - 1)) % 2 ^ bits = n + align - 1 := by
    by_cases hlt : n + align < 2 ^ bits
    · rw [Nat.mod_eq_of_lt hlt]
      have : n + align + (2 ^ bits - 1) = (n + align - 1) + 2 ^ bits := by omega
      rw [this, Nat.add_mod_right, Nat.mod_eq_of_lt hfit]
    · have heq : n + align = 2 ^ bits := by omega
      rw [heq, Nat.mod_self, Nat.zero_add, Nat.mod_eq_of_lt (by omega)]
  have hle : (n + align - 1) / align * align ≤ n + align - 1 := Nat.div_mul_le_self _ _
  have hne : align ≠ 0 := by omega
  simp only [calc_align, if_neg hne, htop]
  rw [Nat.mod_eq_of_lt (by omega)]

/-- When `r + align - 1` exceeds the range of `size_t` for a multiple `r` of
`align` that is itself in range, the sum wraps around and `calc_align(r, align)`
is smaller than `r`. -/
theorem calc_align_wraps (bits r align : Nat) (ha : 0 < align) (hr : r < 2 ^ bits)
    (hal : align ≤ 2 ^ bits) (hover : 2 ^ bits ≤ r + align - 1) :
    calc_align bits r align ≠ some r := by
  intro h
  have hne : align ≠ 0 := by omega
  have hsum : (r + align) % 2 ^ bits = r + align - 2 ^ bits := by
    have : r + align = (r + align - 2 ^ bits) + 2 ^ bits := by omega
    rw [this, Nat.add_mod_right, Nat.mod_eq_of_lt (by omega)]
    omega
  have htop : ((r + align) % 2 ^ bits + (2 ^ bits - 1)) % 2 ^ bits
      = r + align - 1 - 2 ^ bits := by
    rw [hsum]
    have : r + align - 2 ^ bits + (2 ^ bits - 1) = (r + align - 1 - 2 ^ bits) + 2 ^ bits := by
      omega
    rw [this, Nat.add_mod_right, Nat.mod_eq_of_lt (by omega)]
  simp only [calc_align, if_neg hne, htop, Option.some.injEq] at h
  have h1 : (r + align - 1 - 2 ^ bits) / align * align ≤ r + align - 1 - 2 ^ bits :=
    Nat.div_mul_le_self _ _
  have h2 : (r + align - 1 - 2 ^ bits) / align * align % 2 ^ bits
      ≤ (r + align - 1 - 2 ^ bits) / align * align := Nat.mod_le _ _
  omega

/-- C24 as stated fails on a 64-bit and on a 32-bit `size_t`: for `n = 1` and
`align = 2 ^ 63 + 1` the sum `n + align - 1` is in range and
`calc_align(n, align)` is `align`, but in the second call `align + align - 1`
wraps around to 1 and `calc_align(align, align)` is 0; likewise for
`align = 2 ^ 31 + 1` on 32 bits. -/
theorem C24_second_call_wraps :
    ¬ (∀ n align : Nat, 0 < align → n + align - 1 < 2 ^ 64 →
        ∀ r, calc_align 64 n align = some r → calc_align 64 r align = some r)
      ∧ ¬ (∀ n align : Nat, 0 < align → n + align - 1 < 2 ^ 32 →
        ∀ r, calc_align 32 n align = some r → calc_align 32 r align = some r)
      ∧ calc_align 64 1 9223372036854775809 = some 9223372036854775809
      ∧ calc_align 64 9223372036854775809 9223372036854775809 = some 0 := by
  refine ⟨?_, ?_, by decide, by decide⟩
  · intro h
    have h1 := h 1 9223372036854775809 (by decide) (by decide) 9223372036854775809 (by decide)
    revert h1
    decide
  · intro h
    have h1 := h 1 2147483649 (by decide) (by decide) 2147483649 (by decide)
    revert h1
    decide

/-- C24, amended: for every width of `size_t` and all `n` and `align` with
`align > 0` and `n + align - 1` in the range of `size_t`, `calc_align(n, align)`
is the least multiple of `align` that is at least `n`: it is divisible by
`align`, lies in `[n, n + align)`, and no smaller multiple of `align` is at least
`n`.  Applying `calc_align` again gives the same value exactly when
`calc_align(n, align) + align - 1` is in the range of `size_t` as well. -/
theorem C24_calc_align_least_multiple (bits n align : Nat) (ha : 0 < align)
    (hfit : n + align - 1 < 2 ^ bits) :
    ∃ r, calc_align bits n align = some r ∧ align ∣ r ∧ n ≤ r ∧ r < n + align
      ∧ (∀ m, align ∣ m → n ≤ m → r ≤ m)
      ∧ (calc_align bits r align = some r ↔ r + align - 1 < 2 ^ bits) := by
  have hpos : 0 < 2 ^ bits := Nat.pow_pos (by decide)
  have hle : (n + align - 1) / align * align ≤ n + align - 1 := Nat.div_mul_le_self _ _
  have hgt : n + align - 1 < (n + align - 1) / align * align + align :=
    Nat.lt_div_mul_add ha
  refine ⟨(n + align - 1) / align * align, calc_align_exact bits n align ha hfit,
    Nat.dvd_mul_left _ _, by omega, by omega, ?_, ?_⟩
  · rintro m ⟨k, rfl⟩ hn
    have hlt : n + align - 1 < align * (k + 1) := by
      rw [Nat.mul_succ]; omega
    have hq : (n + align - 1) / align < k + 1 := by
      rw [Nat.div_lt_iff_lt_mul ha, Nat.mul_comm]
      exact hlt
    calc (n + align - 1) / align * align ≤ k * align :=
          Nat.mul_le_mul_right _ (by omega)
      _ = align * k := Nat.mul_comm _ _
  · generalize hr : (n + align - 1) / align * align = r at *
    have hdvd : align ∣ r := hr ▸ Nat.dvd_mul_left _ _
    constructor
    · intro h
      by_contra hover
      exact calc_align_wraps bits r align ha (by omega) (by omega) (by omega) h
    · intro hfit2
      rw [calc_align_exact bits r align ha hfit2]
      obtain ⟨k, rfl⟩ := hdvd
      have : (align * k + align - 1) / align = k := by
        have h3 : align * k + align - 1 = (align - 1) + align * k := by omega
        rw [h3, Nat.add_mul_div_left _ _ ha, Nat.div_eq_of_lt (by omega)]
        omega
      rw [this, Nat.mul_comm]

/-- C24 amended, on a 64-bit `size_t`: `calc_align(13, 8)` is 16, a multiple of 8
in `[13, 21)`, and `calc_align(16, 8)` is 16 again. -/
theorem C24_calc_align_least_multiple_witness :
    calc_align 64 13 8 = some 16 ∧ calc_align 64 16 8 = some 16 := by
  obtain ⟨r, h1, h2, h3, h4, -, h6⟩ := C24_calc_align_least_multiple 64 13 8 (by decide)
    (by decide)
  have hr : r = 16 := by
    have h : calc_align 64 13 8 = some 16 := by decide
    rw [h] at h1
    exact (Option.some.inj h1).symm
  subst hr
  exact ⟨h1, h6.2 (by decide)⟩

/-! ## C25: `update_maximum` -/

theorem update_maximum.loop_stores (value : Nat) :
    ∀ (evs : List Interleaving) (maximum_value prev_value : Nat),
      (update_maximum.loop value evs maximum_value prev_value).stores.length ≤ 1
        ∧ ∀ p ∈ (update_maximum.loop value evs maximum_value prev_value).stores,
            p.1 < p.2 ∧ p.2 = value := by
  intro evs
  induction evs with
  | nil => intro m p; simp [update_maximum.loop]
  | cons ev rest ih =>
    intro m p
    simp only [update_maximum.loop]
    by_cases hlt : p < value
    · simp only [if_pos hlt, compare_exchange_weak]
      by_cases hc : ev.stored.getD m = p ∧ ev.spurious = false
      · simp only [if_pos hc, if_true, List.length_singleton, le_refl, List.mem_singleton,
          true_and]
        intro q hq
        subst hq
        exact ⟨by simp only [hc.1]; exact hlt, rfl⟩
      · simp only [if_neg hc, Bool.false_eq_true, if_false]
        exact ih _ _
    · simp [if_neg hlt]

/-- As long as no other thread stores into the atomic, the atomic holds at least
the value the loop last read from it, whatever fails spuriously. -/
theorem update_maximum.loop_mono (value : Nat) :
    ∀ (evs : List Interleaving) (maximum_value prev_value : Nat),
      (∀ ev ∈ evs, ev.stored = none) →
      maximum_value ≤ (update_maximum.loop value evs maximum_value prev_value).maximum_value := by
  intro evs
  induction evs with
  | nil => intro m p _; simp [update_maximum.loop]
  | cons ev rest ih =>
    intro m p hq
    have hev : ev.stored = none := hq ev (List.mem_cons_self _ _)
    simp only [update_maximum.loop]
    by_cases hlt : p < value
    · simp only [if_pos hlt, compare_exchange_weak, hev, Option.getD_none]
      by_cases hc : m = p ∧ ev.spurious = false
      · simp only [if_pos hc, if_true]
        omega
      · simp only [if_neg hc, Bool.false_eq_true, if_false]
        exact ih m m (fun e he => hq e (List.mem_cons_of_mem _ he))
    · simp [if_neg hlt]

/-- C25: for every stored value `m` and every argument `v`: when no other thread
stores into the atomic and no exchange fails spuriously, `update_maximum`
returns (after at most one exchange) and leaves the atomic equal to
`max(m, v)`, which is also what the interference-free `update_maximum` of the
Boid Main model computes.  Under every interleaving, also one that ends while
the loop is still going, the call stores at most once, every store replaces a
smaller value by `v`, and for `v ≤ m` the call returns without a store and the
atomic still holds `m`; without stores of other threads the atomic never ends
below `m`. -/
theorem C25_update_maximum (m v : Nat) (evs : List Interleaving) :
    ((∀ ev ∈ evs, ev.stored = none ∧ ev.spurious = false) → (evs ≠ [] ∨ v ≤ m) →
        (update_maximum.run v evs m).returned = true
          ∧ (update_maximum.run v evs m).maximum_value = max m v
          ∧ (update_maximum.run v evs m).maximum_value = update_maximum m v)
      ∧ (update_maximum.run v evs m).stores.length ≤ 1
      ∧ (∀ p ∈ (update_maximum.run v evs m).stores, p.1 < p.2 ∧ p.2 = v)
      ∧ (v ≤ m → update_maximum.run v evs m
          = { returned := true, maximum_value := m, stores := [] })
      ∧ ((∀ ev ∈ evs, ev.stored = none) → m ≤ (update_maximum.run v evs m).maximum_value) := by
  refine ⟨?_, (update_maximum.loop_stores v evs m m).1, (update_maximum.loop_stores v evs m m).2,
    ?_, update_maximum.loop_mono v evs m m⟩
  · intro hquiet hne
    cases evs with
    | nil =>
      have hle : v ≤ m := by
        rcases hne with h | h
        · exact absurd rfl h
        · exact h
      have hnlt : ¬ m < v := by omega
      simp [update_maximum.run, update_maximum.loop, update_maximum, hnlt, Nat.max_eq_left hle]
    | cons ev rest =>
      obtain ⟨h1, h2⟩ := hquiet ev (List.mem_cons_self _ _)
      by_cases hlt : m < v
      · simp [update_maximum.run, update_maximum.loop, update_maximum, compare_exchange_weak,
          hlt, h1, h2, Nat.max_eq_right (Nat.le_of_lt hlt)]
      · simp [update_maximum.run, update_maximum.loop, update_maximum, hlt,
          Nat.max_eq_left (Nat.le_of_not_lt hlt)]
  · intro hle
    have hnlt : ¬ m < v := by omega
    cases evs with
    | nil => simp [update_maximum.run, update_maximum.loop, hnlt]
    | cons ev rest => simp [update_maximum.run, update_maximum.loop, hnlt]

/-- C25, on a stored 3 and the argument 7 with one undisturbed exchange: the
call returns and the atomic holds 7. -/
theorem C25_update_maximum_witness :
    (update_maximum.run 7 [{ stored := none, spurious := false }] 3).returned = true
      ∧ (update_maximum.run 7 [{ stored := none, spurious := false }] 3).maximum_value = 7 :=
  have h := (C25_update_maximum 3 7 [{ stored := none, spurious := false }]).1
    (by decide) (by decide)
  ⟨h.1, h.2.1⟩

/-! ## C21: creating under a handle that already resolves -/

theorem RenderDevice.indexPlusOne_le (bits index : Nat) :
    RenderDevice.indexPlusOne bits index ≤ index + 1 := by
  simp only [RenderDevice.indexPlusOne]
  exact Nat.mod_le _ _

/-- A handle that resolves to a resource is found by the optional lookup, also
when `index() + 1` wraps around. -/
theorem RenderDevice.get_resource_of_resolves {ρ : Type} (bits : Nat)
    (table : List (Option ρ × Nat)) (handle : RenderGraphId) (r : ρ)
    (hres : RenderDevice.resolves table handle = some r) :
    RenderDevice._get_resouce_impl bits true table handle = some (some r, []) := by
  have hle := RenderDevice.indexPlusOne_le bits handle.index
  simp only [RenderDevice.resolves] at hres
  cases hentry : table[handle.index]? with
  | none => simp [hentry] at hres
  | some entry =>
    simp only [hentry] at hres
    have hin : handle.index < table.length := by
      by_contra hge
      rw [List.getElem?_eq_none (by omega)] at hentry
      exact Option.noConfusion hentry
    have hnlt : ¬ table.length < RenderDevice.indexPlusOne bits handle.index := by omega
    by_cases hg : handle.generation = entry.2
    · simp only [if_pos hg] at hres
      simp only [RenderDevice._get_resouce_impl, if_neg hnlt, hentry, if_pos hg, hres]
    · simp [if_neg hg] at hres

theorem RenderDevice.createResource_existing {ρ : Type} (bits : Nat) (newRes : ρ)
    (table : List (Option ρ × Nat)) (handle : RenderGraphId) (r : ρ)
    (hres : RenderDevice.resolves table handle = some r) :
    RenderDevice.createResource bits newRes table handle
      = some { table := table, handle := handle,
               logged := [RenderDevice.handle_error.create_on_existed] } := by
  simp only [RenderDevice.createResource,
    RenderDevice.get_resource_of_resolves bits table handle r hres,
    RenderDevice._create_resouce_impl]

/-- Whenever a creation goes through, the handle resolves to a resource in the
table it leaves. -/
theorem RenderDevice.createResource_resolves {ρ : Type} (bits : Nat) (newRes : ρ)
    (table : List (Option ρ × Nat)) (handle : RenderGraphId) (c : RenderDevice.Created ρ)
    (h : RenderDevice.createResource bits newRes table handle = some c) :
    ∃ r, RenderDevice.resolves c.table handle = some r := by
  simp only [RenderDevice.createResource] at h
  cases hget : RenderDevice._get_resouce_impl bits true table handle with
  | none => simp [hget] at h
  | some found =>
    simp only [hget] at h
    cases hfound : found.1 with
    | some r =>
      simp only [hfound, RenderDevice._create_resouce_impl, Option.some.injEq] at h
      subst h
      refine ⟨r, ?_⟩
      simp only [RenderDevice._get_resouce_impl] at hget
      by_cases hlt : table.length < RenderDevice.indexPlusOne bits handle.index
      · simp only [if_pos hlt, if_true, Option.some.injEq] at hget
        rw [← hget] at hfound
        exact Option.noConfusion hfound
      · simp only [if_neg hlt] at hget
        cases hentry : table[handle.index]? with
        | none => simp [hentry] at hget
        | some entry =>
          simp only [hentry] at hget
          by_cases hg : handle.generation = entry.2
          · simp only [if_pos hg, Option.some.injEq] at hget
            rw [← hget] at hfound
            simp only [RenderDevice.resolves, hentry, if_pos hg]
            exact hfound
          · simp only [if_neg hg, if_true, Option.some.injEq] at hget
            rw [← hget] at hfound
            exact Option.noConfusion hfound
    | none =>
      simp only [hfound, RenderDevice._create_resouce_impl] at h
      refine ⟨newRes, ?_⟩
      by_cases hin : handle.index
          < (if table.length < RenderDevice.indexPlusOne bits handle.index then
              RenderDevice.resizeTable table (RenderDevice.indexPlusOne bits handle.index)
            else table).length
      · simp only [if_pos hin, Option.some.injEq] at h
        subst h
        simp only [RenderDevice.resolves, List.getElem?_set, if_true]
        rw [if_pos hin]
        simp
      · simp [if_neg hin] at h

/-- C21: with `optional(handle)` the optional lookup of the same table, for every
table, every width of the index type and every handle that resolves to a
resource, `_create_resouce_impl` and `_create_object_impl` create nothing: they
log `create_on_existed`, leave the table as it is and return the handle they
were given; the same holds for whatever non-null pointer `optional(handle)`
returns.  Hence whenever a creation under a handle goes through, a second
creation under the same handle leaves the table as the first one left it. -/
theorem C21_create_under_resolving_handle {ρ : Type} (bits : Nat) (newRes : ρ)
    (table : List (Option ρ × Nat)) (handle : RenderGraphId) :
    (∀ r, RenderDevice.resolves table handle = some r →
        RenderDevice.createResource bits newRes table handle
            = some { table := table, handle := handle,
                     logged := [RenderDevice.handle_error.create_on_existed] }
          ∧ RenderDevice.createObject bits newRes table handle
            = some { table := table, handle := handle,
                     logged := [RenderDevice.handle_error.create_on_existed] })
      ∧ (∀ existing : ρ,
          RenderDevice._create_resouce_impl bits (some existing) newRes table handle
            = some { table := table, handle := handle,
                     logged := [RenderDevice.handle_error.create_on_existed] }
          ∧ RenderDevice._create_object_impl bits (some existing) newRes table handle
            = some { table := table, handle := handle,
                     logged := [RenderDevice.handle_error.create_on_existed] })
      ∧ (∀ (c : RenderDevice.Created ρ) (again : ρ),
          RenderDevice.createResource bits newRes table handle = some c →
          RenderDevice.createResource bits again c.table handle
            = some { table := c.table, handle := handle,
                     logged := [RenderDevice.handle_error.create_on_existed] })
      ∧ (handle.index + 1 < 2 ^ (max bits 32) →
          ∃ c, RenderDevice.createResource bits newRes table handle = some c
            ∧ c.handle = handle
            ∧ ∀ again : ρ, ∃ c', RenderDevice.createResource bits again c.table handle = some c'
                ∧ c'.table = c.table ∧ c'.handle = handle) := by
  refine ⟨?_, ?_, ?_, ?_⟩
  · intro r hres
    refine ⟨RenderDevice.createResource_existing bits newRes table handle r hres, ?_⟩
    rw [RenderDevice.createObject_eq]
    exact RenderDevice.createResource_existing bits newRes table handle r hres
  · intro existing
    exact ⟨rfl, rfl⟩
  · intro c again h
    obtain ⟨r, hr⟩ := RenderDevice.createResource_resolves bits newRes table handle c h
    exact RenderDevice.createResource_existing bits again c.table handle r hr
  · intro hidx
    have hfirst : ∃ c, RenderDevice.createResource bits newRes table handle = some c
        ∧ c.handle = handle := by
      cases hres : RenderDevice.resolves table handle with
      | none =>
        exact ⟨_, RenderDevice.createResource_spec bits newRes table handle hidx hres, rfl⟩
      | some r =>
        exact ⟨_, RenderDevice.createResource_existing bits newRes table handle r hres, rfl⟩
    obtain ⟨c, hc, hh⟩ := hfirst
    refine ⟨c, hc, hh, ?_⟩
    intro again
    obtain ⟨r, hr⟩ := RenderDevice.createResource_resolves bits newRes table handle c hc
    exact ⟨_, RenderDevice.createResource_existing bits again c.table handle r hr, rfl, rfl⟩

/-- C21, on a table of two entries whose second holds resource 11 at generation
3: creating resource 12 under index 1 and generation 3 logs `create_on_existed`
and leaves both entries as they were. -/
theorem C21_create_under_resolving_handle_witness :
    RenderDevice.resolves Examples.twoEntries { index := 1, generation := 3 } = some 11
      ∧ RenderDevice.createResource 32 12 Examples.twoEntries { index := 1, generation := 3 }
        = some { table := [(some 10, 0), (some 11, 3)],
                 handle := { index := 1, generation := 3 },
                 logged := [RenderDevice.handle_error.create_on_existed] } :=
  ⟨by decide,
    ((C21_create_under_resolving_handle 32 12 Examples.twoEntries
      { index := 1, generation := 3 }).1 11 (by decide)).1⟩

/-! ## C22: arrays used without a null test belong to the `all` set -/

/-- Every chunk a filter selects carries every component of the filter's `all`
set. -/
theorem filters.selects_carries (f : filters) (c : Chunk) (x : Comp)
    (hx : x ∈ f.archetypeFilter.all) (h : f.selects c = true) : c.carries x = true := by
  simp only [filters.selects, archetype_filter.selects, Bool.and_eq_true, List.all_eq_true] at h
  exact h.1.1.1.1 x hx

theorem PassSite.uncheckedInAll_spec (s : PassSite) (h : s.uncheckedInAll = true) (x : Comp)
    (hx : x ∈ s.unchecked) :
    ∃ f, s.decl.filter = some f ∧ x ∈ f.archetypeFilter.all ∧ s.decl.declares x = true
      ∧ ∀ c : Chunk, s.decl.selects c = true → c.carries x = true := by
  simp only [PassSite.uncheckedInAll, List.all_eq_true] at h
  have hx' := h x hx
  cases hf : s.decl.filter with
  | none => simp [hf] at hx'
  | some f =>
    simp only [hf, Bool.and_eq_true, decide_eq_true_eq] at hx'
    refine ⟨f, rfl, hx'.1, hx'.2, ?_⟩
    intro c hc
    simp only [PassDecl.selects, hf] at hc
    exact filters.selects_carries f c x hx'.1 hc

/-- C22: the sites listed are the fifteen units of the frame loop of `main`
followed by the pass of `render_system::RenderSystem`.  At every one of them,
every component whose parameter array the task body indexes or dereferences
without a null test is in the `all` set of the filter the pass is created from
and in the pass's parameter list, so that every chunk the filter selects
carries it.  Among these are the destination `T` at the four `ConvertSystem`
call sites and the component `C` at the three `CopyComponent` call sites. -/
theorem C22_unchecked_arrays_in_all_set (st : main.Statics) (ppl_timestamp : Nat) :
    (passSites st ppl_timestamp).map PassSite.decl
        = main.frameUnits st ppl_timestamp ++ [render_system.RenderSystem.decl]
      ∧ (∀ site ∈ passSites st ppl_timestamp, ∀ x ∈ site.unchecked,
          ∃ f, site.decl.filter = some f ∧ x ∈ f.archetypeFilter.all
            ∧ site.decl.declares x = true
            ∧ ∀ c : Chunk, site.decl.selects c = true → c.carries x = true)
      ∧ (Comp.Rotation ∈ (RotationEulerSystem.site ppl_timestamp st.rotationEuler).unchecked
          ∧ Comp.Rotation ∈ RotationEulerSystem.filter.archetypeFilter.all)
      ∧ (Comp.Rotation ∈ (HeadingSystem.site ppl_timestamp st.heading).unchecked
          ∧ Comp.Rotation ∈ HeadingSystem.filter.archetypeFilter.all)
      ∧ (Comp.LocalToWorld ∈ (Local2XSystem.site Comp.LocalToWorld ppl_timestamp
            st.localToWorld main.wrd_filter).unchecked
          ∧ Comp.LocalToWorld ∈ main.wrd_filter.archetypeFilter.all)
      ∧ (Comp.LocalToParent ∈ (Local2XSystem.site Comp.LocalToParent ppl_timestamp
            st.localToParent main.c2p_filter).unchecked
          ∧ Comp.LocalToParent ∈ main.c2p_filter.archetypeFilter.all)
      ∧ (Comp.Translation ∈ (CopyComponent.site Comp.Translation BoidsSystem.boidFilter
            Res.positions).unchecked
          ∧ Comp.Translation ∈ BoidsSystem.boidFilter.archetypeFilter.all)
      ∧ (Comp.Heading ∈ (CopyComponent.site Comp.Heading BoidsSystem.boidFilter
            Res.headings).unchecked
          ∧ Comp.Heading ∈ BoidsSystem.boidFilter.archetypeFilter.all)
      ∧ (Comp.Translation ∈ (CopyComponent.site Comp.Translation BoidsSystem.targetFilter
            Res.targets).unchecked
          ∧ Comp.Translation ∈ BoidsSystem.targetFilter.archetypeFilter.all) := by
  have hall : ∀ site ∈ passSites st ppl_timestamp, site.uncheckedInAll = true := by
    intro site hs
    simp only [passSites, List.mem_cons, List.mem_singleton, List.not_mem_nil, or_false] at hs
    rcases hs with h | h | h | h | h | h | h | h | h | h | h | h | h | h | h | h <;>
      (subst h; rfl)
  have hmem : ∀ (x : Comp) (xs : List Comp), xs.contains x = true → x ∈ xs :=
    fun x xs h => List.elem_iff.1 h
  refine ⟨rfl, ?_, ⟨hmem _ _ rfl, by decide⟩, ⟨hmem _ _ rfl, by decide⟩,
    ⟨hmem _ _ rfl, by decide⟩, ⟨hmem _ _ rfl, by decide⟩, ⟨by decide, by decide⟩,
    ⟨by decide, by decide⟩, ⟨by decide, by decide⟩⟩
  intro site hs x hx
  exact PassSite.uncheckedInAll_spec site (hall site hs) x hx

/-! ## C23: the neighbour count "Calculate Boids" uses -/

theorem BoidsSystem.BoidMain.newHeading_eq {K V S : Type} (ops : VectorOps V S)
    (inp : MainInput K V S) (l : Locals V S) (h t : V) (i : Nat) :
    BoidMain.newHeading ops inp l h t i
      = BoidMain.boidRule ops inp l.neighbers.length (l.alignments.getD i ops.vector_zero)
          (l.separations.getD i ops.vector_zero) (l.targetings.getD i ops.vector_zero) h t :=
  rfl

/-- The loop over the neighbours of row `i` adds to element `i` of both arrays
and leaves the other elements alone. -/
theorem BoidsSystem.BoidMain.accumulate_fold {K V S : Type} (ops : VectorOps V S)
    (kd : KdTreeOps K V S) (inp : MainInput K V S) (i : Nat) :
    ∀ (ngs : List (S × Nat)), (∀ ng ∈ ngs, ng.2 < inp.headings.length) →
      ∀ (A B : List V) (a b : V), A[i]? = some a → B[i]? = some b →
        ∃ A' B', ngs.foldlM (BoidMain.accumulate ops kd inp i) (A, B) = some (A', B')
          ∧ A'.length = A.length ∧ B'.length = B.length
          ∧ A'[i]? = some (ngs.foldl
              (fun a ng => ops.add a (inp.headings.getD ng.2 ops.vector_zero)) a)
          ∧ B'[i]? = some (ngs.foldl (fun b ng => ops.add b (kd.get inp.kdtree ng.2)) b)
          ∧ ∀ j, j ≠ i → A'[j]? = A[j]? ∧ B'[j]? = B[j]? := by
  intro ngs
  induction ngs with
  | nil =>
    intro _ A B a b hA hB
    exact ⟨A, B, rfl, rfl, rfl, hA, hB, fun _ _ => ⟨rfl, rfl⟩⟩
  | cons ng rest ih =>
    intro h A B a b hA hB
    have hlt := h ng (List.mem_cons_self _ _)
    have hiA : i < A.length := by
      by_contra hge
      rw [List.getElem?_eq_none (by omega)] at hA
      exact Option.noConfusion hA
    have hiB : i < B.length := by
      by_contra hge
      rw [List.getElem?_eq_none (by omega)] at hB
      exact Option.noConfusion hB
    have hgA : A.getD i ops.vector_zero = a := by simp [List.getD, hA]
    have hgB : B.getD i ops.vector_zero = b := by simp [List.getD, hB]
    have hgH : inp.headings.getD ng.2 ops.vector_zero = inp.headings[ng.2] := by
      simp [List.getD, List.getElem?_eq_getElem hlt]
    obtain ⟨A', B', hf, hlA, hlB, hA', hB', hoth⟩ :=
      ih (fun x hx => h x (List.mem_cons_of_mem _ hx))
        (A.set i (ops.add a inp.headings[ng.2]))
        (B.set i (ops.add b (kd.get inp.kdtree ng.2)))
        (ops.add a inp.headings[ng.2]) (ops.add b (kd.get inp.kdtree ng.2))
        (by simp only [List.getElem?_set, if_true]; rw [if_pos hiA])
        (by simp only [List.getElem?_set, if_true]; rw [if_pos hiB])
    refine ⟨A', B', ?_, by simpa using hlA, by simpa using hlB, ?_, ?_, ?_⟩
    · simp only [List.foldlM_cons, BoidMain.accumulate, List.getElem?_eq_getElem hlt, hgA, hgB]
      exact hf
    · simp only [List.foldl_cons, hgH]
      exact hA'
    · simp only [List.foldl_cons]
      exact hB'
    · intro j hj
      have hne : ¬ i = j := fun e => hj e.symm
      obtain ⟨h1, h2⟩ := hoth j hj
      simp only [List.getElem?_set, if_neg hne] at h1 h2
      exact ⟨h1, h2⟩

/-- After `k` iterations of "Collect Neighbors" the first `k` elements of
`alignments` and `separations` hold the sums over the neighbours of their own
row, while `neighbers` holds the neighbours of the row handled last. -/
theorem BoidsSystem.BoidMain.collectNeighbors_sums {K V S : Type} (ops : VectorOps V S)
    (kd : KdTreeOps K V S) (inp : MainInput K V S)
    (hkd : ∀ p r k, ∀ ng ∈ kd.search_k_radius inp.kdtree p r k [],
      ng.2 < inp.headings.length)
    (tk : task) (hb : tk.index + tk.count ≤ inp.trsCol.length) :
    ∃ l, forloopFrom (BoidMain.collectNeighborsLocals ops kd inp
            (operation.get_parameter inp.trsCol tk)) tk.count 0 (BoidMain.locals0 ops tk)
          = some l
      ∧ l.alignments.length = tk.count ∧ l.separations.length = tk.count
      ∧ l.targetings.length = tk.count
      ∧ (∀ i, i < tk.count →
          l.alignments[i]?
              = some (BoidMain.headingSum ops inp (BoidMain.neighboursFound kd inp tk i))
            ∧ l.separations[i]?
              = some (BoidMain.positionSum ops kd inp (BoidMain.neighboursFound kd inp tk i)))
      ∧ (0 < tk.count → l.neighbers = BoidMain.neighboursFound kd inp tk (tk.count - 1)) := by
  obtain ⟨l, hl, hP⟩ := forloopFrom_indexed
    (fun k (l : Locals V S) =>
      l.alignments.length = tk.count ∧ l.separations.length = tk.count
        ∧ l.targetings.length = tk.count
        ∧ (∀ i, i < k →
            l.alignments[i]?
                = some (BoidMain.headingSum ops inp (BoidMain.neighboursFound kd inp tk i))
              ∧ l.separations[i]?
                = some (BoidMain.positionSum ops kd inp
                    (BoidMain.neighboursFound kd inp tk i)))
        ∧ (0 < k → l.neighbers = BoidMain.neighboursFound kd inp tk (k - 1)))
    (BoidMain.collectNeighborsLocals ops kd inp (operation.get_parameter inp.trsCol tk))
    tk.count 0 (BoidMain.locals0 ops tk)
    (by
      refine ⟨by simp [BoidMain.locals0], by simp [BoidMain.locals0],
        by simp [BoidMain.locals0], ?_, ?_⟩
      · intro i hi; omega
      · intro h; omega)
    (by
      intro i u _ hi hu
      obtain ⟨hlA, hlB, hlT, hsum, -⟩ := hu
      have hin : tk.index + i < inp.trsCol.length := by omega
      have htrs : operation.get_parameter inp.trsCol tk i = some inp.trsCol[tk.index + i] := by
        simp [operation.get_parameter, List.getElem?_eq_getElem hin]
      have hnf : BoidMain.neighboursFound kd inp tk i
          = kd.search_k_radius inp.kdtree inp.trsCol[tk.index + i] inp.boid.SightRadius 10
              [] := by
        simp only [BoidMain.neighboursFound, htrs]
      obtain ⟨A', B', hf, hlA', hlB', hA', hB', hoth⟩ := BoidMain.accumulate_fold ops kd inp i
        (kd.search_k_radius inp.kdtree inp.trsCol[tk.index + i] inp.boid.SightRadius 10 [])
        (hkd _ _ _) (u.alignments.set i ops.vector_zero) (u.separations.set i ops.vector_zero)
        ops.vector_zero ops.vector_zero
        (by simp only [List.getElem?_set, if_true]; rw [if_pos (by omega)])
        (by simp only [List.getElem?_set, if_true]; rw [if_pos (by omega)])
      refine ⟨{ u with
          neighbers := kd.search_k_radius inp.kdtree inp.trsCol[tk.index + i]
            inp.boid.SightRadius 10 [],
          alignments := A', separations := B' }, ?_, ?_, ?_, hlT, ?_, ?_⟩
      · simp only [BoidMain.collectNeighborsLocals, htrs, hf]
      · simpa [hlA] using hlA'
      · simpa [hlB] using hlB'
      · intro j hj
        by_cases hji : j = i
        · subst hji
          simp only [hnf, BoidMain.headingSum, BoidMain.positionSum]
          exact ⟨hA', hB'⟩
        · obtain ⟨h1, h2⟩ := hoth j hji
          have hne : ¬ i = j := fun e => hji e.symm
          simp only [List.getElem?_set, if_neg hne] at h1 h2
          simp only [h1, h2]
          exact hsum j (by omega)
      · intro _
        simp only [Nat.add_sub_cancel, hnf])
  simp only [Nat.zero_add] at hP
  exact ⟨l, hl, hP⟩

/-- "Collect Targets" fills `targetings` and leaves the other locals alone. -/
theorem BoidsSystem.BoidMain.collectTargets_loop {K V S : Type}
    (kd : KdTreeOps K V S) (inp : MainInput K V S)
    (tk : task) (hb : tk.index + tk.count ≤ inp.trsCol.length) (l1 : Locals V S)
    (hT : l1.targetings.length = tk.count) :
    ∃ l, forloopFrom (BoidMain.collectTargets kd inp (operation.get_parameter inp.trsCol tk))
            tk.count 0 l1 = some l
      ∧ l.neighbers = l1.neighbers ∧ l.alignments = l1.alignments
      ∧ l.separations = l1.separations
      ∧ ∀ i, i < tk.count → l.targetings[i]? = some (BoidMain.targetOf kd inp tk i) := by
  obtain ⟨l, hl, hP⟩ := forloopFrom_indexed
    (fun k (l : Locals V S) =>
      l.neighbers = l1.neighbers ∧ l.alignments = l1.alignments
        ∧ l.separations = l1.separations ∧ l.targetings.length = tk.count
        ∧ ∀ i, i < k → l.targetings[i]? = some (BoidMain.targetOf kd inp tk i))
    (BoidMain.collectTargets kd inp (operation.get_parameter inp.trsCol tk))
    tk.count 0 l1 ⟨rfl, rfl, rfl, hT, fun i hi => by omega⟩
    (by
      intro i u _ hi hu
      obtain ⟨h1, h2, h3, h4, h5⟩ := hu
      have hin : tk.index + i < inp.trsCol.length := by omega
      have htrs : operation.get_parameter inp.trsCol tk i = some inp.trsCol[tk.index + i] := by
        simp [operation.get_parameter, List.getElem?_eq_getElem hin]
      refine ⟨{ u with
          targetings := u.targetings.set i
            (kd.get inp.targetTree (kd.search_nearest inp.targetTree inp.trsCol[tk.index + i])) },
        by simp only [BoidMain.collectTargets, htrs], h1, h2, h3, ?_, ?_⟩
      · simpa using h4
      · intro j hj
        by_cases hji : j = i
        · subst hji
          simp only [List.getElem?_set, if_true, BoidMain.targetOf, htrs]
          rw [if_pos (by omega)]
        · have hne : ¬ i = j := fun e => hji e.symm
          simp only [List.getElem?_set, if_neg hne]
          exact h5 j (by omega))
  simp only [Nat.zero_add] at hP
  exact ⟨l, hl, hP.1, hP.2.1, hP.2.2.1, hP.2.2.2.2⟩

/-- C23: in the "Boid Main" task body, for every slice with at least one entity
that lies inside the pass (the kd-tree returning only neighbour indices inside
`headings`), the task completes, and for every row `i` of the slice the value
stored at `newHeadings[index + i]` is the boid rule applied to the sums over the
neighbours found for row `i`, to the target of row `i` and to `hds[i]` and
`trs[i]`, with the neighbour count of the last row of the slice (row
`count - 1`) as `neighbers.size()`: after the collection loop `neighbers` holds
the neighbours of that row.  The count used equals the number of neighbours
found for row `i` exactly when the two counts coincide. -/
theorem C23_neighbour_count_of_last_row {K V S : Type} (ops : VectorOps V S)
    (kd : KdTreeOps K V S) (inp : MainInput K V S) (d : V)
    (hkd : ∀ p r k, ∀ ng ∈ kd.search_k_radius inp.kdtree p r k [],
      ng.2 < inp.headings.length)
    (n : Nat) (hh : inp.hdsCol.length = n) (ht : inp.trsCol.length = n)
    (tk : task) (st : MainState V) (hs : st.newHeadings.cells.length = n)
    (hb : tk.index + tk.count ≤ n) (hpos : 0 < tk.count) :
    ∃ l st', BoidMain.locals ops kd inp tk = some l
      ∧ BoidMain.body ops kd inp tk st = some st'
      ∧ l.neighbers = BoidMain.neighboursFound kd inp tk (tk.count - 1)
      ∧ ∀ i, i < tk.count →
          l.alignments[i]?
              = some (BoidMain.headingSum ops inp (BoidMain.neighboursFound kd inp tk i))
          ∧ l.separations[i]?
              = some (BoidMain.positionSum ops kd inp (BoidMain.neighboursFound kd inp tk i))
          ∧ st'.newHeadings.cells[tk.index + i]?
              = some (BoidMain.boidRule ops inp
                  (BoidMain.neighboursFound kd inp tk (tk.count - 1)).length
                  (BoidMain.headingSum ops inp (BoidMain.neighboursFound kd inp tk i))
                  (BoidMain.positionSum ops kd inp (BoidMain.neighboursFound kd inp tk i))
                  (BoidMain.targetOf kd inp tk i)
                  (inp.hdsCol.getD (tk.index + i) d) (inp.trsCol.getD (tk.index + i) d))
          ∧ (l.neighbers.length = (BoidMain.neighboursFound kd inp tk i).length
              ↔ (BoidMain.neighboursFound kd inp tk (tk.count - 1)).length
                  = (BoidMain.neighboursFound kd inp tk i).length) := by
  obtain ⟨l1, hl1, hlA, hlB, hlT, hsum, hng⟩ := BoidMain.collectNeighbors_sums ops kd inp hkd tk
    (by omega)
  obtain ⟨l2, hl2, hn2, hA2, hB2, hT2⟩ := BoidMain.collectTargets_loop kd inp tk (by omega) l1 hlT
  have hloc : BoidMain.locals ops kd inp tk = some l2 := by
    simp only [BoidMain.locals, forloop, Nat.sub_zero, hl1, hl2]
  obtain ⟨st', hbody, -, -, hcells, -⟩ := BoidMain.main_body_spec ops kd inp d hkd n hh ht tk st
    hs hb
  have hneigh : l2.neighbers = BoidMain.neighboursFound kd inp tk (tk.count - 1) := by
    rw [hn2]
    exact hng hpos
  refine ⟨l2, st', hloc, hbody, hneigh, ?_⟩
  intro i hi
  have hAi : l2.alignments[i]?
      = some (BoidMain.headingSum ops inp (BoidMain.neighboursFound kd inp tk i)) := by
    rw [hA2]
    exact (hsum i hi).1
  have hBi : l2.separations[i]?
      = some (BoidMain.positionSum ops kd inp (BoidMain.neighboursFound kd inp tk i)) := by
    rw [hB2]
    exact (hsum i hi).2
  refine ⟨hAi, hBi, ?_, by rw [hneigh]⟩
  have hval : BoidMain.value ops kd inp tk i
      = some (BoidMain.newHeading ops inp l2 (inp.hdsCol.getD (tk.index + i) d)
          (inp.trsCol.getD (tk.index + i) d) i) := by
    simp only [BoidMain.value, hloc,
      operation.get_parameter_some inp.hdsCol d tk i (by omega),
      operation.get_parameter_some inp.trsCol d tk i (by omega)]
  have hcell := hcells (tk.index + i)
  rw [if_pos (by omega), Nat.add_sub_cancel_left, hval] at hcell
  rw [hcell, BoidMain.newHeading_eq, hneigh]
  simp only [List.getD_eq_getElem?_getD, hAi, hBi, hT2 i hi, Option.getD_some]

/-- C23, on two boids in one slice with the stand-in tree that finds two
neighbours for the first row and one for the second: the count left for
"Calculate Boids" is 1, the count of the second row, although two neighbours
were found for the first row, whose headings 6 and 2 add up to 8. -/
theorem C23_neighbour_count_of_last_row_witness :
    ∃ l, BoidMain.locals Examples.intOps Examples.twoThenOneKd Examples.twoBoids
            { index := 0, count := 2 } = some l
      ∧ l.neighbers.length = 1
      ∧ (BoidMain.neighboursFound Examples.twoThenOneKd Examples.twoBoids
            { index := 0, count := 2 } 0).length = 2
      ∧ l.alignments[0]? = some 8 := by
  obtain ⟨l, st', hl, _, hn, hrow⟩ := C23_neighbour_count_of_last_row Examples.intOps
    Examples.twoThenOneKd Examples.twoBoids 0
    (by
      intro p r k ng hng
      simp only [Examples.twoThenOneKd, List.nil_append] at hng
      by_cases hp : p = 0
      · simp only [hp, if_true, List.mem_cons, List.mem_singleton, List.not_mem_nil,
          or_false] at hng
        rcases hng with h | h <;> (subst h; decide)
      · simp only [hp, if_false, List.mem_singleton] at hng
        subst hng
        decide)
    2 rfl rfl { index := 0, count := 2 }
    { newHeadings := { cells := [0, 0], written := [] }, averageNeighberCount := 0,
      maxNeighberCount := 0 }
    rfl (by decide) (by decide)
  refine ⟨l, hl, ?_, by decide, ?_⟩
  · rw [hn]
    decide
  · rw [(hrow 0 (by decide)).1]
    decide

/-! ## C19 and C20: the size test wraps at the largest index -/

/-- The lookup in full: it reads the vector past its end exactly when
`index() + 1` has wrapped to a value that passes the size test although the
index is outside the table; in every other case it returns the pointer the
handle resolves to and logs as the claim describes. -/
theorem RenderDevice.get_resource_total {ρ : Type} (bits : Nat) (isOptional : Bool)
    (table : List (Option ρ × Nat)) (handle : RenderGraphId) :
    (RenderDevice.indexPlusOne bits handle.index ≤ table.length →
        table.length ≤ handle.index →
        RenderDevice._get_resouce_impl bits isOptional table handle = none)
      ∧ (¬ (RenderDevice.indexPlusOne bits handle.index ≤ table.length
            ∧ table.length ≤ handle.index) →
        RenderDevice._get_resouce_impl bits isOptional table handle
          = some (RenderDevice.resolves table handle,
              if isOptional then []
              else if table.length ≤ handle.index then [RenderDevice.handle_error.not_find]
              else if handle.generation = (table.getD handle.index (none, 0)).2 then []
              else [RenderDevice.handle_error.generation_dismatch])) := by
  have hle := RenderDevice.indexPlusOne_le bits handle.index
  constructor
  · intro h1 h2
    have hnlt : ¬ table.length < RenderDevice.indexPlusOne bits handle.index := by omega
    simp only [RenderDevice._get_resouce_impl, if_neg hnlt, List.getElem?_eq_none h2]
  · intro hnot
    by_cases hlt : table.length < RenderDevice.indexPlusOne bits handle.index
    · have hout : table.length ≤ handle.index := by omega
      simp [RenderDevice._get_resouce_impl, hlt, RenderDevice.resolves,
        List.getElem?_eq_none hout, hout]
    · have hin : handle.index < table.length := by omega
      have hout : ¬ table.length ≤ handle.index := by omega
      have hget : (table.getD handle.index (none, 0)) = table[handle.index] := by
        simp [List.getD, List.getElem?_eq_getElem hin]
      simp only [RenderDevice._get_resouce_impl, if_neg hlt, List.getElem?_eq_getElem hin,
        RenderDevice.resolves, hout, if_false, hget]
      by_cases hg : handle.generation = table[handle.index].2
      · simp [hg]
      · simp [hg]

/-- C19 fails at the largest index of an index type of 32 bits or more: on an
empty table and the handle with index 4294967295 of a 32-bit `uhalf_t` (or index
18446744073709551615 of a 64-bit one) the handle resolves to no entry, so the
claim asks for null, but `index() + 1` wraps to 0, the size test
`size() < index() + 1` does not fire, and both lookups, optional or not, read
the vector past its end (undefined).  In general, for every table, width and
handle, the lookup is undefined whenever the wrapped `index() + 1` is at most
the table's size while the index is outside the table, and in every other case
it returns the pointer the handle resolves to, logging `not_find` or
`generation_dismatch` only in the non-optional variant; an index type narrower
than 32 bits is promoted to `int` and never wraps. -/
theorem C19_lookup_wraps_at_largest_index {ρ : Type} (bits : Nat) (isOptional : Bool)
    (table : List (Option ρ × Nat)) (handle : RenderGraphId) :
    RenderDevice.resolves ([] : List (Option Nat × Nat))
        { index := 4294967295, generation := 0 } = none
      ∧ RenderDevice.indexPlusOne 32 4294967295 = 0
      ∧ RenderDevice._get_resouce_impl 32 true ([] : List (Option Nat × Nat))
          { index := 4294967295, generation := 0 } = none
      ∧ RenderDevice._get_resouce_impl 32 false ([] : List (Option Nat × Nat))
          { index := 4294967295, generation := 0 } = none
      ∧ RenderDevice._get_object_impl 32 true ([] : List (Option Nat × Nat))
          { index := 4294967295, generation := 0 } = none
      ∧ RenderDevice._get_resouce_impl 64 true ([] : List (Option Nat × Nat))
          { index := 18446744073709551615, generation := 0 } = none
      ∧ (RenderDevice.indexPlusOne bits handle.index ≤ table.length →
          table.length ≤ handle.index →
          RenderDevice._get_resouce_impl bits isOptional table handle = none
            ∧ RenderDevice._get_object_impl bits isOptional table handle = none)
      ∧ (¬ (RenderDevice.indexPlusOne bits handle.index ≤ table.length
              ∧ table.length ≤ handle.index) →
          RenderDevice._get_resouce_impl bits isOptional table handle
              = some (RenderDevice.resolves table handle,
                  if isOptional then []
                  else if table.length ≤ handle.index then
                    [RenderDevice.handle_error.not_find]
                  else if handle.generation = (table.getD handle.index (none, 0)).2 then []
                  else [RenderDevice.handle_error.generation_dismatch])
            ∧ RenderDevice._get_object_impl bits isOptional table handle
              = RenderDevice._get_resouce_impl bits isOptional table handle)
      ∧ (bits < 32 → handle.index < 2 ^ bits →
          ¬ (RenderDevice.indexPlusOne bits handle.index ≤ table.length
              ∧ table.length ≤ handle.index)) := by
  have htot := RenderDevice.get_resource_total bits isOptional table handle
  refine ⟨by decide, by decide, by decide, by decide, by decide, by decide, ?_, ?_, ?_⟩
  · intro h1 h2
    exact ⟨htot.1 h1 h2, by rw [RenderDevice.get_object_eq]; exact htot.1 h1 h2⟩
  · intro hnot
    exact ⟨htot.2 hnot, RenderDevice.get_object_eq bits isOptional table handle⟩
  · intro hb hi hwrap
    have hpow : 2 ^ bits < 2 ^ 32 := Nat.pow_lt_pow_right (by decide) hb
    have hmax : max bits 32 = 32 := by omega
    have hexact := RenderDevice.indexPlusOne_eq bits handle.index (by rw [hmax]; omega)
    omega

/-- A creation under a handle that does not resolve but whose index is inside
the table overwrites the entry, whether or not `index() + 1` wraps. -/
theorem RenderDevice.createResource_inside {ρ : Type} (bits : Nat) (newRes : ρ)
    (table : List (Option ρ × Nat)) (handle : RenderGraphId)
    (hin : handle.index < table.length)
    (hnot : RenderDevice.resolves table handle = none) :
    RenderDevice.createResource bits newRes table handle
      = some { table := RenderDevice.grown table handle newRes, handle := handle,
               logged := [] } := by
  have hle := RenderDevice.indexPlusOne_le bits handle.index
  have hget := (RenderDevice.get_resource_total bits true table handle).2 (by omega)
  have hnlt : ¬ table.length < RenderDevice.indexPlusOne bits handle.index := by omega
  have hnlt' : ¬ table.length < handle.index + 1 := by omega
  simp only [if_true] at hget
  simp only [RenderDevice.createResource, hget, hnot, RenderDevice._create_resouce_impl,
    if_neg hnlt, if_pos hin, RenderDevice.grown, if_neg hnlt']

/-- C20 fails at the largest index of an index type of 32 bits or more: on an
empty table the handle with index 4294967295 of a 32-bit `uhalf_t` does not
resolve, so the claim asks for a creation that grows the table, but
`index() + 1` wraps to 0, the optional lookup inside the create member reads the
vector past its end, and (were the lookup to answer null) the size test before
`resize` would not fire; `_create_resouce_impl` and `_create_object_impl` are
undefined there.  In general, for every table, width and handle that does not
resolve: when `index() + 1` is exact or the index is inside the table, the
creation goes through, returns the handle, logs nothing and leaves the table
the claim describes; when the wrapped `index() + 1` is at most the table's size
and the index is outside the table, it is undefined; an index type narrower
than 32 bits never wraps. -/
theorem C20_create_wraps_at_largest_index {ρ : Type} (bits : Nat) (newRes : ρ)
    (table : List (Option ρ × Nat)) (handle : RenderGraphId) :
    RenderDevice.resolves ([] : List (Option Nat × Nat))
        { index := 4294967295, generation := 0 } = none
      ∧ RenderDevice.createResource 32 12 ([] : List (Option Nat × Nat))
          { index := 4294967295, generation := 0 } = none
      ∧ RenderDevice.createObject 32 12 ([] : List (Option Nat × Nat))
          { index := 4294967295, generation := 0 } = none
      ∧ RenderDevice._create_resouce_impl 32 none 12 ([] : List (Option Nat × Nat))
          { index := 4294967295, generation := 0 } = none
      ∧ (RenderDevice.resolves table handle = none →
          (handle.index + 1 < 2 ^ (max bits 32) ∨ handle.index < table.length →
            RenderDevice.createResource bits newRes table handle
                = some { table := RenderDevice.grown table handle newRes, handle := handle,
                         logged := [] }
              ∧ RenderDevice.createObject bits newRes table handle
                = some { table := RenderDevice.grown table handle newRes, handle := handle,
                         logged := [] }
              ∧ (RenderDevice.grown table handle newRes).length
                = max table.length (handle.index + 1)
              ∧ RenderDevice.resolves (RenderDevice.grown table handle newRes) handle
                = some newRes
              ∧ (∀ j, j ≠ handle.index → j < table.length →
                  (RenderDevice.grown table handle newRes)[j]? = table[j]?)
              ∧ (∀ g, g ≠ handle.generation →
                  RenderDevice.resolves (RenderDevice.grown table handle newRes)
                    { index := handle.index, generation := g } = none))
          ∧ (RenderDevice.indexPlusOne bits handle.index ≤ table.length →
              table.length ≤ handle.index →
              RenderDevice.createResource bits newRes table handle = none
                ∧ RenderDevice.createObject bits newRes table handle = none))
      ∧ (bits < 32 → handle.index < 2 ^ bits → handle.index + 1 < 2 ^ (max bits 32)) := by
  refine ⟨by decide, rfl, rfl, rfl, ?_, ?_⟩
  · intro hnot
    constructor
    · intro hcase
      have hcreate : RenderDevice.createResource bits newRes table handle
          = some { table := RenderDevice.grown table handle newRes, handle := handle,
                   logged := [] } := by
        rcases hcase with hidx | hin
        · exact RenderDevice.createResource_spec bits newRes table handle hidx hnot
        · exact RenderDevice.createResource_inside bits newRes table handle hin hnot
      have hat := RenderDevice.grown_at table handle newRes
      refine ⟨hcreate, by rw [RenderDevice.createObject_eq]; exact hcreate,
        RenderDevice.grown_length table handle newRes, ?_,
        fun j hne hj => RenderDevice.grown_other table handle newRes j hne hj, ?_⟩
      · simp [RenderDevice.resolves, hat]
      · intro g hg
        simp [RenderDevice.resolves, hat, hg]
    · intro h1 h2
      have hget := (RenderDevice.get_resource_total bits true table handle).1 h1 h2
      have hcreate : RenderDevice.createResource bits newRes table handle = none := by
        simp only [RenderDevice.createResource, hget]
      exact ⟨hcreate, by rw [RenderDevice.createObject_eq]; exact hcreate⟩
  · intro hb hi
    have hpow : 2 ^ bits < 2 ^ 32 := Nat.pow_lt_pow_right (by decide) hb
    have hmax : max bits 32 = 32 := by omega
    rw [hmax]
    omega

end Sakura
